import Mathlib

/-!
The command-line wrapper `ocli`: database administration client, byte
formatting, backup paths and config-file editors.

A shallow embedding of the functions of `pkg/db/postgres.go`,
`pkg/utils/utils.go` and `internal/commands/addons.go` and the properties
proved about them.

Modelling conventions.

* A Go `string` is modelled by the sequence of its code points
  (`GoString := List Char`), that is, the strings considered hold valid UTF-8
  text.  `len` and byte indexing are computed from the UTF-8 encoding of the
  code points, `for _, c := range s` visits the code points in order.
* Go integers are natural numbers or integers; the one `int64` product of
  the functions modelled (`div *= unit` in `formatBytes`) is shown to stay
  below `2^63`.
* Functions of the Go standard library are modelled by their documented
  behaviour; the case table of the Unicode database is a parameter
  (`unicodeToLower`, or `u` for short), as are the operating system, the JSON
  package and the database driver, which are oracles.
* A database operation takes the trace of the calls made so far and returns
  the trace after it with its result.  The `context.Context` argument is not
  modelled: a cancelled context shows as an error given by the driver oracle.
-/

namespace Ocli

/-! ## Go strings -/

/-- A Go string holding valid UTF-8 text, given by its code points. -/
abbrev GoString := List Char

/-- The constant `utf8.RuneSelf`: code points below it are single bytes. -/
def RuneSelf : Nat := 0x80

/-- Number of bytes of the UTF-8 encoding of one code point. -/
def runeLen (c : Char) : Nat :=
  if c.toNat < 0x80 then 1
  else if c.toNat < 0x800 then 2
  else if c.toNat < 0x10000 then 3
  else 4

/-- Go `len(s)`: the number of bytes of the string. -/
def len (s : GoString) : Nat := (s.map runeLen).sum

/-- First byte of the UTF-8 encoding of one code point. -/
def leadByte (c : Char) : Nat :=
  if c.toNat < 0x80 then c.toNat
  else if c.toNat < 0x800 then 0xC0 + c.toNat / 0x40
  else if c.toNat < 0x10000 then 0xE0 + c.toNat / 0x1000
  else 0xF0 + c.toNat / 0x40000

/-- Go `strings.ToLower`: ASCII-only strings are lowered byte by byte (and
returned as they are when they hold no upper-case letter); every other string
is mapped through `unicode.ToLower`, the Unicode case table, a parameter. -/
def ToLower (unicodeToLower : Char → Char) (s : GoString) : GoString :=
  let isASCII := s.all fun c => decide (c.toNat < RuneSelf)
  let hasUpper := s.any fun c => decide ('A'.toNat ≤ c.toNat) && decide (c.toNat ≤ 'Z'.toNat)
  if isASCII then
    if !hasUpper then s
    else s.map fun c =>
      if 'A'.toNat ≤ c.toNat ∧ c.toNat ≤ 'Z'.toNat then Char.ofNat (c.toNat + ('a'.toNat - 'A'.toNat))
      else c
  else s.map unicodeToLower

/-- Go `unicode.IsSpace`: the white space of Latin-1 and the code points of
the `White_Space` table above it. -/
def IsSpace (r : Char) : Bool :=
  if r.toNat ≤ 0xFF then
    r == '\t' || r == '\n' || r.toNat == 0x0B || r.toNat == 0x0C || r == '\r' || r == ' '
      || r.toNat == 0x85 || r.toNat == 0xA0
  else
    r.toNat == 0x1680 || (decide (0x2000 ≤ r.toNat) && decide (r.toNat ≤ 0x200a))
      || r.toNat == 0x2028 || r.toNat == 0x2029 || r.toNat == 0x202f || r.toNat == 0x205f
      || r.toNat == 0x3000

/-- Go `strings.TrimSpace`: the string without its leading and its trailing
white space. -/
def TrimSpace (s : GoString) : GoString := (s.dropWhile IsSpace).rdropWhile IsSpace

/-- Go `strings.Split(s, sep)` for a separator of one character, which is how
both call sites of the repository use it: the pieces between the occurrences
of the separator, one more than there are occurrences. -/
def Split (s : GoString) (sep : Char) : List GoString := s.splitOn sep

/-- Go `strings.Join(elems, sep)`. -/
def Join (elems : List GoString) (sep : GoString) : GoString := sep.intercalate elems

/-- Go `strings.HasPrefix(s, pre)`. -/
def HasPrefix (s pre : GoString) : Bool := pre.isPrefixOf s

/-! ## Go errors -/

/-- A Go `error` value: one produced outside this repository (operating
system, database driver), or one built by `fmt.Errorf`, without or with an
operand of the verb `%w`. -/
inductive GoError
  | external (text : GoString)
  | errorf (text : GoString)
  | wrap (text : GoString) (inner : GoError)
  deriving DecidableEq

/-- The method `Error()`: the text of an error. -/
def GoError.Error : GoError → GoString
  | GoError.external t => t
  | GoError.errorf t => t
  | GoError.wrap t _ => t

/-! ## `pkg/db/postgres.go`: name validation -/

/-- Source `isAlphaOrUnderscore(c rune)`. -/
def isAlphaOrUnderscore (c : Nat) : Bool :=
  (decide (c ≥ 'a'.toNat) && decide (c ≤ 'z'.toNat))
    || (decide (c ≥ 'A'.toNat) && decide (c ≤ 'Z'.toNat))
    || c == '_'.toNat

/-- Source `isAlphanumericOrUnderscore(c rune)`. -/
def isAlphanumericOrUnderscore (c : Nat) : Bool :=
  isAlphaOrUnderscore c || (decide (c ≥ '0'.toNat) && decide (c ≤ '9'.toNat))

/-- The slice `reserved` of `IsValidDBName`. -/
def reserved : List GoString :=
  ["template0".toList, "template1".toList, "postgres".toList]

/-- Source `IsValidDBName(name string) bool`.  After the length test the string
is not empty, so `name[0]` is the first byte of its first code point. -/
def IsValidDBName (unicodeToLower : Char → Char) (name : GoString) : Bool :=
  if len name = 0 ∨ len name > 63 then false
  else
    match name with
    | [] => false
    | c0 :: _ =>
      if !isAlphaOrUnderscore (leadByte c0) then false
      else if name.any fun c => !isAlphanumericOrUnderscore c.toNat then false
      else
        let nameLower := ToLower unicodeToLower name
        if reserved.any fun r => nameLower == r then false
        else true

/-! ## `fmt.Sprintf` and `fmt.Errorf` -/

/-- Go `strconv.Itoa` on a natural number: its decimal digits. -/
def itoa (n : Nat) : GoString := Nat.toDigits 10 n

/-- The verb `%d` on an integer. -/
def fmtD (i : Int) : GoString :=
  if i < 0 then '-' :: itoa i.natAbs else itoa i.natAbs

/-- A number of hundredths written with two decimals: `h / 100`, a point, and
the two digits of `h % 100`. -/
def twoDecimals (h : Nat) : GoString :=
  itoa (h / 100) ++ ['.', Nat.digitChar (h % 100 / 10), Nat.digitChar (h % 10)]

/-- The nearest natural number to `a / b`, ties going to the even one. -/
def roundHalfEven (a b : Nat) : Nat :=
  let q := a / b
  let r := a % b
  if 2 * r > b ∨ (2 * r = b ∧ q % 2 = 1) then q + 1 else q

/-- The verb `%.2f` on the non-negative float64 value `num / den`: the exact
value is rounded to two decimals, ties to even (`strconv.FormatFloat` with
format `f` and precision 2). -/
def fmtF2 (num den : Nat) : GoString := twoDecimals (roundHalfEven (100 * num) den)

/-- An argument of `fmt.Sprintf`.  A float64 argument is given by the exact
value `num / den` it holds. -/
inductive FmtArg
  | str (s : GoString)
  | int (i : Int)
  | float (num den : Nat)
  | err (e : GoError)

/-- Go `fmt.Sprintf` for the verbs `%s`, `%d`, `%.2f` and (in `fmt.Errorf`)
`%w` used in this repository; every other character of the format is copied. -/
def Sprintf : GoString → List FmtArg → GoString
  | '%' :: 's' :: rest, FmtArg.str s :: args => s ++ Sprintf rest args
  | '%' :: 'w' :: rest, FmtArg.err e :: args => e.Error ++ Sprintf rest args
  | '%' :: 'd' :: rest, FmtArg.int i :: args => fmtD i ++ Sprintf rest args
  | '%' :: '.' :: '2' :: 'f' :: rest, FmtArg.float num den :: args =>
    fmtF2 num den ++ Sprintf rest args
  | c :: rest, args => c :: Sprintf rest args
  | [], _ => []

/-- The first error among the arguments, the operand of `%w`. -/
def firstErr : List FmtArg → Option GoError
  | [] => none
  | FmtArg.err e :: _ => some e
  | _ :: args => firstErr args

/-- Go `fmt.Errorf`: the formatted text, wrapping the operand of `%w` when
there is one. -/
def Errorf (format : GoString) (args : List FmtArg) : GoError :=
  match firstErr args with
  | none => GoError.errorf (Sprintf format args)
  | some e => GoError.wrap (Sprintf format args) e

/-! ## Operating system -/

/-- The file operations of package `os` that the repository calls, as
oracles: `ReadFile` gives the content of a path or an error, `WriteFile` and
`MkdirAll` give `none` on success (a nil error). -/
structure OS where
  ReadFile : GoString → Except GoError GoString
  WriteFile : GoString → GoString → Option GoError
  MkdirAll : GoString → Option GoError

/-- What a run of a file editor did: the call `os.WriteFile(path, data)` it
made, if any, and how it ended, `none` standing for a run-time panic and
`some r` for the returned error value `r` (`none` being nil). -/
structure FileRun where
  written : Option (GoString × GoString)
  result : Option (Option GoError)

/-- An operating system in which every path reads as `content` and every
write and directory creation succeeds. -/
def fileOS (content : GoString) : OS :=
  { ReadFile := fun _ => Except.ok content
    WriteFile := fun _ _ => none
    MkdirAll := fun _ => none }

/-! ## `pkg/utils/utils.go` -/

/-- Source `GetBackupFilePath(backupDir, dbName, backupFormat, noFilestore)`. -/
def GetBackupFilePath (os : OS) (backupDir dbName backupFormat : GoString)
    (noFilestore : Bool) : GoString :=
  match os.MkdirAll backupDir with
  | some _ => []
  | none =>
    if noFilestore then
      Sprintf "%s/%s_no_fs.%s".toList
        [FmtArg.str backupDir, FmtArg.str dbName, FmtArg.str backupFormat]
    else
      Sprintf "%s/%s.%s".toList
        [FmtArg.str backupDir, FmtArg.str dbName, FmtArg.str backupFormat]

/-! ## `internal/commands/addons.go` -/

/-- The loop of `updateOdooConf` over `lines`: the first line whose trimmed
text has the prefix `addons_path` is replaced and the loop breaks.  Returns
the slice and the flag `updated`. -/
def updateOdooConfLoop (newAddonsPath : GoString) : List GoString → List GoString × Bool
  | [] => ([], false)
  | line :: rest =>
    if HasPrefix (TrimSpace line) "addons_path".toList then
      (Sprintf "addons_path = %s".toList [FmtArg.str newAddonsPath] :: rest, true)
    else
      let r := updateOdooConfLoop newAddonsPath rest
      (line :: r.1, r.2)

/-- The slice `lines` of `updateOdooConf` when it is joined: after the loop,
and after the append made when no line was updated. -/
def updateOdooConfLines (lines : List GoString) (newAddonsPath : GoString) : List GoString :=
  let r := updateOdooConfLoop newAddonsPath lines
  if !r.2 then r.1 ++ [Sprintf "addons_path = %s".toList [FmtArg.str newAddonsPath]]
  else r.1

/-- Source `updateOdooConf(odooConfPath, newAddonsPath string) error`. -/
def updateOdooConf (os : OS) (odooConfPath newAddonsPath : GoString) : FileRun :=
  match os.ReadFile odooConfPath with
  | Except.error err =>
    { written := none
      result := some (some (Errorf "failed to read odoo.conf: %w".toList [FmtArg.err err])) }
  | Except.ok content =>
    let lines := Split content '\n'
    let newContent := Join (updateOdooConfLines lines newAddonsPath) "\n".toList
    { written := some (odooConfPath, newContent)
      result := some (os.WriteFile odooConfPath newContent) }

/-- A value held in a `map[string]interface{}`: a value decoded by
`encoding/json` (of a type `α` left to that package) or a `[]string`. -/
inductive GoValue (α : Type)
  | decoded (v : α)
  | stringSlice (l : List GoString)

/-- A non-nil Go `map[string]interface{}`. -/
abbrev GoMap (α : Type) := GoString → Option (GoValue α)

/-- The assignment `m[key] = v` on a non-nil map. -/
def GoMap.assign {α : Type} (m : GoMap α) (key : GoString) (v : GoValue α) : GoMap α :=
  fun k => if k = key then some v else m k

/-- The functions of package `encoding/json` that the repository calls, as
oracles.  `Unmarshal` into a `map[string]interface{}` variable gives an error,
or leaves the map nil (`none`, for the JSON text `null`), or fills it. -/
structure JSONPkg (α : Type) where
  Unmarshal : GoString → Except GoError (Option (GoMap α))
  MarshalIndent : GoMap α → GoString → GoString → Except GoError GoString

/-- The loop of `updatePyrightConfig` that fills `cleanPaths`. -/
def cleanPathsLoop : List GoString → List GoString → List GoString
  | [], cleanPaths => cleanPaths
  | p :: rest, cleanPaths =>
    let trimmed := TrimSpace p
    if trimmed ≠ [] then cleanPathsLoop rest (cleanPaths ++ [trimmed])
    else cleanPathsLoop rest cleanPaths

/-- The slice `cleanPaths` that `updatePyrightConfig` computes from
`newAddonsPath`. -/
def cleanPaths (newAddonsPath : GoString) : List GoString :=
  cleanPathsLoop (Split newAddonsPath ',') []

/-- Source `updatePyrightConfig(pyrightConfigPath, newAddonsPath string) error`.
Assigning to an entry of a nil map is a run-time panic. -/
def updatePyrightConfig {α : Type} (os : OS) (json : JSONPkg α)
    (pyrightConfigPath newAddonsPath : GoString) : FileRun :=
  match os.ReadFile pyrightConfigPath with
  | Except.error err =>
    { written := none
      result :=
        some (some (Errorf "failed to read pyrightconfig.json: %w".toList [FmtArg.err err])) }
  | Except.ok content =>
    match json.Unmarshal content with
    | Except.error err =>
      { written := none
        result :=
          some (some (Errorf "failed to parse pyrightconfig.json: %w".toList [FmtArg.err err])) }
    | Except.ok none => { written := none, result := none }
    | Except.ok (some config) =>
      let config := config.assign "extraPaths".toList (GoValue.stringSlice (cleanPaths newAddonsPath))
      match json.MarshalIndent config [] "    ".toList with
      | Except.error err =>
        { written := none
          result :=
            some (some (Errorf "failed to marshal pyrightconfig.json: %w".toList
              [FmtArg.err err])) }
      | Except.ok newContent =>
        { written := some (pyrightConfigPath, newContent)
          result := some (os.WriteFile pyrightConfigPath newContent) }

/-- A JSON package whose `Unmarshal` gives the empty object for every text
and whose `MarshalIndent` gives the empty text. -/
def emptyJSON : JSONPkg Unit :=
  { Unmarshal := fun _ => Except.ok (some fun _ => none)
    MarshalIndent := fun _ _ _ => Except.ok [] }

/-! ## `pkg/db/postgres.go`: `formatBytes` -/

/-- Number of low bits that the conversion to float64 drops from `n`: zero
below `2^53`, and one more for each further binary digit. -/
def float64Shift : Nat → Nat → Nat
  | 0, _ => 0
  | fuel + 1, n => if n < 2 ^ 53 then 0 else float64Shift fuel (n / 2) + 1

/-- Go `float64(n)` for an integer `0 ≤ n < 2^63`: the nearest float64, ties
to the even mantissa, given as the integer it denotes. -/
def float64OfInt (n : Nat) : Nat :=
  let e := float64Shift n n
  roundHalfEven n (2 ^ e) * 2 ^ e

/-- The constant `unit` of `formatBytes`. -/
def unit : Nat := 1024

/-- The slice `units` of `formatBytes`. -/
def units : List GoString :=
  ["KB".toList, "MB".toList, "GB".toList, "TB".toList, "PB".toList]

/-- The loop `for n := bytes / unit; n >= unit; n /= unit { div *= unit; exp++ }`
of `formatBytes`, returning the final `(div, exp)`.  The first argument bounds
the number of iterations; the loop variable itself is such a bound, since
`n / unit < n` while `n >= unit`. -/
def formatBytesLoop : Nat → Nat → Nat → Nat → Nat × Nat
  | 0, _, div, exp => (div, exp)
  | fuel + 1, n, div, exp =>
    if n ≥ unit then formatBytesLoop fuel (n / unit) (div * unit) (exp + 1) else (div, exp)

/-- Source `formatBytes(bytes int64) string`.  The result is `none` when the
index expression `units[exp]` is out of range (a run-time panic).  The
quotient `float64(bytes) / float64(div)` is exact, `div` being a power of two,
and is passed to `%.2f` as the pair of its numerator and denominator. -/
def formatBytes (bytes : Int) : Option GoString :=
  if bytes < unit then some (Sprintf "%d B".toList [FmtArg.int bytes])
  else
    let b := bytes.toNat
    let r := formatBytesLoop (b / unit) (b / unit) unit 0
    match units.get? r.2 with
    | none => none
    | some u => some (Sprintf "%.2f %s".toList [FmtArg.float (float64OfInt b) r.1, FmtArg.str u])

/-! ## `pkg/db/postgres.go`: connections and database operations -/

/-- Source `PGConfig`; the two durations are in nanoseconds. -/
structure PGConfig where
  Host : GoString
  Port : Int
  User : GoString
  Password : GoString
  SSLMode : GoString
  MaxOpenConns : Int
  MaxIdleConns : Int
  ConnMaxLifetime : Int
  ConnMaxIdleTime : Int

/-- Source `DefaultPGConfig()`. -/
def DefaultPGConfig : PGConfig :=
  { Host := "localhost".toList
    Port := 5432
    User := "postgres".toList
    Password := []
    SSLMode := "disable".toList
    MaxOpenConns := 25
    MaxIdleConns := 5
    ConnMaxLifetime := 5 * 60000000000
    ConnMaxIdleTime := 1 * 60000000000 }

/-- A statement sent on a connection: its SQL text and its parameters. -/
structure Stmt where
  query : GoString
  args : List GoString
  deriving DecidableEq

/-- What a database operation does, in order: the calls it makes on package
`database/sql` and the lines it logs. -/
inductive Event
  | sqlOpen (connStr : GoString)
  | setMaxOpenConns (n : Int)
  | setMaxIdleConns (n : Int)
  | setConnMaxLifetime (d : Int)
  | setConnMaxIdleTime (d : Int)
  | ping
  | exec (s : Stmt)
  | close
  | logWarn (msg : GoString) (err : GoError)
  | logInfo (msg : GoString) (fields : List (GoString × GoString))
  | query (s : Stmt)
  | queryRow (s : Stmt)
  | rowsClose
  | logWarnWith (msg : GoString) (err : GoError) (fields : List (GoString × GoString))
  deriving DecidableEq

/-- The database driver and server, as oracles: each gives the error of a call
(`none` for nil) from what was done before it and the call itself. -/
structure Driver where
  Open : GoString → Option GoError
  Ping : List Event → Option GoError
  Exec : List Event → Stmt → Option GoError

/-- The statements issued in a trace, in order. -/
def stmtsOf : List Event → List Stmt
  | [] => []
  | Event.exec s :: rest => s :: stmtsOf rest
  | Event.query s :: rest => s :: stmtsOf rest
  | Event.queryRow s :: rest => s :: stmtsOf rest
  | _ :: rest => stmtsOf rest

/-- The rows of a query result, as the loop over them meets them: the result
of `rows.Scan(&name)` for each row that `rows.Next()` announces, and the value
of `rows.Err()` after the loop. -/
structure Rows where
  scans : List (Except GoError GoString)
  err : Option GoError

/-- The queries on a connection, as oracles: each gives the error or the
scanned result of a call from what was done before it and the statement;
`QueryRowBool`, `QueryRowInt64` and `QueryRowString` stand for
`db.QueryRowContext(...).Scan(&v)` with `v` of the type named. -/
structure Queries where
  QueryRowBool : List Event → Stmt → Except GoError Bool
  QueryRowInt64 : List Event → Stmt → Except GoError Int
  QueryRowString : List Event → Stmt → Except GoError GoString
  Query : List Event → Stmt → Except GoError Rows

/-- The connection string that `Connect` builds, `sslMode` defaulting to
`disable`. -/
def connString (cfg : PGConfig) (dbname : GoString) : GoString :=
  let sslMode := if cfg.SSLMode = [] then "disable".toList else cfg.SSLMode
  Sprintf "host=%s port=%d user=%s password=%s dbname=%s sslmode=%s".toList
    [FmtArg.str cfg.Host, FmtArg.int cfg.Port, FmtArg.str cfg.User,
      FmtArg.str cfg.Password, FmtArg.str dbname, FmtArg.str sslMode]

/-- The connection pool settings that `Connect` makes: each one only for a
positive value of the configuration. -/
def poolEvents (cfg : PGConfig) : List Event :=
  (if cfg.MaxOpenConns > 0 then [Event.setMaxOpenConns cfg.MaxOpenConns] else [])
    ++ (if cfg.MaxIdleConns > 0 then [Event.setMaxIdleConns cfg.MaxIdleConns] else [])
    ++ (if cfg.ConnMaxLifetime > 0 then [Event.setConnMaxLifetime cfg.ConnMaxLifetime] else [])
    ++ (if cfg.ConnMaxIdleTime > 0 then [Event.setConnMaxIdleTime cfg.ConnMaxIdleTime] else [])

/-- Source `Connect(ctx, dbname, cfg)`: the trace after the call, and the
error or the open connection. -/
def Connect (d : Driver) (tr : List Event) (dbname : GoString) (cfg : Option PGConfig) :
    List Event × Except GoError Unit :=
  match cfg with
  | none => (tr, Except.error (Errorf "postgres config is nil".toList []))
  | some cfg =>
    let connStr := connString cfg dbname
    match d.Open connStr with
    | some err =>
      (tr ++ [Event.sqlOpen connStr],
        Except.error (Errorf "failed to open connection: %w".toList [FmtArg.err err]))
    | none =>
      let tr := tr ++ [Event.sqlOpen connStr] ++ poolEvents cfg
      match d.Ping tr with
      | some err =>
        (tr ++ [Event.ping, Event.close],
          Except.error (Errorf "failed to ping database: %w".toList [FmtArg.err err]))
      | none => (tr ++ [Event.ping], Except.ok ())

/-- The call `db.ExecContext(ctx, query, args...)`: the trace after the call
and its error. -/
def ExecContext (d : Driver) (tr : List Event) (query : GoString) (args : List GoString) :
    List Event × Option GoError :=
  (tr ++ [Event.exec { query := query, args := args }], d.Exec tr { query := query, args := args })

/-- The double quote character. -/
def dquote : Char := Char.ofNat 0x22

/-- Go `pq.QuoteIdentifier`: the name up to its first zero byte, its double
quotes doubled, between double quotes. -/
def QuoteIdentifier (name : GoString) : GoString :=
  let name := name.takeWhile fun c => decide (c.toNat ≠ 0)
  [dquote] ++ (name.flatMap fun c => if c = dquote then [dquote, dquote] else [c]) ++ [dquote]

/-- The query text of `terminateConnections`. -/
def terminateQuery : GoString :=
  ("\n\t\tSELECT pg_terminate_backend(pid)\n\t\tFROM pg_stat_activity\n" ++
    "\t\tWHERE datname = $1 AND pid <> pg_backend_pid()\n\t").toList

/-- Source `terminateConnections(ctx, db, dbname)`. -/
def terminateConnections (d : Driver) (tr : List Event) (dbname : GoString) :
    List Event × Option GoError :=
  ExecContext d tr terminateQuery [dbname]

/-- Source `CreateDatabase(ctx, dbname, cfg)`.  The deferred `CloseDB(db)` runs
when the function returns. -/
def CreateDatabase (u : Char → Char) (d : Driver) (tr : List Event) (dbname : GoString)
    (cfg : Option PGConfig) : List Event × Option GoError :=
  if !IsValidDBName u dbname then
    (tr, some (Errorf "invalid database name: %s".toList [FmtArg.str dbname]))
  else
    match Connect d tr "postgres".toList cfg with
    | (tr, Except.error err) => (tr, some (Errorf "failed to connect: %w".toList [FmtArg.err err]))
    | (tr, Except.ok _) =>
      let query :=
        Sprintf "CREATE DATABASE %s ENCODING \x27UTF8\x27".toList
          [FmtArg.str (QuoteIdentifier dbname)]
      match ExecContext d tr query [] with
      | (tr, some err) =>
        (tr ++ [Event.close],
          some (Errorf "failed to create database: %w".toList [FmtArg.err err]))
      | (tr, none) =>
        (tr ++ [Event.logInfo "Database created successfully".toList
            [("database".toList, dbname)], Event.close], none)

/-- Source `DropDatabase(ctx, dbname, cfg)`. -/
def DropDatabase (d : Driver) (tr : List Event) (dbname : GoString) (cfg : Option PGConfig) :
    List Event × Option GoError :=
  match Connect d tr "postgres".toList cfg with
  | (tr, Except.error err) => (tr, some (Errorf "failed to connect: %w".toList [FmtArg.err err]))
  | (tr, Except.ok _) =>
    let tr :=
      match terminateConnections d tr dbname with
      | (tr, some err) =>
        tr ++ [Event.logWarn "Failed to terminate connections, continuing anyway".toList err]
      | (tr, none) => tr
    let query := Sprintf "DROP DATABASE IF EXISTS %s".toList [FmtArg.str (QuoteIdentifier dbname)]
    match ExecContext d tr query [] with
    | (tr, some err) =>
      (tr ++ [Event.close], some (Errorf "failed to drop database: %w".toList [FmtArg.err err]))
    | (tr, none) =>
      (tr ++ [Event.logInfo "Database dropped successfully".toList
          [("database".toList, dbname)], Event.close], none)

/-- Source `CreateDatabaseFromTemplate(ctx, dbname, template, cfg)`. -/
def CreateDatabaseFromTemplate (u : Char → Char) (d : Driver) (tr : List Event)
    (dbname template : GoString) (cfg : Option PGConfig) : List Event × Option GoError :=
  if !IsValidDBName u dbname then
    (tr, some (Errorf "invalid database name: %s".toList [FmtArg.str dbname]))
  else
    match Connect d tr "postgres".toList cfg with
    | (tr, Except.error err) => (tr, some (Errorf "failed to connect: %w".toList [FmtArg.err err]))
    | (tr, Except.ok _) =>
      let tr :=
        match terminateConnections d tr template with
        | (tr, some err) =>
          tr ++ [Event.logWarn "Failed to terminate template connections".toList err]
        | (tr, none) => tr
      let query :=
        Sprintf "CREATE DATABASE %s WITH TEMPLATE %s".toList
          [FmtArg.str (QuoteIdentifier dbname), FmtArg.str (QuoteIdentifier template)]
      match ExecContext d tr query [] with
      | (tr, some err) =>
        (tr ++ [Event.close],
          some (Errorf "failed to create database from template: %w".toList [FmtArg.err err]))
      | (tr, none) =>
        (tr ++ [Event.logInfo "Database created from template successfully".toList
            [("database".toList, dbname), ("template".toList, template)], Event.close], none)

/-- Source `RenameDatabase(ctx, oldName, newName, cfg)`. -/
def RenameDatabase (u : Char → Char) (d : Driver) (tr : List Event)
    (oldName newName : GoString) (cfg : Option PGConfig) : List Event × Option GoError :=
  if !IsValidDBName u newName then
    (tr, some (Errorf "invalid new database name: %s".toList [FmtArg.str newName]))
  else
    match Connect d tr "postgres".toList cfg with
    | (tr, Except.error err) => (tr, some (Errorf "failed to connect: %w".toList [FmtArg.err err]))
    | (tr, Except.ok _) =>
      let tr :=
        match terminateConnections d tr oldName with
        | (tr, some err) => tr ++ [Event.logWarn "Failed to terminate connections".toList err]
        | (tr, none) => tr
      let query :=
        Sprintf "ALTER DATABASE %s RENAME TO %s".toList
          [FmtArg.str (QuoteIdentifier oldName), FmtArg.str (QuoteIdentifier newName)]
      match ExecContext d tr query [] with
      | (tr, some err) =>
        (tr ++ [Event.close],
          some (Errorf "failed to rename database: %w".toList [FmtArg.err err]))
      | (tr, none) =>
        (tr ++ [Event.logInfo "Database renamed successfully".toList
            [("old_name".toList, oldName), ("new_name".toList, newName)], Event.close], none)

/-- Source `CopyDatabase(ctx, source, target, cfg)`. -/
def CopyDatabase (u : Char → Char) (d : Driver) (tr : List Event) (source target : GoString)
    (cfg : Option PGConfig) : List Event × Option GoError :=
  CreateDatabaseFromTemplate u d tr target source cfg

/-- Go `sql.ErrNoRows`; an error of the driver is the same value when it has
the same text. -/
def ErrNoRows : GoError := GoError.external "sql: no rows in result set".toList

/-- The chain of an error: the error itself, then what `Unwrap` gives, in
order. -/
def GoError.chain : GoError → List GoError
  | GoError.external t => [GoError.external t]
  | GoError.errorf t => [GoError.errorf t]
  | GoError.wrap t inner => GoError.wrap t inner :: inner.chain

/-- The query text of `DBExists`. -/
def existsQuery : GoString :=
  "SELECT EXISTS(SELECT 1 FROM pg_database WHERE datname = $1)".toList

/-- Source `DBExists(ctx, dbname, cfg)`. -/
def DBExists (d : Driver) (q : Queries) (tr : List Event) (dbname : GoString)
    (cfg : Option PGConfig) : List Event × Except GoError Bool :=
  match Connect d tr "postgres".toList cfg with
  | (tr, Except.error err) =>
    (tr, Except.error (Errorf "failed to connect to postgres: %w".toList [FmtArg.err err]))
  | (tr, Except.ok _) =>
    match q.QueryRowBool tr { query := existsQuery, args := [dbname] } with
    | Except.error err =>
      (tr ++ [Event.queryRow { query := existsQuery, args := [dbname] }, Event.close],
        Except.error
          (Errorf "failed to check database existence: %w".toList [FmtArg.err err]))
    | Except.ok found =>
      (tr ++ [Event.queryRow { query := existsQuery, args := [dbname] }, Event.close],
        Except.ok found)

/-- The loop `for rows.Next()` with `rows.Scan(&name)` and `append`: the names
scanned, or the first error of a scan. -/
def scanNames : List (Except GoError GoString) → List GoString → Except GoError (List GoString)
  | [], names => Except.ok names
  | Except.error err :: _, _ => Except.error err
  | Except.ok name :: rest, names => scanNames rest (names ++ [name])

/-- The query text of `GetInstalledModules`. -/
def modulesQuery : GoString :=
  ("\n\t\tSELECT name FROM ir_module_module\n" ++
    "\t\tWHERE state IN (\x27installed\x27, \x27to upgrade\x27)\n\t\tORDER BY name\n\t").toList

/-- Source `GetInstalledModules(ctx, db)`, on an open connection. -/
def GetInstalledModules (q : Queries) (tr : List Event) :
    List Event × Except GoError (List GoString) :=
  match q.Query tr { query := modulesQuery, args := [] } with
  | Except.error err =>
    (tr ++ [Event.query { query := modulesQuery, args := [] }],
      Except.error (Errorf "failed to query modules: %w".toList [FmtArg.err err]))
  | Except.ok rows =>
    let tr := tr ++ [Event.query { query := modulesQuery, args := [] }, Event.rowsClose]
    match scanNames rows.scans [] with
    | Except.error err =>
      (tr, Except.error (Errorf "failed to scan module name: %w".toList [FmtArg.err err]))
    | Except.ok modules =>
      match rows.err with
      | some err =>
        (tr, Except.error (Errorf "error iterating modules: %w".toList [FmtArg.err err]))
      | none => (tr, Except.ok modules)

/-- The query text of `IsInitialized`. -/
def tableQuery : GoString :=
  ("\n\t\tSELECT EXISTS (\n\t\t\tSELECT 1 FROM information_schema.tables\n" ++
    "\t\t\tWHERE table_schema = \x27public\x27\n" ++
    "\t\t\tAND table_name = \x27ir_module_module\x27\n\t\t)\n\t").toList

/-- Source `IsInitialized(ctx, dbname, cfg)`. -/
def IsInitialized (d : Driver) (q : Queries) (tr : List Event) (dbname : GoString)
    (cfg : Option PGConfig) : List Event × Except GoError Bool :=
  match DBExists d q tr dbname cfg with
  | (tr, Except.error err) => (tr, Except.error err)
  | (tr, Except.ok false) => (tr, Except.ok false)
  | (tr, Except.ok true) =>
    match Connect d tr dbname cfg with
    | (tr, Except.error err) =>
      (tr, Except.error (Errorf "failed to connect to database: %w".toList [FmtArg.err err]))
    | (tr, Except.ok _) =>
      match q.QueryRowBool tr { query := tableQuery, args := [] } with
      | Except.error err =>
        (tr ++ [Event.queryRow { query := tableQuery, args := [] }, Event.close],
          Except.error
            (Errorf "failed to check table existence: %w".toList [FmtArg.err err]))
      | Except.ok tableExists =>
        (tr ++ [Event.queryRow { query := tableQuery, args := [] }, Event.close],
          Except.ok tableExists)

/-- The queries of `ResetConfigParameters`. -/
def resetQueries : List GoString :=
  ["UPDATE ir_cron SET active = false".toList,
    "UPDATE ir_mail_server SET active = false".toList,
    "UPDATE ir_config_parameter SET value = \x27test\x27 WHERE key LIKE \x27%api_key%\x27".toList,
    ("UPDATE ir_config_parameter SET value = \x27http://localhost\x27 " ++
      "WHERE key LIKE \x27%base_url%\x27").toList]

/-- The loop of source `ResetConfigParameters` over its queries. -/
def ResetConfigParameters.loop (d : Driver) : List GoString → List Event → List Event
  | [], tr => tr
  | query :: rest, tr =>
    match ExecContext d tr query [] with
    | (tr, some err) =>
      ResetConfigParameters.loop d rest
        (tr ++ [Event.logWarnWith "Failed to execute neutralization query".toList err
          [("query".toList, query)]])
    | (tr, none) => ResetConfigParameters.loop d rest tr

/-- Source `ResetConfigParameters(ctx, db)`, on an open connection. -/
def ResetConfigParameters (d : Driver) (tr : List Event) : List Event × Option GoError :=
  (ResetConfigParameters.loop d resetQueries tr
      ++ [Event.logInfo "Database neutralized successfully".toList []], none)

/-- The query text of `ListDatabases`. -/
def listQuery : GoString :=
  ("\n\t\tSELECT datname FROM pg_database\n\t\tWHERE datistemplate = false\n" ++
    "\t\tAND datname != \x27postgres\x27\n\t\tORDER BY datname\n\t").toList

/-- Source `ListDatabases(ctx, cfg)`: the trace, the slice returned (`[]` for
nil) and the error returned. -/
def ListDatabases (d : Driver) (q : Queries) (tr : List Event) (cfg : Option PGConfig) :
    List Event × List GoString × Option GoError :=
  match Connect d tr "postgres".toList cfg with
  | (tr, Except.error err) =>
    (tr, [], some (Errorf "failed to connect: %w".toList [FmtArg.err err]))
  | (tr, Except.ok _) =>
    match q.Query tr { query := listQuery, args := [] } with
    | Except.error err =>
      (tr ++ [Event.query { query := listQuery, args := [] }, Event.close], [],
        some (Errorf "failed to query databases: %w".toList [FmtArg.err err]))
    | Except.ok rows =>
      let tr :=
        tr ++ [Event.query { query := listQuery, args := [] }, Event.rowsClose, Event.close]
      match scanNames rows.scans [] with
      | Except.error err =>
        (tr, [], some (Errorf "failed to scan database name: %w".toList [FmtArg.err err]))
      | Except.ok databases => (tr, databases, rows.err)

/-- The query text of `GetDatabaseSize`. -/
def sizeQuery : GoString := "SELECT pg_database_size($1)".toList

/-- Source `GetDatabaseSize(ctx, dbname, cfg)`: `none` stands for a run-time
panic of `formatBytes`. -/
def GetDatabaseSize (d : Driver) (q : Queries) (tr : List Event) (dbname : GoString)
    (cfg : Option PGConfig) : List Event × Option (Except GoError GoString) :=
  match Connect d tr "postgres".toList cfg with
  | (tr, Except.error err) => (tr, some (Except.error err))
  | (tr, Except.ok _) =>
    match q.QueryRowInt64 tr { query := sizeQuery, args := [dbname] } with
    | Except.error err =>
      (tr ++ [Event.queryRow { query := sizeQuery, args := [dbname] }, Event.close],
        some (Except.error err))
    | Except.ok size =>
      (tr ++ [Event.queryRow { query := sizeQuery, args := [dbname] }, Event.close],
        (formatBytes size).map Except.ok)

/-- The query text of `SetConfigParameter`. -/
def setParamQuery : GoString :=
  ("\n\t\tINSERT INTO ir_config_parameter " ++
    "(key, value, create_uid, create_date, write_uid, write_date)\n" ++
    "\t\tVALUES ($1, $2, 1, NOW(), 1, NOW())\n\t\tON CONFLICT (key)\n" ++
    "\t\tDO UPDATE SET value = $2, write_date = NOW(), write_uid = 1\n\t").toList

/-- Source `SetConfigParameter(ctx, db, key, value)`, on an open connection. -/
def SetConfigParameter (d : Driver) (tr : List Event) (key value : GoString) :
    List Event × Option GoError :=
  match ExecContext d tr setParamQuery [key, value] with
  | (tr, some err) =>
    (tr, some (Errorf "failed to set config parameter: %w".toList [FmtArg.err err]))
  | (tr, none) => (tr, none)

/-- The query text of `GetConfigParameter`. -/
def getParamQuery : GoString := "SELECT value FROM ir_config_parameter WHERE key = $1".toList

/-- Source `GetConfigParameter(ctx, db, key)`, on an open connection. -/
def GetConfigParameter (q : Queries) (tr : List Event) (key : GoString) :
    List Event × Except GoError GoString :=
  match q.QueryRowString tr { query := getParamQuery, args := [key] } with
  | Except.error err =>
    if err = ErrNoRows then
      (tr ++ [Event.queryRow { query := getParamQuery, args := [key] }], Except.ok [])
    else
      (tr ++ [Event.queryRow { query := getParamQuery, args := [key] }],
        Except.error (Errorf "failed to get config parameter: %w".toList [FmtArg.err err]))
  | Except.ok value =>
    (tr ++ [Event.queryRow { query := getParamQuery, args := [key] }], Except.ok value)

/-- A driver and server on which every statement fails. -/
def failingDriver : Driver :=
  { Open := fun _ => none
    Ping := fun _ => none
    Exec := fun _ _ => some (GoError.external "pq: permission denied".toList) }

/-- Queries that find no row for a single value and fail otherwise. -/
def noRowsQueries : Queries :=
  { QueryRowBool := fun _ _ => Except.error ErrNoRows
    QueryRowInt64 := fun _ _ => Except.error ErrNoRows
    QueryRowString := fun _ _ => Except.error ErrNoRows
    Query := fun _ _ => Except.error (GoError.external "pq: permission denied".toList) }

/-- Queries that answer `true`, `2048`, `web` and two rows. -/
def okQueries : Queries :=
  { QueryRowBool := fun _ _ => Except.ok true
    QueryRowInt64 := fun _ _ => Except.ok 2048
    QueryRowString := fun _ _ => Except.ok "web".toList
    Query := fun _ _ =>
      Except.ok { scans := [Except.ok "base".toList, Except.ok "web".toList], err := none } }

/-- A driver and server on which every call succeeds. -/
def okDriver : Driver :=
  { Open := fun _ => none
    Ping := fun _ => none
    Exec := fun _ _ => none }

/-- A driver and server on which the query of `terminateConnections` fails
and every other call succeeds. -/
def noTerminateDriver : Driver :=
  { Open := fun _ => none
    Ping := fun _ => none
    Exec := fun _ s =>
      if s.query = terminateQuery then some (GoError.external "permission denied".toList)
      else none }

/-! ## `pkg/config/config.go`: settings -/

/-- Source `OdooConfig`. -/
structure OdooConfig where
  ConfigFile : GoString
  OdooBin : GoString
  Addons : List GoString

/-- Source `DBSection`. -/
structure DBSection where
  DumpPath : GoString
  DumpFormat : GoString

/-- Source `Config`, the type of the settings `AppConfig`. -/
structure Config where
  Odoo : OdooConfig
  DB : DBSection

/-- The settings that `LoadConfig` takes when there is no file `ocli.yml`. -/
def defaultAppConfig : Config :=
  { Odoo :=
      { ConfigFile := "/workspace/odoo.conf".toList
        OdooBin := "/workspace/odoo/odoo-bin".toList
        Addons := [] }
    DB := { DumpPath := "/workspace/dbs".toList, DumpFormat := "zip".toList } }

/-! ## `internal/commands`: lifecycle commands -/

/-- What a command meets outside itself: the settings loaded at start, the
operating system, and the external binary, as oracles for `cmd.Run()` and
`cmd.CombinedOutput()` on a binary path and an argument vector. -/
structure CmdEnv where
  AppConfig : Config
  os : OS
  Run : GoString → List GoString → Option GoError
  CombinedOutput : GoString → List GoString → GoString × Option GoError

/-- What a command does, in order: what it prints, the directory creation made
through `GetBackupFilePath`, the invocation of the external binary, and the
message of `log.Fatal`, after which the process exits with code 1. -/
inductive CmdEvent
  | print (text : GoString)
  | mkdirAll (dir : GoString)
  | exec (bin : GoString) (args : List GoString)
  | fatal (text : GoString)
  deriving DecidableEq

/-- A run of a command: its events and the exit code of the process. -/
structure CmdRun where
  events : List CmdEvent
  exitCode : Nat

/-- The invocations of the external binary in a list of events. -/
def execCalls : List CmdEvent → List (GoString × List GoString)
  | [] => []
  | CmdEvent.exec bin args :: rest => (bin, args) :: execCalls rest
  | _ :: rest => execCalls rest

/-- The directory creations in a list of events. -/
def mkdirCalls : List CmdEvent → List GoString
  | [] => []
  | CmdEvent.mkdirAll dir :: rest => dir :: mkdirCalls rest
  | _ :: rest => mkdirCalls rest

/-- The verb `%v` on a slice of strings: the elements between brackets,
separated by blanks. -/
def fmtV (l : List GoString) : GoString := "[".toList ++ Join l " ".toList ++ "]".toList

/-- A boolean flag as `cobra` leaves it after parsing: the value of the
variable (the parsed value when the operator passed the flag, the default
otherwise). -/
def flagValue (passed : Option Bool) (dflt : Bool) : Bool :=
  match passed with
  | some v => v
  | none => dflt

/-- The call `cmd.Flags().Changed(name)`: the operator passed the flag. -/
def flagChanged (passed : Option Bool) : Bool := passed.isSome

/-- The flag variables of `initdb` after parsing; a boolean flag is `none`
when the operator did not pass it and `some v` with its parsed value
otherwise. -/
structure InitDBFlags where
  odooBin : GoString
  configPath : GoString
  dbName : GoString
  withDemo : Option Bool
  force : Option Bool
  lang : GoString
  username : GoString
  password : GoString
  country : GoString

/-- The slice `cmdArgs` that the `Run` function of `NewInitDBCmd` builds. -/
def NewInitDBCmd.cmdArgs (configPath : GoString) (f : InitDBFlags) : List GoString :=
  let cmdArgs := ["db".toList, "-c".toList, configPath, "init".toList, f.dbName]
  let withDemo := flagValue f.withDemo true
  let withDemo := if flagChanged f.withDemo then !withDemo else withDemo
  let cmdArgs := if !withDemo then cmdArgs ++ ["--with-demo".toList] else cmdArgs
  let force := flagValue f.force true
  let force := if flagChanged f.force then !force else force
  let cmdArgs := if !force then cmdArgs ++ ["--force".toList] else cmdArgs
  let cmdArgs := if f.lang ≠ [] then cmdArgs ++ ["--language=".toList ++ f.lang] else cmdArgs
  let cmdArgs :=
    if f.username ≠ [] then cmdArgs ++ ["--username=".toList ++ f.username] else cmdArgs
  let cmdArgs :=
    if f.password ≠ [] then cmdArgs ++ ["--password=".toList ++ f.password] else cmdArgs
  let cmdArgs := if f.country ≠ [] then cmdArgs ++ ["--country=".toList ++ f.country] else cmdArgs
  cmdArgs

/-- The `Run` function of source `NewInitDBCmd()`. -/
def NewInitDBCmd.Run (env : CmdEnv) (f : InitDBFlags) : CmdRun :=
  let odooBin := if f.odooBin = [] then env.AppConfig.Odoo.OdooBin else f.odooBin
  let configPath := if f.configPath = [] then env.AppConfig.Odoo.ConfigFile else f.configPath
  if f.dbName = [] then
    { events :=
        [CmdEvent.print "initdb called\n".toList,
          CmdEvent.fatal "Database name is required. Use --database or -d to specify it.".toList]
      exitCode := 1 }
  else
    let cmdArgs := NewInitDBCmd.cmdArgs configPath f
    let pre :=
      [CmdEvent.print "initdb called\n".toList,
        CmdEvent.print
          ("Executing command: ".toList ++ odooBin ++ " ".toList ++ fmtV cmdArgs ++ "\n".toList),
        CmdEvent.exec odooBin cmdArgs]
    match env.CombinedOutput odooBin cmdArgs with
    | (output, some err) =>
      { events :=
          pre ++ [CmdEvent.fatal ("Error executing init command: ".toList ++ err.Error
            ++ "\nOutput: ".toList ++ output)]
        exitCode := 1 }
    | (_, none) =>
      { events :=
          pre ++ [CmdEvent.print
            ("Database init completed successfully: ".toList ++ f.dbName ++ "\n".toList)]
        exitCode := 0 }

/-- The flag variables of `backupdb` after parsing; `noFilestore` has the
default false. -/
structure BackupdbFlags where
  odooBin : GoString
  configPath : GoString
  dbName : GoString
  dumpPath : GoString
  backupFormat : GoString
  noFilestore : Bool

/-- The slice `cmdArgs` that the `Run` function of `NewBackupdbCmd` builds. -/
def NewBackupdbCmd.cmdArgs (configPath dumpFile : GoString) (f : BackupdbFlags) :
    List GoString :=
  let cmdArgs := ["db".toList, "-c".toList, configPath, "dump".toList, f.dbName, dumpFile]
  if f.noFilestore then cmdArgs ++ ["--no-filestore".toList] else cmdArgs

/-- The `Run` function of source `NewBackupdbCmd()`. -/
def NewBackupdbCmd.Run (env : CmdEnv) (f : BackupdbFlags) : CmdRun :=
  let odooBin := if f.odooBin = [] then env.AppConfig.Odoo.OdooBin else f.odooBin
  let configPath := if f.configPath = [] then env.AppConfig.Odoo.ConfigFile else f.configPath
  if f.dbName = [] then
    { events :=
        [CmdEvent.fatal "Database name is required. Use --database or -d to specify it.".toList]
      exitCode := 1 }
  else
    let dumpPath := if f.dumpPath = [] then env.AppConfig.DB.DumpPath else f.dumpPath
    let backupFormat :=
      if f.backupFormat = [] then env.AppConfig.DB.DumpFormat else f.backupFormat
    let dumpFile := GetBackupFilePath env.os dumpPath f.dbName backupFormat f.noFilestore
    let cmdArgs := NewBackupdbCmd.cmdArgs configPath dumpFile f
    let pre :=
      [CmdEvent.print ("Backing up database: ".toList ++ f.dbName ++ "\n".toList),
        CmdEvent.mkdirAll dumpPath,
        CmdEvent.print
          ("Executing: ".toList ++ odooBin ++ " ".toList ++ fmtV cmdArgs ++ "\n".toList),
        CmdEvent.exec odooBin cmdArgs]
    match env.Run odooBin cmdArgs with
    | some err =>
      { events := pre ++ [CmdEvent.fatal ("Error executing backup command: ".toList ++ err.Error)]
        exitCode := 1 }
    | none =>
      { events :=
          pre ++ [CmdEvent.print
            ("Backup completed successfully: ".toList ++ dumpFile ++ "\n".toList)]
        exitCode := 0 }

/-- The flag variables of `restoredb` after parsing. -/
structure RestoredbFlags where
  odooBin : GoString
  configPath : GoString
  dbName : GoString
  newName : GoString
  backupDir : GoString
  force : Option Bool
  neutralize : Option Bool

/-- The slice `cmdArgs` that the `Run` function of `NewRestoredbCmd` builds,
from the effective new name and the backup file. -/
def NewRestoredbCmd.cmdArgs (configPath newName backupFile : GoString) (f : RestoredbFlags) :
    List GoString :=
  let cmdArgs := ["db".toList, "-c".toList, configPath, "load".toList, newName, backupFile]
  let force := flagValue f.force true
  let force := if flagChanged f.force then !force else force
  let neutralize := flagValue f.neutralize true
  let neutralize := if flagChanged f.neutralize then !neutralize else neutralize
  let cmdArgs := if !force then cmdArgs ++ ["--force".toList] else cmdArgs
  let cmdArgs := if !neutralize then cmdArgs ++ ["--neutralize".toList] else cmdArgs
  cmdArgs

/-- The `Run` function of source `NewRestoredbCmd()`. -/
def NewRestoredbCmd.Run (env : CmdEnv) (f : RestoredbFlags) : CmdRun :=
  let odooBin := if f.odooBin = [] then env.AppConfig.Odoo.OdooBin else f.odooBin
  let configPath := if f.configPath = [] then env.AppConfig.Odoo.ConfigFile else f.configPath
  let newName := if f.newName = [] then f.dbName else f.newName
  let backupDir := if f.backupDir = [] then env.AppConfig.DB.DumpPath else f.backupDir
  let backupFile := GetBackupFilePath env.os backupDir f.dbName env.AppConfig.DB.DumpFormat false
  let cmdArgs := NewRestoredbCmd.cmdArgs configPath newName backupFile f
  let pre :=
    [CmdEvent.print "restoredb called\n".toList,
      CmdEvent.mkdirAll backupDir,
      CmdEvent.print
        ("Restoring database: ".toList ++ newName ++ " from backup file: ".toList ++ backupFile
          ++ "\n".toList),
      CmdEvent.print
        ("Executing: ".toList ++ odooBin ++ " ".toList ++ fmtV cmdArgs ++ "\n".toList),
      CmdEvent.exec odooBin cmdArgs]
  match env.Run odooBin cmdArgs with
  | some err =>
    { events := pre ++ [CmdEvent.fatal ("Restore failed: ".toList ++ err.Error)]
      exitCode := 1 }
  | none =>
    { events :=
        pre ++ [CmdEvent.print
          ("Restore completed successfully: ".toList ++ backupFile ++ "\n".toList)]
      exitCode := 0 }

/-- The flag variables of `copydb` after parsing. -/
structure CopydbFlags where
  odooBin : GoString
  configPath : GoString
  dbName : GoString
  newName : GoString
  force : Option Bool
  neutralize : Option Bool

/-- The slice `cmdArgs` that the `Run` function of `NewCopydbCmd` builds. -/
def NewCopydbCmd.cmdArgs (configPath : GoString) (f : CopydbFlags) : List GoString :=
  let cmdArgs :=
    ["db".toList, "-c".toList, configPath, "duplicate".toList, f.dbName, f.newName]
  let force := flagValue f.force true
  let force := if flagChanged f.force then !force else force
  let neutralize := flagValue f.neutralize true
  let neutralize := if flagChanged f.neutralize then !neutralize else neutralize
  let cmdArgs := if !force then cmdArgs ++ ["--force".toList] else cmdArgs
  let cmdArgs := if !neutralize then cmdArgs ++ ["--neutralize".toList] else cmdArgs
  cmdArgs

/-- The `Run` function of source `NewCopydbCmd()`. -/
def NewCopydbCmd.Run (env : CmdEnv) (f : CopydbFlags) : CmdRun :=
  let odooBin := if f.odooBin = [] then env.AppConfig.Odoo.OdooBin else f.odooBin
  let configPath := if f.configPath = [] then env.AppConfig.Odoo.ConfigFile else f.configPath
  if f.dbName = [] then
    { events :=
        [CmdEvent.print "copydb called\n".toList,
          CmdEvent.fatal "Database name is required. Use --database or -d to specify it.".toList]
      exitCode := 1 }
  else if f.newName = [] then
    { events :=
        [CmdEvent.print "copydb called\n".toList,
          CmdEvent.fatal
            "New database name is required. Use --new-db or -n to specify it.".toList]
      exitCode := 1 }
  else
    let cmdArgs := NewCopydbCmd.cmdArgs configPath f
    let pre :=
      [CmdEvent.print "copydb called\n".toList,
        CmdEvent.print
          ("Executing: ".toList ++ odooBin ++ " ".toList ++ fmtV cmdArgs ++ "\n".toList),
        CmdEvent.exec odooBin cmdArgs]
    match env.Run odooBin cmdArgs with
    | some err =>
      { events :=
          pre ++ [CmdEvent.fatal ("Error executing duplicate command: ".toList ++ err.Error)]
        exitCode := 1 }
    | none =>
      { events :=
          pre ++ [CmdEvent.print
            ("Duplicate completed successfully: ".toList ++ f.newName ++ "\n".toList)]
        exitCode := 0 }

/-- The flag variables of `renamedb` after parsing. -/
structure RenamedbFlags where
  odooBin : GoString
  configPath : GoString
  dbName : GoString
  newName : GoString
  force : Option Bool

/-- The slice `cmdArgs` that the `Run` function of `NewRenamedbCmd` builds. -/
def NewRenamedbCmd.cmdArgs (configPath : GoString) (f : RenamedbFlags) : List GoString :=
  let cmdArgs := ["db".toList, "-c".toList, configPath, "rename".toList, f.dbName, f.newName]
  if flagChanged f.force then cmdArgs ++ ["--force".toList] else cmdArgs

/-- The `Run` function of source `NewRenamedbCmd()`. -/
def NewRenamedbCmd.Run (env : CmdEnv) (f : RenamedbFlags) : CmdRun :=
  let odooBin := if f.odooBin = [] then env.AppConfig.Odoo.OdooBin else f.odooBin
  let configPath := if f.configPath = [] then env.AppConfig.Odoo.ConfigFile else f.configPath
  if f.dbName = [] then
    { events :=
        [CmdEvent.print "db called\n".toList,
          CmdEvent.fatal "Database name is required. Use --database or -d to specify it.".toList]
      exitCode := 1 }
  else if f.newName = [] then
    { events :=
        [CmdEvent.print "db called\n".toList,
          CmdEvent.fatal
            "New database name is required. Use --new-db or -n to specify it.".toList]
      exitCode := 1 }
  else
    let cmdArgs := NewRenamedbCmd.cmdArgs configPath f
    let pre := [CmdEvent.print "db called\n".toList, CmdEvent.exec odooBin cmdArgs]
    match env.Run odooBin cmdArgs with
    | some err =>
      { events := pre ++ [CmdEvent.fatal ("Rename failed: ".toList ++ err.Error)]
        exitCode := 1 }
    | none =>
      { events :=
          pre ++ [CmdEvent.print
            ("Rename completed successfully: ".toList ++ f.newName ++ "\n".toList)]
        exitCode := 0 }

/-- The flag variables of `dropdb` after parsing. -/
structure DropdbFlags where
  odooBin : GoString
  configPath : GoString
  dbName : GoString

/-- The argument vector that the `Run` function of `NewDropdbCmd` passes to
`exec.Command`. -/
def NewDropdbCmd.cmdArgs (configPath : GoString) (f : DropdbFlags) : List GoString :=
  ["db".toList, "-c".toList, configPath, "drop".toList, f.dbName]

/-- The `Run` function of source `NewDropdbCmd()`. -/
def NewDropdbCmd.Run (env : CmdEnv) (f : DropdbFlags) : CmdRun :=
  let odooBin := if f.odooBin = [] then env.AppConfig.Odoo.OdooBin else f.odooBin
  let configPath := if f.configPath = [] then env.AppConfig.Odoo.ConfigFile else f.configPath
  if f.dbName = [] then
    { events :=
        [CmdEvent.print "dropdb called\n".toList,
          CmdEvent.fatal "Database name is required. Use --database or -d to specify it.".toList]
      exitCode := 1 }
  else
    let cmdArgs := NewDropdbCmd.cmdArgs configPath f
    let pre := [CmdEvent.print "dropdb called\n".toList, CmdEvent.exec odooBin cmdArgs]
    match env.CombinedOutput odooBin cmdArgs with
    | (output, some err) =>
      { events :=
          pre ++ [CmdEvent.fatal ("Error executing drop command: ".toList ++ err.Error
            ++ "\nOutput: ".toList ++ output)]
        exitCode := 1 }
    | (_, none) =>
      { events :=
          pre ++ [CmdEvent.print
            ("Database drop completed successfully: ".toList ++ f.dbName ++ "\n".toList)]
        exitCode := 0 }

/-- An environment with the default settings in which every directory
creation and every run of the external binary succeeds. -/
def okEnv : CmdEnv :=
  { AppConfig := defaultAppConfig
    os := fileOS []
    Run := fun _ _ => none
    CombinedOutput := fun _ _ => ([], none) }

/-- An environment with the default settings in which no directory can be
created and every run of the external binary succeeds. -/
def noMkdirEnv : CmdEnv :=
  { AppConfig := defaultAppConfig
    os :=
      { ReadFile := fun _ => Except.ok []
        WriteFile := fun _ _ => none
        MkdirAll := fun _ => some (GoError.external "mkdir: permission denied".toList) }
    Run := fun _ _ => none
    CombinedOutput := fun _ _ => ([], none) }

/-! ## `internal/commands/start.go`: server supervisor -/

/-- Source `Odoo`. -/
structure Odoo where
  odooBin : GoString
  configPath : GoString

/-- The case taken by the `select` of `startOdooServer`: a signal is received,
or the value of `cmd.Wait()` is received from `errChan`. -/
inductive FirstSelect
  | signal (sig : GoString)
  | completion (err : Option GoError)

/-- The case taken by the `select` of `handleShutdown`: the value of
`cmd.Wait()` is received from `errChan`, or the timer of the grace period
fires. -/
inductive SecondSelect
  | completion (err : Option GoError)
  | timeout

/-- What the supervisor meets, as oracles: the error of `cmd.Start()`, the
process id, the cases that its two `select` statements take, the error of
`cmd.Process.Kill()`, the value that `errChan` delivers after the kill, the
exit status that the type assertions of `handleCompletion` find in an error
(`none` when it is no `*exec.ExitError` with a wait status), and, for a
completion received after `cancel()`, whether package `os/exec` had the time
to kill the child on the done context before `cmd.Wait()` returned. -/
structure SupervisorEnv where
  Start : Option GoError
  Pid : Nat
  first : FirstSelect
  second : SecondSelect
  Kill : Option GoError
  final : Option GoError
  exitStatus : GoError → Option Int
  cancelKills : Bool

/-- What the supervisor does, in order.  The event `contextKill` is the
reaction of package `os/exec` to the done context of a command built with
`exec.CommandContext`: it calls `Process.Kill` on the child as long as
`cmd.Wait()` has not returned; `kill` is the call `cmd.Process.Kill()` of the
supervisor itself. -/
inductive SupEvent
  | notify
  | start (bin : GoString) (args : List GoString)
  | print (text : GoString)
  | goWait
  | recvSignal (sig : GoString)
  | recvErrChan (err : Option GoError)
  | cancel
  | timerFired
  | kill
  | signalStop
  | contextKill
  deriving DecidableEq

/-- Source `(cfg *Odoo) handleCompletion(err error) error`. -/
def Odoo.handleCompletion (_cfg : Odoo) (env : SupervisorEnv) (err : Option GoError) :
    List SupEvent × Option GoError :=
  match err with
  | none => ([SupEvent.print "✅ Odoo finished successfully\n".toList], none)
  | some e =>
    let printed :=
      match env.exitStatus e with
      | some status =>
        [SupEvent.print ("🔴 Odoo exited with code ".toList ++ fmtD status ++ "\n".toList)]
      | none => []
    (printed, some (Errorf "Odoo execution failed: %w".toList [FmtArg.err e]))

/-- Source `(cfg *Odoo) logShutdownResult(err error) error`. -/
def Odoo.logShutdownResult (_cfg : Odoo) (err : Option GoError) :
    List SupEvent × Option GoError :=
  match err with
  | some e =>
    ([SupEvent.print ("⚠️ Odoo terminated with error: ".toList ++ e.Error ++ "\n".toList)],
      some e)
  | none => ([SupEvent.print "✅ Odoo shutdown gracefully\n".toList], none)

/-- Source `(cfg *Odoo) handleShutdown(sig, cmd, errChan, cancel) error`, in
the runs in which the receive of its last line is served; the argument
`process` is the field `cmd.Process` (`none` for nil).  The call `cancel()`
makes the context of `exec.CommandContext` done, on which `os/exec` kills the
child: always when the timer fires later, since `cmd.Wait()` has not returned
by then. -/
def Odoo.handleShutdown (cfg : Odoo) (env : SupervisorEnv) (sig : GoString)
    (process : Option Nat) : List SupEvent × Option GoError :=
  let pre :=
    [SupEvent.print
      ("\n🛑 Received signal ".toList ++ sig ++ ". Shutting down Odoo...\n".toList),
      SupEvent.cancel]
  match env.second with
  | SecondSelect.completion err =>
    let r := cfg.logShutdownResult err
    (pre ++ (if env.cancelKills then [SupEvent.contextKill] else [])
      ++ [SupEvent.recvErrChan err] ++ r.1, r.2)
  | SecondSelect.timeout =>
    let pre :=
      pre ++ [SupEvent.contextKill, SupEvent.timerFired,
        SupEvent.print "⚠️ Shutdown timeout exceeded, forcing termination...\n".toList]
    match process with
    | some _ =>
      match env.Kill with
      | some err =>
        (pre ++ [SupEvent.kill],
          some (Errorf "failed to kill process: %w".toList [FmtArg.err err]))
      | none => (pre ++ [SupEvent.kill, SupEvent.recvErrChan env.final], env.final)
    | none => (pre ++ [SupEvent.recvErrChan env.final], env.final)

/-- Source `(cfg *Odoo) startOdooServer() error`.  The deferred
`signal.Stop(signalChan)` and `cancel()` run, in this order, when the function
returns. -/
def Odoo.startOdooServer (cfg : Odoo) (env : SupervisorEnv) : List SupEvent × Option GoError :=
  let pre := [SupEvent.notify, SupEvent.start cfg.odooBin ["-c".toList, cfg.configPath]]
  match env.Start with
  | some err =>
    (pre ++ [SupEvent.signalStop, SupEvent.cancel],
      some (Errorf "failed to start Odoo: %w".toList [FmtArg.err err]))
  | none =>
    let pre :=
      pre ++ [SupEvent.print ("✅ Odoo started with PID ".toList ++ itoa env.Pid ++ "\n".toList),
        SupEvent.print "Press Ctrl+C to stop...\n".toList, SupEvent.goWait]
    match env.first with
    | FirstSelect.signal sig =>
      let r := cfg.handleShutdown env sig (some env.Pid)
      (pre ++ [SupEvent.recvSignal sig] ++ r.1 ++ [SupEvent.signalStop, SupEvent.cancel], r.2)
    | FirstSelect.completion err =>
      let r := cfg.handleCompletion env err
      (pre ++ [SupEvent.recvErrChan err] ++ r.1 ++ [SupEvent.signalStop, SupEvent.cancel], r.2)

/-- How a call ends: it returns an error value (`none` for nil), or it never
returns, blocked on a receive that is never served. -/
inductive Outcome
  | returned (err : Option GoError)
  | blocked
  deriving DecidableEq

/-- Source `(cfg *Odoo) handleShutdown(sig, cmd, errChan, cancel) error`, with
the receive `return <-errChan` of its last line served only when `cmd.Wait()`
returns after the timeout (`waitReturns`); no timer bounds that receive. -/
def Odoo.handleShutdownBlocking (cfg : Odoo) (env : SupervisorEnv) (waitReturns : Bool)
    (sig : GoString) (process : Option Nat) : List SupEvent × Outcome :=
  let pre :=
    [SupEvent.print
      ("\n🛑 Received signal ".toList ++ sig ++ ". Shutting down Odoo...\n".toList),
      SupEvent.cancel]
  match env.second with
  | SecondSelect.completion err =>
    let r := cfg.logShutdownResult err
    (pre ++ (if env.cancelKills then [SupEvent.contextKill] else [])
      ++ [SupEvent.recvErrChan err] ++ r.1, Outcome.returned r.2)
  | SecondSelect.timeout =>
    let pre :=
      pre ++ [SupEvent.contextKill, SupEvent.timerFired,
        SupEvent.print "⚠️ Shutdown timeout exceeded, forcing termination...\n".toList]
    match process with
    | some _ =>
      match env.Kill with
      | some err =>
        (pre ++ [SupEvent.kill],
          Outcome.returned (some (Errorf "failed to kill process: %w".toList [FmtArg.err err])))
      | none =>
        if waitReturns then
          (pre ++ [SupEvent.kill, SupEvent.recvErrChan env.final], Outcome.returned env.final)
        else (pre ++ [SupEvent.kill], Outcome.blocked)
    | none =>
      if waitReturns then (pre ++ [SupEvent.recvErrChan env.final], Outcome.returned env.final)
      else (pre, Outcome.blocked)

/-- Source `(cfg *Odoo) startOdooServer() error`, with the last receive of
`handleShutdown` served only when `cmd.Wait()` returns (`waitReturns`).  The
deferred calls run when the function returns, not when it blocks. -/
def Odoo.startOdooServerBlocking (cfg : Odoo) (env : SupervisorEnv) (waitReturns : Bool) :
    List SupEvent × Outcome :=
  let pre := [SupEvent.notify, SupEvent.start cfg.odooBin ["-c".toList, cfg.configPath]]
  match env.Start with
  | some err =>
    (pre ++ [SupEvent.signalStop, SupEvent.cancel],
      Outcome.returned (some (Errorf "failed to start Odoo: %w".toList [FmtArg.err err])))
  | none =>
    let pre :=
      pre ++ [SupEvent.print ("✅ Odoo started with PID ".toList ++ itoa env.Pid ++ "\n".toList),
        SupEvent.print "Press Ctrl+C to stop...\n".toList, SupEvent.goWait]
    match env.first with
    | FirstSelect.signal sig =>
      match cfg.handleShutdownBlocking env waitReturns sig (some env.Pid) with
      | (events, Outcome.returned err) =>
        (pre ++ [SupEvent.recvSignal sig] ++ events ++ [SupEvent.signalStop, SupEvent.cancel],
          Outcome.returned err)
      | (events, Outcome.blocked) =>
        (pre ++ [SupEvent.recvSignal sig] ++ events, Outcome.blocked)
    | FirstSelect.completion err =>
      let r := cfg.handleCompletion env err
      (pre ++ [SupEvent.recvErrChan err] ++ r.1 ++ [SupEvent.signalStop, SupEvent.cancel],
        Outcome.returned r.2)

/-- Source `Execute()` of `internal/root.go`: the exit code of the process
from the error of `rootCmd.Execute()`. -/
def Execute (err : Option GoError) : Nat :=
  match err with
  | some _ => 1
  | none => 0

/-- The `Run` function of source `NewStartOdooCmd()`: it calls
`cfg.startOdooServer()` as a statement, so the returned error is dropped, and
being a `Run` function (not `RunE`) it gives no error to `rootCmd.Execute()`.
Returns the events, the error that `startOdooServer` returned, and the error
that reaches `rootCmd.Execute()`. -/
def NewStartOdooCmd.Run (app : Config) (env : SupervisorEnv) :
    List SupEvent × Option GoError × Option GoError :=
  let cfg : Odoo := { odooBin := app.Odoo.OdooBin, configPath := app.Odoo.ConfigFile }
  let r := cfg.startOdooServer env
  (r.1, r.2, none)

/-- The exit code of the process for the command `start`. -/
def startExitCode (app : Config) (env : SupervisorEnv) : Nat :=
  Execute (NewStartOdooCmd.Run app env).2.2

/-- The number of values read from `errChan` in a list of events. -/
def completionReads : List SupEvent → Nat
  | [] => 0
  | SupEvent.recvErrChan _ :: rest => completionReads rest + 1
  | _ :: rest => completionReads rest

/-- The number of calls of `cmd.Process.Kill()` in a list of events. -/
def killCalls : List SupEvent → Nat
  | [] => 0
  | SupEvent.kill :: rest => killCalls rest + 1
  | _ :: rest => killCalls rest

/-- The number of kills of the child that `os/exec` makes on the done
context. -/
def contextKills : List SupEvent → Nat
  | [] => 0
  | SupEvent.contextKill :: rest => contextKills rest + 1
  | _ :: rest => contextKills rest

/-- The number of goroutines started that call `cmd.Wait()`. -/
def waitCalls : List SupEvent → Nat
  | [] => 0
  | SupEvent.goWait :: rest => waitCalls rest + 1
  | _ :: rest => waitCalls rest

/-- A supervisor environment in which a signal arrives, the grace period
expires and the kill fails, while the child would end with `signal: killed`. -/
def killFailsEnv : SupervisorEnv :=
  { Start := none
    Pid := 4242
    first := FirstSelect.signal "interrupt".toList
    second := SecondSelect.timeout
    Kill := some (GoError.external "os: process already finished".toList)
    final := some (GoError.external "signal: killed".toList)
    exitStatus := fun _ => none
    cancelKills := true }

/-- A supervisor environment in which the child cannot be started. -/
def startFailsEnv : SupervisorEnv :=
  { Start := some (GoError.external "exec: no such file or directory".toList)
    Pid := 0
    first := FirstSelect.completion none
    second := SecondSelect.timeout
    Kill := none
    final := none
    exitStatus := fun _ => none
    cancelKills := true }

/-- A supervisor environment in which a signal arrives, the grace period
expires, the kill succeeds and the child ends with `signal: killed`. -/
def killedEnv : SupervisorEnv :=
  { Start := none
    Pid := 4242
    first := FirstSelect.signal "interrupt".toList
    second := SecondSelect.timeout
    Kill := none
    final := some (GoError.external "signal: killed".toList)
    exitStatus := fun _ => none
    cancelKills := true }

/-! ## `pkg/config/config.go`: database parameters of the server configuration -/

/-- Go `strings.HasSuffix`. -/
def HasSuffix (s suf : GoString) : Bool := suf.isSuffixOf s

/-- Go `strings.SplitN(s, sep, 2)` for a separator of one character: the text
before the first separator and the text after it, or `s` alone when it holds
no separator. -/
def SplitN2 (s : GoString) (sep : Char) : List GoString :=
  match s.span (fun c => c != sep) with
  | (before, _ :: after) => [before, after]
  | (before, []) => [before]

/-- The bounds of the Go type `int` on the 64-bit platforms. -/
def minInt : Int := -(2 ^ 63)

/-- The largest value of the Go type `int` on the 64-bit platforms. -/
def maxInt : Int := 2 ^ 63 - 1

/-- The value of a string of decimal digits. -/
def digitsValue (digits : GoString) : Nat :=
  digits.foldl (fun n ch => n * 10 + (ch.toNat - 48)) 0

/-- The error of `strconv.Atoi` (the escapes that `strconv.Quote` applies to
the input being left aside). -/
def atoiError (s : GoString) (what : GoString) : GoError :=
  GoError.external
    ("strconv.Atoi: parsing ".toList ++ [dquote] ++ s ++ [dquote] ++ ": ".toList ++ what)

/-- Go `strconv.Atoi`: an optional sign and one or more decimal digits, the
value being in the range of `int`. -/
def Atoi (s : GoString) : Except GoError Int :=
  let neg := s.head? = some '-'
  let digits :=
    match s with
    | '-' :: rest => rest
    | '+' :: rest => rest
    | _ => s
  if digits = [] ∨ ¬ digits.all Char.isDigit then
    Except.error (atoiError s "invalid syntax".toList)
  else
    let n : Int := if neg then -(digitsValue digits : Int) else (digitsValue digits : Int)
    if n < minInt ∨ maxInt < n then Except.error (atoiError s "value out of range".toList)
    else Except.ok n

/-- Go `bufio.MaxScanTokenSize`. -/
def MaxScanTokenSize : Nat := 64 * 1024

/-- Go `bufio.ErrTooLong`. -/
def ErrTooLong : GoError := GoError.external "bufio.Scanner: token too long".toList

/-- The function `dropCR` of package `bufio`. -/
def dropCR (data : GoString) : GoString :=
  if data.getLast? = some '\r' then data.dropLast else data

/-- The tokens that `scanner.Scan()` delivers for the pieces between the
newlines, and the value of `scanner.Err()` after the loop: a piece of
`MaxScanTokenSize` bytes or more does not fit the buffer and stops the scan. -/
def scanPieces : List GoString → List GoString × Option GoError
  | [] => ([], none)
  | piece :: rest =>
    if MaxScanTokenSize ≤ len piece then ([], some ErrTooLong)
    else ((dropCR piece) :: (scanPieces rest).1, (scanPieces rest).2)

/-- A `bufio.Scanner` with the default split function `ScanLines` over a file
of the given content: the texts of the successive `scanner.Scan()` and the
value of `scanner.Err()`.  No token follows the last newline. -/
def scanLines (content : GoString) : List GoString × Option GoError :=
  let pieces := Split content '\n'
  scanPieces (if pieces.getLast? = some [] then pieces.dropLast else pieces)

/-- Source `DBConfig`. -/
structure DBConfig where
  Host : GoString
  Port : Int
  User : GoString
  Password : GoString
  deriving DecidableEq

/-- The loop `for scanner.Scan()` of source `LoadOdooDBParams`, over the texts
that the scanner delivers; an error is the one of the early return. -/
def LoadOdooDBParams.loop : List GoString → DBConfig → Except GoError DBConfig
  | [], dbConfig => Except.ok dbConfig
  | text :: rest, dbConfig =>
    let line := TrimSpace text
    if line = [] ∨ HasPrefix line ";".toList ∨ HasPrefix line "#".toList ∨
        (HasPrefix line "[".toList ∧ HasSuffix line "]".toList) then
      LoadOdooDBParams.loop rest dbConfig
    else
      match SplitN2 line '=' with
      | [part0, part1] =>
        let key := TrimSpace part0
        let value := TrimSpace part1
        if key = "db_host".toList then
          LoadOdooDBParams.loop rest { dbConfig with Host := value }
        else if key = "db_port".toList then
          match Atoi value with
          | Except.error err =>
            Except.error
              (Errorf "error convirtiendo db_port a entero: %w".toList [FmtArg.err err])
          | Except.ok port => LoadOdooDBParams.loop rest { dbConfig with Port := port }
        else if key = "db_user".toList then
          LoadOdooDBParams.loop rest { dbConfig with User := value }
        else if key = "db_password".toList then
          LoadOdooDBParams.loop rest { dbConfig with Password := value }
        else LoadOdooDBParams.loop rest dbConfig
      | _ => LoadOdooDBParams.loop rest dbConfig

/-- The text of the error of source `LoadOdooDBParams` for missing parameters. -/
def missingParams : GoError :=
  GoError.errorf
    "faltan parámetros de base de datos en el archivo de configuración".toList

/-- Source `LoadOdooDBParams(configPath)`; `os.ReadFile` stands for `os.Open`
and the reads of the scanner. -/
def LoadOdooDBParams (os : OS) (configPath : GoString) : Except GoError DBConfig :=
  match os.ReadFile configPath with
  | Except.error err =>
    Except.error
      (Errorf "error abriendo %s: %w".toList [FmtArg.str configPath, FmtArg.err err])
  | Except.ok content =>
    match LoadOdooDBParams.loop (scanLines content).1
        { Host := [], Port := 0, User := [], Password := [] } with
    | Except.error err => Except.error err
    | Except.ok dbConfig =>
      match (scanLines content).2 with
      | some err => Except.error (Errorf "error leyendo archivo: %w".toList [FmtArg.err err])
      | none =>
        if dbConfig.Host = [] ∨ dbConfig.Port = 0 ∨ dbConfig.User = [] ∨
            dbConfig.Password = [] then
          Except.error missingParams
        else Except.ok dbConfig

/-- A server configuration with the four database parameters, the port
being `0`. -/
def portZeroConf : GoString :=
  "[options]\ndb_host = localhost\ndb_port = 0\ndb_user = odoo\ndb_password = secret\n".toList

/-- A server configuration with the four database parameters, the host and
the port being given twice. -/
def sampleConf : GoString :=
  ("[options]\n; database\ndb_host = first\ndb_port = 5432\ndb_user = odoo\n" ++
    "db_password = secret\ndb_host = localhost\ndb_port = 5433\n").toList

/-! ## Specification-side vocabulary -/

/-- An ASCII letter or the underscore. -/
def IsLetterOrUnderscore (c : Char) : Prop := c.isAlpha = true ∨ c = '_'

/-- An ASCII letter, an ASCII digit or the underscore. -/
def IsWordChar (c : Char) : Prop := c.isAlpha = true ∨ c.isDigit = true ∨ c = '_'

/-- The identifier rules on length and characters: between 1 and 63
characters, the first a letter or underscore, all letters, digits or
underscores. -/
def IdentShape (s : GoString) : Prop :=
  1 ≤ s.length ∧ s.length ≤ 63 ∧ (∃ c, s.head? = some c ∧ IsLetterOrUnderscore c) ∧
    ∀ c ∈ s, IsWordChar c

/-- The three reserved names, as written. -/
def IsReservedName (s : GoString) : Prop :=
  s = "template0".toList ∨ s = "template1".toList ∨ s = "postgres".toList

/-- The number of hundredths `h` is a nearest one to `num / den`: the two
differ by at most half a hundredth. -/
def IsNearestHundredth (num den h : Nat) : Prop :=
  200 * num ≤ (2 * h + 1) * den ∧ 2 * h * den ≤ 200 * num + den

/-- The number of hundredths `h` is `num / den` rounded to two decimals, ties
going to the even last digit. -/
def IsRoundedHundredth (num den h : Nat) : Prop :=
  IsNearestHundredth num den h ∧
    ((200 * num = (2 * h + 1) * den ∨ 2 * h * den = 200 * num + den) → h % 2 = 0)

/-- The trimmed text of the line starts with `addons_path`. -/
def IsAddonsPathLine (line : GoString) : Bool :=
  HasPrefix (TrimSpace line) "addons_path".toList

/-- The line `addons_path = p`. -/
def addonsPathLine (p : GoString) : GoString := "addons_path = ".toList ++ p

/-- The comma-separated pieces of `s`, each trimmed of surrounding white space,
without the pieces that are empty after trimming, in their order. -/
def trimmedPieces (s : GoString) : List GoString :=
  ((Split s ',').map TrimSpace).filter fun p => decide (p ≠ [])

/-- The statement of `terminateConnections` for a database name. -/
def terminateStmt (name : GoString) : Stmt :=
  { query := terminateQuery, args := [name] }

/-- The statement `DROP DATABASE IF EXISTS "name"`. -/
def dropStmt (name : GoString) : Stmt :=
  { query := "DROP DATABASE IF EXISTS ".toList ++ QuoteIdentifier name, args := [] }

/-- The statement `ALTER DATABASE "old" RENAME TO "new"`. -/
def renameStmt (oldName newName : GoString) : Stmt :=
  { query :=
      "ALTER DATABASE ".toList ++ QuoteIdentifier oldName ++ " RENAME TO ".toList
        ++ QuoteIdentifier newName
    args := [] }

/-- The statement `CREATE DATABASE "dbname" WITH TEMPLATE "template"`. -/
def templateStmt (dbname template : GoString) : Stmt :=
  { query :=
      "CREATE DATABASE ".toList ++ QuoteIdentifier dbname ++ " WITH TEMPLATE ".toList
        ++ QuoteIdentifier template
    args := [] }

/-- The trace after the attempt, made at trace `tr`, to terminate the
connections to `name`: the statement, followed by a warning with text
`warnMsg` when the statement failed. -/
def afterTerminate (d : Driver) (tr : List Event) (name warnMsg : GoString) : List Event :=
  tr ++ Event.exec (terminateStmt name) ::
    (match d.Exec tr (terminateStmt name) with
      | some e => [Event.logWarn warnMsg e]
      | none => [])

/-- An operation-specific flag of the external binary: one of `--with-demo`,
`--force`, `--neutralize`, `--no-filestore`, or an argument that starts with
`--language=`, `--username=`, `--password=` or `--country=`. -/
def IsLifecycleFlag (x : GoString) : Prop :=
  x = "--with-demo".toList ∨ x = "--force".toList ∨ x = "--neutralize".toList ∨
    x = "--no-filestore".toList ∨ "--language=".toList <+: x ∨ "--username=".toList <+: x ∨
    "--password=".toList <+: x ∨ "--country=".toList <+: x

/-- The effective path of the external binary: the flag, or the setting when
the flag is empty. -/
def effectiveBin (env : CmdEnv) (odooBin : GoString) : GoString :=
  if odooBin = [] then env.AppConfig.Odoo.OdooBin else odooBin

/-- The effective path of the server config file: the flag, or the setting
when the flag is empty. -/
def effectiveConfig (env : CmdEnv) (configPath : GoString) : GoString :=
  if configPath = [] then env.AppConfig.Odoo.ConfigFile else configPath

/-- The argument `name` when `b` holds, nothing otherwise. -/
def optFlag (b : Bool) (name : GoString) : List GoString := if b then [name] else []

/-- The argument `name ++ v` when `v` is not empty, nothing otherwise. -/
def optValue (name v : GoString) : List GoString := if v ≠ [] then [name ++ v] else []

/-- The flags that `initdb` forwards: each default-true flag when the operator
passed it with the value true, each text option when it is not empty. -/
def initdbFlagArgs (f : InitDBFlags) : List GoString :=
  optFlag (f.withDemo == some true) "--with-demo".toList
    ++ optFlag (f.force == some true) "--force".toList
    ++ optValue "--language=".toList f.lang ++ optValue "--username=".toList f.username
    ++ optValue "--password=".toList f.password ++ optValue "--country=".toList f.country

/-- The flags that `restoredb` and `copydb` forward. -/
def forceNeutralizeArgs (force neutralize : Option Bool) : List GoString :=
  optFlag (force == some true) "--force".toList
    ++ optFlag (neutralize == some true) "--neutralize".toList

/-- The control path of the supervisor on which a signal arrives, the grace
period expires and the kill fails. -/
def KillFailurePath (env : SupervisorEnv) : Prop :=
  (∃ sig, env.first = FirstSelect.signal sig) ∧ env.second = SecondSelect.timeout ∧
    env.Kill ≠ none

/-- The key and the value of a line of a configuration file, for a line that
is not blank, no `;` or `#` comment, no `[section]` header, and holds a `=`:
the texts before and after the first `=`, without the surrounding white
space. -/
def keyValue (text : GoString) : Option (GoString × GoString) :=
  let line := TrimSpace text
  if line = [] ∨ HasPrefix line ";".toList ∨ HasPrefix line "#".toList ∨
      (HasPrefix line "[".toList ∧ HasSuffix line "]".toList) then none
  else
    match SplitN2 line '=' with
    | [part0, part1] => some (TrimSpace part0, TrimSpace part1)
    | _ => none

/-- The `key = value` lines of a file content, in order. -/
def configEntries (content : GoString) : List (GoString × GoString) :=
  (scanLines content).1.filterMap keyValue

/-- The value of the last entry with the key, `dflt` when there is none. -/
def lastValueOr (key : GoString) (entries : List (GoString × GoString)) (dflt : GoString) :
    GoString :=
  match (entries.filter (fun e => e.1 = key)).getLast? with
  | some e => e.2
  | none => dflt

/-- The value of the last entry with the key, the empty string when there is
none. -/
def lastValue (key : GoString) (entries : List (GoString × GoString)) : GoString :=
  lastValueOr key entries []

/-- The integer of the last `db_port` entry, `dflt` when there is none, `0`
when its value is no integer. -/
def lastPortOr (entries : List (GoString × GoString)) (dflt : Int) : Int :=
  match (entries.filter (fun e => e.1 = "db_port".toList)).getLast? with
  | some e =>
    match Atoi e.2 with
    | Except.ok port => port
    | Except.error _ => 0
  | none => dflt

/-- Some `db_port` entry has a value that `strconv.Atoi` rejects. -/
def BadPort (entries : List (GoString × GoString)) : Prop :=
  ∃ v, ("db_port".toList, v) ∈ entries ∧ ∃ err, Atoi v = Except.error err

/-- The conditions under which `LoadOdooDBParams` fails on a readable file: a
line too long for the scanner, a `db_port` value that is no integer, or a last
value of `db_host`, `db_user` or `db_password` that is missing or empty, or a
last `db_port` that is missing or `0`. -/
def ParamsRejected (content : GoString) : Prop :=
  (scanLines content).2 ≠ none ∨ BadPort (configEntries content) ∨
    lastValue "db_host".toList (configEntries content) = [] ∨
    lastPortOr (configEntries content) 0 = 0 ∨
    lastValue "db_user".toList (configEntries content) = [] ∨
    lastValue "db_password".toList (configEntries content) = []

/-- Go `errors.Is(e, target)` on the errors of the model: `target` is in the
chain of `e`. -/
def Wraps (e target : GoError) : Prop := target ∈ e.chain

/-- The error returned, `none` for nil. -/
def errorOf {α : Type} : Except GoError α → Option GoError
  | Except.error e => some e
  | Except.ok _ => none

/-- The error value `r` returned is not nil, and it wraps `e` and every error
that `e` wraps. -/
def FailsWith (r : Option GoError) (e : GoError) : Prop :=
  ∃ e2, r = some e2 ∧ ∀ x, Wraps e x → Wraps e2 x

/-- The trace after one statement of `ResetConfigParameters`, issued at trace
`tr`: the statement, followed by a warning with its error and its text when
it failed. -/
def afterResetQuery (d : Driver) (tr : List Event) (query : GoString) : List Event :=
  tr ++ Event.exec { query := query, args := [] } ::
    (match d.Exec tr { query := query, args := [] } with
      | some err =>
        [Event.logWarnWith "Failed to execute neutralization query".toList err
          [("query".toList, query)]]
      | none => [])

/-- The statement of `CreateDatabase`. -/
def createStmt (name : GoString) : Stmt :=
  { query := "CREATE DATABASE ".toList ++ QuoteIdentifier name
      ++ " ENCODING \x27UTF8\x27".toList,
    args := [] }

/-- The events of a run of the supervisor up to the message of the expired
grace period: the child is started and waited for, a signal is received, the
context is cancelled, on which `os/exec` kills the child, and the timer
fires. -/
def timeoutPrefix (cfg : Odoo) (env : SupervisorEnv) (sig : GoString) : List SupEvent :=
  [SupEvent.notify, SupEvent.start cfg.odooBin ["-c".toList, cfg.configPath],
    SupEvent.print ("✅ Odoo started with PID ".toList ++ itoa env.Pid ++ "\n".toList),
    SupEvent.print "Press Ctrl+C to stop...\n".toList, SupEvent.goWait,
    SupEvent.recvSignal sig,
    SupEvent.print
      ("\n🛑 Received signal ".toList ++ sig ++ ". Shutting down Odoo...\n".toList),
    SupEvent.cancel, SupEvent.contextKill, SupEvent.timerFired,
    SupEvent.print "⚠️ Shutdown timeout exceeded, forcing termination...\n".toList]

/-! ## Lemmas: characters -/

theorem isUpper_iff_toNat (c : Char) : c.isUpper = true ↔ 65 ≤ c.toNat ∧ c.toNat ≤ 90 := by
  simp only [Char.isUpper, Char.toNat, UInt32.toNat, Bool.and_eq_true, decide_eq_true_eq,
    ge_iff_le, UInt32.le_def, BitVec.le_def]
  rfl

theorem isLower_iff_toNat (c : Char) : c.isLower = true ↔ 97 ≤ c.toNat ∧ c.toNat ≤ 122 := by
  simp only [Char.isLower, Char.toNat, UInt32.toNat, Bool.and_eq_true, decide_eq_true_eq,
    ge_iff_le, UInt32.le_def, BitVec.le_def]
  rfl

theorem isDigit_iff_toNat (c : Char) : c.isDigit = true ↔ 48 ≤ c.toNat ∧ c.toNat ≤ 57 := by
  simp only [Char.isDigit, Char.toNat, UInt32.toNat, Bool.and_eq_true, decide_eq_true_eq,
    ge_iff_le, UInt32.le_def, BitVec.le_def]
  rfl

theorem isAlpha_iff_toNat (c : Char) :
    c.isAlpha = true ↔ (65 ≤ c.toNat ∧ c.toNat ≤ 90) ∨ (97 ≤ c.toNat ∧ c.toNat ≤ 122) := by
  simp only [Char.isAlpha, Bool.or_eq_true, isUpper_iff_toNat, isLower_iff_toNat]

theorem eq_underscore_iff_toNat (c : Char) : c = '_' ↔ c.toNat = 95 := by
  constructor
  · rintro rfl; rfl
  · intro h
    have h1 : Char.ofNat c.toNat = c := Char.ofNat_toNat c
    rw [h] at h1
    exact h1.symm

theorem isAlphaOrUnderscore_iff (c : Char) :
    isAlphaOrUnderscore c.toNat = true ↔ IsLetterOrUnderscore c := by
  have ha : 'a'.toNat = 97 := rfl
  have hz : 'z'.toNat = 122 := rfl
  have hA : 'A'.toNat = 65 := rfl
  have hZ : 'Z'.toNat = 90 := rfl
  have hu : '_'.toNat = 95 := rfl
  simp only [isAlphaOrUnderscore, IsLetterOrUnderscore, isAlpha_iff_toNat,
    eq_underscore_iff_toNat, ha, hz, hA, hZ, hu, Bool.or_eq_true, Bool.and_eq_true,
    decide_eq_true_eq, beq_iff_eq, ge_iff_le]
  tauto

theorem isAlphanumericOrUnderscore_iff (c : Char) :
    isAlphanumericOrUnderscore c.toNat = true ↔ IsWordChar c := by
  have h0 : '0'.toNat = 48 := rfl
  have h9 : '9'.toNat = 57 := rfl
  have h := isAlphaOrUnderscore_iff c
  simp only [IsLetterOrUnderscore] at h
  simp only [isAlphanumericOrUnderscore, IsWordChar, Bool.or_eq_true, h, isDigit_iff_toNat,
    h0, h9, Bool.and_eq_true, decide_eq_true_eq, ge_iff_le]
  tauto

theorem isAlphanumericOrUnderscore_lt (n : Nat) (h : isAlphanumericOrUnderscore n = true) :
    n < RuneSelf := by
  have ha : 'a'.toNat = 97 := rfl
  have hz : 'z'.toNat = 122 := rfl
  have hA : 'A'.toNat = 65 := rfl
  have hZ : 'Z'.toNat = 90 := rfl
  have hu : '_'.toNat = 95 := rfl
  have h0 : '0'.toNat = 48 := rfl
  have h9 : '9'.toNat = 57 := rfl
  simp only [isAlphanumericOrUnderscore, isAlphaOrUnderscore, ha, hz, hA, hZ, hu, h0, h9,
    Bool.or_eq_true, Bool.and_eq_true, decide_eq_true_eq, beq_iff_eq, ge_iff_le] at h
  simp only [RuneSelf]
  omega

theorem isAlphaOrUnderscore_leadByte (c : Char) :
    isAlphaOrUnderscore (leadByte c) = isAlphaOrUnderscore c.toNat := by
  by_cases hc : c.toNat < 0x80
  · simp [leadByte, hc]
  · have hl : 0xC0 ≤ leadByte c := by
      simp only [leadByte, if_neg hc]
      split_ifs <;> omega
    have ha : 'a'.toNat = 97 := rfl
    have hz : 'z'.toNat = 122 := rfl
    have hA : 'A'.toNat = 65 := rfl
    have hZ : 'Z'.toNat = 90 := rfl
    have hu : '_'.toNat = 95 := rfl
    have e1 : isAlphaOrUnderscore (leadByte c) = false := by
      simp only [isAlphaOrUnderscore, ha, hz, hA, hZ, hu, Bool.or_eq_false_iff,
        Bool.and_eq_false_iff, decide_eq_false_iff_not, beq_eq_false_iff_ne, ge_iff_le]
      omega
    have e2 : isAlphaOrUnderscore c.toNat = false := by
      simp only [isAlphaOrUnderscore, ha, hz, hA, hZ, hu, Bool.or_eq_false_iff,
        Bool.and_eq_false_iff, decide_eq_false_iff_not, beq_eq_false_iff_ne, ge_iff_le]
      omega
    rw [e1, e2]

/-! ## Lemmas: strings -/

theorem len_eq_length_of_ascii (s : GoString) (h : ∀ c ∈ s, c.toNat < RuneSelf) :
    len s = s.length := by
  induction s with
  | nil => rfl
  | cons a t ih =>
    have ha : a.toNat < 0x80 := h a (List.mem_cons_self a t)
    have ht : len t = t.length := ih fun c hc => h c (List.mem_cons_of_mem a hc)
    simp only [len] at ht
    simp [len, runeLen, ha, ht]
    omega

theorem ToLower_ascii (u : Char → Char) (s : GoString) (h : ∀ c ∈ s, c.toNat < RuneSelf) :
    ToLower u s = s.map Char.toLower := by
  have hall : (s.all fun c => decide (c.toNat < RuneSelf)) = true := by
    simpa [List.all_eq_true] using h
  have hA : 'A'.toNat = 65 := rfl
  have hZ : 'Z'.toNat = 90 := rfl
  have ha : 'a'.toNat = 97 := rfl
  simp only [ToLower, hall, if_true]
  split_ifs with hu
  · -- no upper-case letter: the string is returned as it is
    symm
    have hno : ∀ c ∈ s, ¬ (65 ≤ c.toNat ∧ c.toNat ≤ 90) := by
      intro c hc hcc
      simp only [Bool.not_eq_true', List.any_eq_false, hA, hZ, Bool.and_eq_true,
        decide_eq_true_eq] at hu
      exact hu c hc hcc
    calc s.map Char.toLower = s.map id := by
          apply List.map_congr_left
          intro c hc
          have := hno c hc
          simp only [Char.toLower, ge_iff_le, id]
          rw [if_neg this]
      _ = s := List.map_id s
  · apply List.map_congr_left
    intro c _
    simp only [Char.toLower, hA, hZ, ha, ge_iff_le]

/-- The string functions on small inputs, as the Go functions behave: `Split`
keeps empty pieces and gives one empty piece for the empty string, `TrimSpace`
removes white space at both ends only, `ToLower` lowers ASCII letters,
`QuoteIdentifier` doubles the double quotes. -/
theorem string_functions_examples :
    Split "a,b,,c".toList ',' = ["a".toList, "b".toList, [], "c".toList] ∧
    Split ",a,".toList ',' = [[], "a".toList, []] ∧
    Split [] ',' = [[]] ∧
    Join ["a".toList, [], "b".toList] "\n".toList = "a\n\nb".toList ∧
    TrimSpace " \t a b \r\n".toList = "a b".toList ∧
    TrimSpace "  ".toList = [] ∧
    HasPrefix "addons_path=x".toList "addons_path".toList = true ∧
    HasPrefix "addons".toList "addons_path".toList = false ∧
    ToLower id "TEMPLATE1".toList = "template1".toList ∧
    QuoteIdentifier ['a', dquote, 'b'] = [dquote, 'a', dquote, dquote, 'b', dquote] ∧
    Sprintf "host=%s port=%d".toList [FmtArg.str "h".toList, FmtArg.int 5432]
      = "host=h port=5432".toList := by
  decide

/-! ## Lemmas: config-file editors -/

theorem Sprintf_addons_path (p : GoString) :
    Sprintf "addons_path = %s".toList [FmtArg.str p] = addonsPathLine p := by
  simp [Sprintf, addonsPathLine]

theorem updateOdooConfLoop_cons (p line : GoString) (rest : List GoString) :
    updateOdooConfLoop p (line :: rest) =
      if IsAddonsPathLine line = true then (addonsPathLine p :: rest, true)
      else (line :: (updateOdooConfLoop p rest).1, (updateOdooConfLoop p rest).2) := by
  rw [updateOdooConfLoop, Sprintf_addons_path]
  rfl

theorem not_mem_of_mem_Split (sep : Char) :
    ∀ (s : GoString), ∀ l ∈ Split s sep, sep ∉ l := by
  intro s
  induction s with
  | nil =>
    intro l hl
    simp [Split, List.splitOn] at hl
    simp [hl]
  | cons c t ih =>
    intro l hl
    simp only [Split, List.splitOn, List.splitOnP_cons] at hl ih
    by_cases hc : (c == sep) = true
    · rw [if_pos hc] at hl
      rcases List.mem_cons.1 hl with h | h
      · simp [h]
      · exact ih l h
    · rw [if_neg hc] at hl
      have hne : List.splitOnP (fun x => x == sep) t ≠ [] := List.splitOnP_ne_nil _ _
      cases hsp : List.splitOnP (fun x => x == sep) t with
      | nil => exact absurd hsp hne
      | cons h tl =>
        rw [hsp] at hl ih
        simp only [List.modifyHead_cons, List.mem_cons] at hl
        rcases hl with h1 | h1
        · rw [h1]
          intro hmem
          rcases List.mem_cons.1 hmem with h2 | h2
          · exact hc (by simp [h2])
          · exact ih h (List.mem_cons_self _ _) h2
        · exact ih l (List.mem_cons_of_mem _ h1)

theorem Split_ne_nil (s : GoString) (sep : Char) : Split s sep ≠ [] :=
  List.splitOnP_ne_nil _ _

theorem Split_Join (sep : Char) (ls : List GoString) (hls : ls ≠ [])
    (h : ∀ l ∈ ls, sep ∉ l) : Split (Join ls [sep]) sep = ls :=
  List.splitOn_intercalate ls sep h hls

/-- The loop of `updateOdooConf` leaves the lines unchanged when none matches. -/
theorem updateOdooConfLoop_none (p : GoString) (L : List GoString)
    (h : ∀ l ∈ L, IsAddonsPathLine l = false) : updateOdooConfLoop p L = (L, false) := by
  induction L with
  | nil => rfl
  | cons a t ih =>
    have ha : IsAddonsPathLine a = false := h a (List.mem_cons_self a t)
    have ht := ih fun l hl => h l (List.mem_cons_of_mem a hl)
    rw [updateOdooConfLoop_cons, if_neg (by simp [ha]), ht]

/-- The loop of `updateOdooConf` replaces the first matching line. -/
theorem updateOdooConfLoop_first (p : GoString) (pre : List GoString) (l : GoString)
    (post : List GoString) (hpre : ∀ x ∈ pre, IsAddonsPathLine x = false)
    (hl : IsAddonsPathLine l = true) :
    updateOdooConfLoop p (pre ++ l :: post) = (pre ++ addonsPathLine p :: post, true) := by
  induction pre with
  | nil =>
    rw [List.nil_append, updateOdooConfLoop_cons, if_pos hl]
    rfl
  | cons a t ih =>
    have ha : IsAddonsPathLine a = false := hpre a (List.mem_cons_self a t)
    have ht := ih fun x hx => hpre x (List.mem_cons_of_mem a hx)
    rw [List.cons_append, updateOdooConfLoop_cons, if_neg (by simp [ha]), ht]
    rfl

/-- A list with a matching line splits at its first matching line. -/
theorem exists_first_addons_line (L : List GoString) (h : ∃ l ∈ L, IsAddonsPathLine l = true) :
    ∃ pre l post, L = pre ++ l :: post ∧ (∀ x ∈ pre, IsAddonsPathLine x = false) ∧
      IsAddonsPathLine l = true := by
  induction L with
  | nil =>
    obtain ⟨l, hl, _⟩ := h
    exact absurd hl (List.not_mem_nil l)
  | cons a t ih =>
    by_cases ha : IsAddonsPathLine a = true
    · exact ⟨[], a, t, rfl, fun x hx => absurd hx (List.not_mem_nil x), ha⟩
    · obtain ⟨l, hl, hm⟩ := h
      have hlt : l ∈ t := by
        rcases List.mem_cons.1 hl with h1 | h1
        · rw [h1] at hm
          exact absurd hm ha
        · exact h1
      obtain ⟨pre, l2, post, he, hp, hl2⟩ := ih ⟨l, hlt, hm⟩
      refine ⟨a :: pre, l2, post, by rw [he]; rfl, ?_, hl2⟩
      intro x hx
      rcases List.mem_cons.1 hx with h1 | h1
      · rw [h1]
        simpa using ha
      · exact hp x h1

theorem updateOdooConfLines_none (p : GoString) (L : List GoString)
    (h : ∀ l ∈ L, IsAddonsPathLine l = false) :
    updateOdooConfLines L p = L ++ [addonsPathLine p] := by
  rw [updateOdooConfLines, Sprintf_addons_path, updateOdooConfLoop_none p L h]
  rfl

theorem updateOdooConfLines_first (p : GoString) (pre : List GoString) (l : GoString)
    (post : List GoString) (hpre : ∀ x ∈ pre, IsAddonsPathLine x = false)
    (hl : IsAddonsPathLine l = true) :
    updateOdooConfLines (pre ++ l :: post) p = pre ++ addonsPathLine p :: post := by
  rw [updateOdooConfLines, updateOdooConfLoop_first p pre l post hpre hl]
  rfl

theorem set_first_addons_line (pre : List GoString) (l new : GoString)
    (post : List GoString) :
    (pre ++ l :: post).set pre.length new = pre ++ new :: post := by
  induction pre with
  | nil => rfl
  | cons a t ih => simp [List.set, ih]

theorem get_lt_first_addons_line (pre : List GoString) (l : GoString) (post : List GoString)
    (j : Nat) (hj : j < (pre ++ l :: post).length) (hlt : j < pre.length) :
    (pre ++ l :: post).get ⟨j, hj⟩ ∈ pre := by
  rw [List.get_eq_getElem, List.getElem_append_left hlt]
  exact List.getElem_mem hlt

theorem get_first_addons_line (pre : List GoString) (l : GoString) (post : List GoString)
    (hi : pre.length < (pre ++ l :: post).length) :
    (pre ++ l :: post).get ⟨pre.length, hi⟩ = l := by
  rw [List.get_eq_getElem, List.getElem_append_right (le_refl _)]
  simp

/-- The lines after the update, when some line matches: only the first
matching line is replaced. -/
theorem updateOdooConfLines_frame (p : GoString) (L : List GoString)
    (hex : ∃ l ∈ L, IsAddonsPathLine l = true) :
    ∃ i, ∃ hi : i < L.length,
      IsAddonsPathLine (L.get ⟨i, hi⟩) = true ∧
      (∀ j, ∀ hj : j < L.length, j < i → IsAddonsPathLine (L.get ⟨j, hj⟩) = false) ∧
      updateOdooConfLines L p = L.set i (addonsPathLine p) ∧
      (updateOdooConfLines L p).length = L.length ∧
      (updateOdooConfLines L p).get? i = some (addonsPathLine p) ∧
      ∀ j, j ≠ i → (updateOdooConfLines L p).get? j = L.get? j := by
  obtain ⟨pre, l, post, hL, hpre, hl⟩ := exists_first_addons_line _ hex
  subst hL
  have hlines := updateOdooConfLines_first p pre l post hpre hl
  have hi : pre.length < (pre ++ l :: post).length := by simp
  have hset := set_first_addons_line pre l (addonsPathLine p) post
  refine ⟨pre.length, hi, ?_, ?_, ?_, ?_, ?_, ?_⟩
  · rw [get_first_addons_line pre l post hi]
    exact hl
  · intro j hj hlt
    exact hpre _ (get_lt_first_addons_line pre l post j hj hlt)
  · rw [hlines, hset]
  · rw [hlines, ← hset, List.length_set]
  · rw [hlines, ← hset, List.get?_eq_getElem?, List.getElem?_set_self hi]
  · intro j hj
    rw [hlines, ← hset, List.get?_eq_getElem?, List.get?_eq_getElem?,
      List.getElem?_set_ne (Ne.symm hj)]

theorem cleanPathsLoop_eq (L : List GoString) :
    ∀ acc : List GoString,
      cleanPathsLoop L acc = acc ++ (L.map TrimSpace).filter fun p => decide (p ≠ []) := by
  induction L with
  | nil =>
    intro acc
    simp [cleanPathsLoop]
  | cons a t ih =>
    intro acc
    by_cases ha : TrimSpace a = []
    · simp [cleanPathsLoop, ha, ih]
    · simp [cleanPathsLoop, ha, ih]

theorem TrimSpace_head_not_space (p : GoString) (c : Char) (h : (TrimSpace p).head? = some c) :
    IsSpace c = false := by
  have hpre : TrimSpace p <+: p.dropWhile IsSpace := List.rdropWhile_prefix IsSpace _
  obtain ⟨r, hr⟩ := hpre
  have hnot := List.head?_dropWhile_not IsSpace p
  rw [← hr] at hnot
  cases ht : TrimSpace p with
  | nil =>
    rw [ht] at h
    exact absurd h (by simp)
  | cons a t =>
    rw [ht] at h hnot
    simp only [List.head?_cons, Option.some.injEq] at h
    simp only [List.cons_append, List.head?_cons] at hnot
    rw [← h]
    exact hnot

theorem TrimSpace_last_not_space (p : GoString) (c : Char)
    (h : (TrimSpace p).getLast? = some c) : IsSpace c = false := by
  have hne : TrimSpace p ≠ [] := by
    intro h0
    rw [h0] at h
    exact absurd h (by simp)
  have hlast := List.rdropWhile_last_not IsSpace (p.dropWhile IsSpace) hne
  have hc : (TrimSpace p).getLast hne = c := by
    have := List.getLast?_eq_getLast (TrimSpace p) hne
    rw [this] at h
    exact Option.some.inj h
  have hc2 : (List.rdropWhile IsSpace (List.dropWhile IsSpace p)).getLast hne = c := hc
  rw [hc2] at hlast
  simpa using hlast

/-! ## Lemmas: database operations -/

theorem stmtsOf_append (a b : List Event) : stmtsOf (a ++ b) = stmtsOf a ++ stmtsOf b := by
  induction a with
  | nil => rfl
  | cons e t ih => cases e <;> simp [stmtsOf, ih]

theorem stmtsOf_poolEvents (cfg : PGConfig) : stmtsOf (poolEvents cfg) = [] := by
  simp only [poolEvents]
  split_ifs <;> rfl

/-- The events that `Connect` adds start with the opening of the connection,
when there is a configuration, and hold no statement. -/
theorem Connect_trace (d : Driver) (tr : List Event) (dbname : GoString)
    (cfg : Option PGConfig) :
    ∃ evs, (Connect d tr dbname cfg).1 = tr ++ evs ∧ stmtsOf evs = [] ∧
      ∀ c, cfg = some c → ∃ rest, evs = Event.sqlOpen (connString c dbname) :: rest := by
  cases cfg with
  | none => exact ⟨[], by simp [Connect], rfl, fun c hc => by cases hc⟩
  | some c =>
    simp only [Connect]
    cases d.Open (connString c dbname) with
    | some err =>
      refine ⟨[Event.sqlOpen (connString c dbname)], rfl, rfl, fun c2 hc => ?_⟩
      cases hc
      exact ⟨[], rfl⟩
    | none =>
      cases d.Ping (tr ++ [Event.sqlOpen (connString c dbname)] ++ poolEvents c) with
      | some err =>
        refine ⟨Event.sqlOpen (connString c dbname) :: (poolEvents c ++ [Event.ping, Event.close]),
          by simp, ?_, fun c2 hc => ?_⟩
        · simp [stmtsOf, stmtsOf_append, stmtsOf_poolEvents]
        · cases hc
          exact ⟨_, rfl⟩
      | none =>
        refine ⟨Event.sqlOpen (connString c dbname) :: (poolEvents c ++ [Event.ping]),
          by simp, ?_, fun c2 hc => ?_⟩
        · simp [stmtsOf, stmtsOf_append, stmtsOf_poolEvents]
        · cases hc
          exact ⟨_, rfl⟩

theorem Sprintf_drop (name : GoString) :
    Sprintf "DROP DATABASE IF EXISTS %s".toList [FmtArg.str (QuoteIdentifier name)]
      = (dropStmt name).query := by
  simp [Sprintf, dropStmt]

theorem Sprintf_rename (oldName newName : GoString) :
    Sprintf "ALTER DATABASE %s RENAME TO %s".toList
        [FmtArg.str (QuoteIdentifier oldName), FmtArg.str (QuoteIdentifier newName)]
      = (renameStmt oldName newName).query := by
  simp [Sprintf, renameStmt]

theorem Sprintf_template (dbname template : GoString) :
    Sprintf "CREATE DATABASE %s WITH TEMPLATE %s".toList
        [FmtArg.str (QuoteIdentifier dbname), FmtArg.str (QuoteIdentifier template)]
      = (templateStmt dbname template).query := by
  simp [Sprintf, templateStmt]

theorem terminateStmt_fold (name : GoString) :
    ({ query := terminateQuery, args := [name] } : Stmt) = terminateStmt name := rfl

theorem dropStmt_fold (name : GoString) :
    ({ query := (dropStmt name).query, args := [] } : Stmt) = dropStmt name := rfl

theorem renameStmt_fold (oldName newName : GoString) :
    ({ query := (renameStmt oldName newName).query, args := [] } : Stmt)
      = renameStmt oldName newName := rfl

theorem templateStmt_fold (dbname template : GoString) :
    ({ query := (templateStmt dbname template).query, args := [] } : Stmt)
      = templateStmt dbname template := rfl

/-- The result of `DropDatabase` when the connection fails. -/
theorem DropDatabase_connect_error (d : Driver) (tr tr1 : List Event) (name : GoString)
    (cfg : Option PGConfig) (e : GoError)
    (hC : Connect d tr "postgres".toList cfg = (tr1, Except.error e)) :
    DropDatabase d tr name cfg
      = (tr1, some (GoError.wrap ("failed to connect: ".toList ++ e.Error) e)) := by
  simp only [DropDatabase, hC]
  simp [Errorf, firstErr, Sprintf, GoError.Error]

/-- The result of `DropDatabase` when the connection succeeds. -/
theorem DropDatabase_connect_ok (d : Driver) (tr tr1 : List Event) (name : GoString)
    (cfg : Option PGConfig) (hC : Connect d tr "postgres".toList cfg = (tr1, Except.ok ())) :
    DropDatabase d tr name cfg =
      match d.Exec
        (afterTerminate d tr1 name "Failed to terminate connections, continuing anyway".toList)
        (dropStmt name) with
      | some err =>
        (afterTerminate d tr1 name "Failed to terminate connections, continuing anyway".toList
            ++ [Event.exec (dropStmt name), Event.close],
          some (GoError.wrap ("failed to drop database: ".toList ++ err.Error) err))
      | none =>
        (afterTerminate d tr1 name "Failed to terminate connections, continuing anyway".toList
            ++ [Event.exec (dropStmt name),
              Event.logInfo "Database dropped successfully".toList [("database".toList, name)],
              Event.close],
          none) := by
  simp only [DropDatabase, hC, terminateConnections, ExecContext, Sprintf_drop, afterTerminate,
    terminateStmt_fold, dropStmt_fold]
  cases d.Exec tr1 (terminateStmt name) with
  | none =>
    simp only [List.append_nil]
    cases d.Exec (tr1 ++ [Event.exec (terminateStmt name)]) (dropStmt name) with
    | none => simp
    | some e2 => simp [Errorf, firstErr, Sprintf, GoError.Error]
  | some e1 =>
    simp only [List.append_assoc, List.cons_append, List.nil_append]
    cases d.Exec (tr1 ++ [Event.exec (terminateStmt name),
      Event.logWarn "Failed to terminate connections, continuing anyway".toList e1])
      (dropStmt name) with
    | none => simp
    | some e2 => simp [Errorf, firstErr, Sprintf, GoError.Error]

/-- The events that the attempt to terminate connections adds hold exactly the
terminating statement. -/
theorem afterTerminate_trace (d : Driver) (tr : List Event) (name warnMsg : GoString) :
    ∃ evs, afterTerminate d tr name warnMsg = tr ++ evs ∧ stmtsOf evs = [terminateStmt name] := by
  simp only [afterTerminate]
  cases d.Exec tr (terminateStmt name) with
  | none => exact ⟨_, rfl, rfl⟩
  | some e => exact ⟨_, rfl, rfl⟩

/-- The statements of a run of `DropDatabase`. -/
theorem DropDatabase_stmts (d : Driver) (tr : List Event) (name : GoString)
    (cfg : Option PGConfig) :
    ∃ evs, (DropDatabase d tr name cfg).1 = tr ++ evs ∧
      (stmtsOf evs = [] ∨ stmtsOf evs = [terminateStmt name, dropStmt name]) ∧
      ((Connect d tr "postgres".toList cfg).2 = Except.ok () →
        stmtsOf evs = [terminateStmt name, dropStmt name]) := by
  obtain ⟨evs0, h0, hs0, _⟩ := Connect_trace d tr "postgres".toList cfg
  rcases hC : Connect d tr "postgres".toList cfg with ⟨tr1, r⟩
  rw [hC] at h0
  simp only at h0
  cases r with
  | error e =>
    rw [DropDatabase_connect_error d tr tr1 name cfg e hC]
    exact ⟨evs0, h0, Or.inl hs0, fun h => by cases h⟩
  | ok v =>
    obtain ⟨evs1, h1, hs1⟩ := afterTerminate_trace d tr1 name
      "Failed to terminate connections, continuing anyway".toList
    rw [DropDatabase_connect_ok d tr tr1 name cfg hC, h1, h0]
    cases d.Exec (tr ++ evs0 ++ evs1) (dropStmt name) with
    | none =>
      have hs : stmtsOf (evs0 ++ evs1 ++ [Event.exec (dropStmt name),
          Event.logInfo "Database dropped successfully".toList [("database".toList, name)],
          Event.close]) = [terminateStmt name, dropStmt name] := by
        simp [stmtsOf_append, hs0, hs1, stmtsOf]
      exact ⟨_, by simp only [List.append_assoc], Or.inr hs, fun _ => hs⟩
    | some e2 =>
      have hs : stmtsOf (evs0 ++ evs1 ++ [Event.exec (dropStmt name), Event.close])
          = [terminateStmt name, dropStmt name] := by
        simp [stmtsOf_append, hs0, hs1, stmtsOf]
      exact ⟨_, by simp only [List.append_assoc], Or.inr hs, fun _ => hs⟩

/-- The result of `RenameDatabase` when the new name is valid and the
connection fails. -/
theorem RenameDatabase_connect_error (u : Char → Char) (d : Driver) (tr tr1 : List Event)
    (oldName newName : GoString) (cfg : Option PGConfig) (e : GoError)
    (hv : IsValidDBName u newName = true)
    (hC : Connect d tr "postgres".toList cfg = (tr1, Except.error e)) :
    RenameDatabase u d tr oldName newName cfg
      = (tr1, some (GoError.wrap ("failed to connect: ".toList ++ e.Error) e)) := by
  simp only [RenameDatabase, hv, hC]
  simp [Errorf, firstErr, Sprintf, GoError.Error]

/-- The result of `RenameDatabase` when the new name is valid and the
connection succeeds. -/
theorem RenameDatabase_connect_ok (u : Char → Char) (d : Driver) (tr tr1 : List Event)
    (oldName newName : GoString) (cfg : Option PGConfig)
    (hv : IsValidDBName u newName = true)
    (hC : Connect d tr "postgres".toList cfg = (tr1, Except.ok ())) :
    RenameDatabase u d tr oldName newName cfg =
      match d.Exec (afterTerminate d tr1 oldName "Failed to terminate connections".toList)
        (renameStmt oldName newName) with
      | some err =>
        (afterTerminate d tr1 oldName "Failed to terminate connections".toList
            ++ [Event.exec (renameStmt oldName newName), Event.close],
          some (GoError.wrap ("failed to rename database: ".toList ++ err.Error) err))
      | none =>
        (afterTerminate d tr1 oldName "Failed to terminate connections".toList
            ++ [Event.exec (renameStmt oldName newName),
              Event.logInfo "Database renamed successfully".toList
                [("old_name".toList, oldName), ("new_name".toList, newName)],
              Event.close],
          none) := by
  simp only [RenameDatabase, hv, hC, terminateConnections, ExecContext, Sprintf_rename,
    afterTerminate, terminateStmt_fold, renameStmt_fold, Bool.not_true, Bool.false_eq_true,
    if_false]
  cases d.Exec tr1 (terminateStmt oldName) with
  | none =>
    simp only [List.append_nil]
    cases d.Exec (tr1 ++ [Event.exec (terminateStmt oldName)]) (renameStmt oldName newName) with
    | none => simp
    | some e2 => simp [Errorf, firstErr, Sprintf, GoError.Error]
  | some e1 =>
    simp only [List.append_assoc, List.cons_append, List.nil_append]
    cases d.Exec (tr1 ++ [Event.exec (terminateStmt oldName),
      Event.logWarn "Failed to terminate connections".toList e1])
      (renameStmt oldName newName) with
    | none => simp
    | some e2 => simp [Errorf, firstErr, Sprintf, GoError.Error]

/-- The statements of a run of `RenameDatabase`. -/
theorem RenameDatabase_stmts (u : Char → Char) (d : Driver) (tr : List Event)
    (oldName newName : GoString) (cfg : Option PGConfig) :
    ∃ evs, (RenameDatabase u d tr oldName newName cfg).1 = tr ++ evs ∧
      (stmtsOf evs = [] ∨ stmtsOf evs = [terminateStmt oldName, renameStmt oldName newName]) ∧
      (IsValidDBName u newName = true →
        (Connect d tr "postgres".toList cfg).2 = Except.ok () →
        stmtsOf evs = [terminateStmt oldName, renameStmt oldName newName]) := by
  by_cases hv : IsValidDBName u newName = true
  · obtain ⟨evs0, h0, hs0, _⟩ := Connect_trace d tr "postgres".toList cfg
    rcases hC : Connect d tr "postgres".toList cfg with ⟨tr1, r⟩
    rw [hC] at h0
    simp only at h0
    cases r with
    | error e =>
      rw [RenameDatabase_connect_error u d tr tr1 oldName newName cfg e hv hC]
      exact ⟨evs0, h0, Or.inl hs0, fun _ h => by cases h⟩
    | ok v =>
      obtain ⟨evs1, h1, hs1⟩ := afterTerminate_trace d tr1 oldName
        "Failed to terminate connections".toList
      rw [RenameDatabase_connect_ok u d tr tr1 oldName newName cfg hv hC, h1, h0]
      cases d.Exec (tr ++ evs0 ++ evs1) (renameStmt oldName newName) with
      | none =>
        have hs : stmtsOf (evs0 ++ evs1 ++ [Event.exec (renameStmt oldName newName),
            Event.logInfo "Database renamed successfully".toList
              [("old_name".toList, oldName), ("new_name".toList, newName)],
            Event.close]) = [terminateStmt oldName, renameStmt oldName newName] := by
          simp [stmtsOf_append, hs0, hs1, stmtsOf]
        exact ⟨_, by simp only [List.append_assoc], Or.inr hs, fun _ _ => hs⟩
      | some e2 =>
        have hs : stmtsOf (evs0 ++ evs1 ++ [Event.exec (renameStmt oldName newName),
            Event.close]) = [terminateStmt oldName, renameStmt oldName newName] := by
          simp [stmtsOf_append, hs0, hs1, stmtsOf]
        exact ⟨_, by simp only [List.append_assoc], Or.inr hs, fun _ _ => hs⟩
  · have hf : IsValidDBName u newName = false := by simpa using hv
    refine ⟨[], ?_, Or.inl rfl, fun h => absurd h hv⟩
    simp [RenameDatabase, hf]

/-- The result of `CreateDatabaseFromTemplate` when the name is valid and the
connection fails. -/
theorem CreateDatabaseFromTemplate_connect_error (u : Char → Char) (d : Driver)
    (tr tr1 : List Event) (dbname template : GoString) (cfg : Option PGConfig) (e : GoError)
    (hv : IsValidDBName u dbname = true)
    (hC : Connect d tr "postgres".toList cfg = (tr1, Except.error e)) :
    CreateDatabaseFromTemplate u d tr dbname template cfg
      = (tr1, some (GoError.wrap ("failed to connect: ".toList ++ e.Error) e)) := by
  simp only [CreateDatabaseFromTemplate, hv, hC]
  simp [Errorf, firstErr, Sprintf, GoError.Error]

/-- The result of `CreateDatabaseFromTemplate` when the name is valid and the
connection succeeds. -/
theorem CreateDatabaseFromTemplate_connect_ok (u : Char → Char) (d : Driver)
    (tr tr1 : List Event) (dbname template : GoString) (cfg : Option PGConfig)
    (hv : IsValidDBName u dbname = true)
    (hC : Connect d tr "postgres".toList cfg = (tr1, Except.ok ())) :
    CreateDatabaseFromTemplate u d tr dbname template cfg =
      match d.Exec (afterTerminate d tr1 template "Failed to terminate template connections".toList)
        (templateStmt dbname template) with
      | some err =>
        (afterTerminate d tr1 template "Failed to terminate template connections".toList
            ++ [Event.exec (templateStmt dbname template), Event.close],
          some (GoError.wrap
            ("failed to create database from template: ".toList ++ err.Error) err))
      | none =>
        (afterTerminate d tr1 template "Failed to terminate template connections".toList
            ++ [Event.exec (templateStmt dbname template),
              Event.logInfo "Database created from template successfully".toList
                [("database".toList, dbname), ("template".toList, template)],
              Event.close],
          none) := by
  simp only [CreateDatabaseFromTemplate, hv, hC, terminateConnections, ExecContext,
    Sprintf_template, afterTerminate, terminateStmt_fold, templateStmt_fold, Bool.not_true,
    Bool.false_eq_true, if_false]
  cases d.Exec tr1 (terminateStmt template) with
  | none =>
    simp only [List.append_nil]
    cases d.Exec (tr1 ++ [Event.exec (terminateStmt template)])
      (templateStmt dbname template) with
    | none => simp
    | some e2 => simp [Errorf, firstErr, Sprintf, GoError.Error]
  | some e1 =>
    simp only [List.append_assoc, List.cons_append, List.nil_append]
    cases d.Exec (tr1 ++ [Event.exec (terminateStmt template),
      Event.logWarn "Failed to terminate template connections".toList e1])
      (templateStmt dbname template) with
    | none => simp
    | some e2 => simp [Errorf, firstErr, Sprintf, GoError.Error]

/-- The statements of a run of `CreateDatabaseFromTemplate`. -/
theorem CreateDatabaseFromTemplate_stmts (u : Char → Char) (d : Driver) (tr : List Event)
    (dbname template : GoString) (cfg : Option PGConfig) :
    ∃ evs, (CreateDatabaseFromTemplate u d tr dbname template cfg).1 = tr ++ evs ∧
      (stmtsOf evs = [] ∨ stmtsOf evs = [terminateStmt template, templateStmt dbname template]) ∧
      (IsValidDBName u dbname = true →
        (Connect d tr "postgres".toList cfg).2 = Except.ok () →
        stmtsOf evs = [terminateStmt template, templateStmt dbname template]) := by
  by_cases hv : IsValidDBName u dbname = true
  · obtain ⟨evs0, h0, hs0, _⟩ := Connect_trace d tr "postgres".toList cfg
    rcases hC : Connect d tr "postgres".toList cfg with ⟨tr1, r⟩
    rw [hC] at h0
    simp only at h0
    cases r with
    | error e =>
      rw [CreateDatabaseFromTemplate_connect_error u d tr tr1 dbname template cfg e hv hC]
      exact ⟨evs0, h0, Or.inl hs0, fun _ h => by cases h⟩
    | ok v =>
      obtain ⟨evs1, h1, hs1⟩ := afterTerminate_trace d tr1 template
        "Failed to terminate template connections".toList
      rw [CreateDatabaseFromTemplate_connect_ok u d tr tr1 dbname template cfg hv hC, h1, h0]
      cases d.Exec (tr ++ evs0 ++ evs1) (templateStmt dbname template) with
      | none =>
        have hs : stmtsOf (evs0 ++ evs1 ++ [Event.exec (templateStmt dbname template),
            Event.logInfo "Database created from template successfully".toList
              [("database".toList, dbname), ("template".toList, template)],
            Event.close]) = [terminateStmt template, templateStmt dbname template] := by
          simp [stmtsOf_append, hs0, hs1, stmtsOf]
        exact ⟨_, by simp only [List.append_assoc], Or.inr hs, fun _ _ => hs⟩
      | some e2 =>
        have hs : stmtsOf (evs0 ++ evs1 ++ [Event.exec (templateStmt dbname template),
            Event.close]) = [terminateStmt template, templateStmt dbname template] := by
          simp [stmtsOf_append, hs0, hs1, stmtsOf]
        exact ⟨_, by simp only [List.append_assoc], Or.inr hs, fun _ _ => hs⟩
  · have hf : IsValidDBName u dbname = false := by simpa using hv
    refine ⟨[], ?_, Or.inl rfl, fun h => absurd h hv⟩
    simp [CreateDatabaseFromTemplate, hf]

/-- With a configuration, `DropDatabase` opens a connection whatever the name. -/
theorem DropDatabase_opens (d : Driver) (tr : List Event) (name : GoString) (c : PGConfig) :
    ∃ evs, (DropDatabase d tr name (some c)).1
      = tr ++ Event.sqlOpen (connString c "postgres".toList) :: evs := by
  obtain ⟨evs0, h0, _, hopen⟩ := Connect_trace d tr "postgres".toList (some c)
  obtain ⟨rest, hrest⟩ := hopen c rfl
  rcases hC : Connect d tr "postgres".toList (some c) with ⟨tr1, r⟩
  rw [hC] at h0
  simp only at h0
  cases r with
  | error e =>
    rw [DropDatabase_connect_error d tr tr1 name (some c) e hC]
    exact ⟨rest, by rw [h0, hrest]⟩
  | ok v =>
    obtain ⟨evs1, h1, _⟩ := afterTerminate_trace d tr1 name
      "Failed to terminate connections, continuing anyway".toList
    rw [DropDatabase_connect_ok d tr tr1 name (some c) hC, h1, h0, hrest]
    cases d.Exec (tr ++ Event.sqlOpen (connString c "postgres".toList) :: rest ++ evs1)
      (dropStmt name) with
    | none =>
      refine ⟨rest ++ (evs1 ++ [Event.exec (dropStmt name),
        Event.logInfo "Database dropped successfully".toList [("database".toList, name)],
        Event.close]), ?_⟩
      simp only [List.append_assoc, List.cons_append]
    | some e2 =>
      refine ⟨rest ++ (evs1 ++ [Event.exec (dropStmt name), Event.close]), ?_⟩
      simp only [List.append_assoc, List.cons_append]

/-- The names of existing databases are not validated by the sibling
operations either: `RenameDatabase` proceeds for the old name `my-db`, and
`CreateDatabaseFromTemplate` for the template `my-db`. -/
theorem existing_names_unvalidated :
    stmtsOf (RenameDatabase id okDriver [] "my-db".toList "newdb".toList
        (some DefaultPGConfig)).1
      = [terminateStmt "my-db".toList, renameStmt "my-db".toList "newdb".toList] ∧
    stmtsOf (CreateDatabaseFromTemplate id okDriver [] "newdb".toList "my-db".toList
        (some DefaultPGConfig)).1
      = [terminateStmt "my-db".toList, templateStmt "newdb".toList "my-db".toList] := by
  decide

/-! ## Theorems: C1 -/

/-- C1 (as stated, refuted): the name `Postgres` has eight characters, all ASCII
letters, and is none of `template0`, `template1`, `postgres`, yet
`IsValidDBName` rejects it, because the reserved names are compared with the
lower-cased name. -/
theorem IsValidDBName_rejects_Postgres :
    (∀ u : Char → Char, IsValidDBName u "Postgres".toList = false) ∧
      IdentShape "Postgres".toList ∧ ¬ IsReservedName "Postgres".toList := by
  refine ⟨fun u => ?_, ⟨by decide, by decide, ⟨'P', rfl, Or.inl (by decide)⟩, ?_⟩, ?_⟩
  · have h : ∀ c ∈ "Postgres".toList, c.toNat < RuneSelf := by decide
    have hl := ToLower_ascii u "Postgres".toList h
    have hl2 : "Postgres".toList.map Char.toLower = "postgres".toList := by decide
    rw [hl2] at hl
    have hlen : len "Postgres".toList = 8 := by decide
    simp only [IsValidDBName, hlen, hl]
    decide
  · intro c hc
    have : ∀ c ∈ "Postgres".toList, c.isAlpha = true := by decide
    exact Or.inl (this c hc)
  · unfold IsReservedName
    decide

/-- C1 (amended): `IsValidDBName` accepts exactly the strings of 1 to 63
characters whose first character is an ASCII letter or underscore, whose
characters are all ASCII letters, digits or underscores, and whose ASCII
lower-casing is none of `template0`, `template1`, `postgres`. -/
theorem IsValidDBName_iff (u : Char → Char) (s : GoString) :
    IsValidDBName u s = true ↔ IdentShape s ∧ ¬ IsReservedName (s.map Char.toLower) := by
  cases s with
  | nil => simp [IsValidDBName, IdentShape, len]
  | cons c0 t =>
    have hres : ∀ x : GoString, (reserved.any fun r => x == r) = true ↔ IsReservedName x := by
      intro x
      simp [reserved, IsReservedName]
    by_cases hall : ∀ c ∈ c0 :: t, isAlphanumericOrUnderscore c.toNat = true
    · have hascii : ∀ c ∈ c0 :: t, c.toNat < RuneSelf :=
        fun c hc => isAlphanumericOrUnderscore_lt _ (hall c hc)
      have hlen := len_eq_length_of_ascii _ hascii
      have hlow := ToLower_ascii u _ hascii
      have hany : ((c0 :: t).any fun c => !isAlphanumericOrUnderscore c.toNat) = false := by
        rw [List.any_eq_false]
        intro c hc
        simp [hall c hc]
      have hword : ∀ c ∈ c0 :: t, IsWordChar c :=
        fun c hc => (isAlphanumericOrUnderscore_iff c).1 (hall c hc)
      simp only [IsValidDBName, hlen, hlow, hany, isAlphaOrUnderscore_leadByte]
      simp only [Bool.false_eq_true, if_false]
      have hshape : IdentShape (c0 :: t) ↔
          ¬ ((c0 :: t).length = 0 ∨ (c0 :: t).length > 63) ∧
            isAlphaOrUnderscore c0.toNat = true := by
        rw [isAlphaOrUnderscore_iff]
        simp only [IdentShape, List.head?_cons, Option.some.injEq, exists_eq_left',
          List.length_cons]
        constructor
        · rintro ⟨_, h2, h3, _⟩
          exact ⟨by omega, h3⟩
        · rintro ⟨h1, h2⟩
          exact ⟨by omega, by omega, h2, hword⟩
      rw [hshape]
      by_cases h1 : (c0 :: t).length = 0 ∨ (c0 :: t).length > 63
      · rw [if_pos h1]
        exact ⟨fun h => Bool.noConfusion h, fun h => absurd h1 h.1.1⟩
      · rw [if_neg h1]
        by_cases h2 : isAlphaOrUnderscore c0.toNat = true
        · rw [if_neg (by simp [h2])]
          by_cases h3 : IsReservedName (List.map Char.toLower (c0 :: t))
          · rw [if_pos ((hres _).2 h3)]
            exact ⟨fun h => Bool.noConfusion h, fun h => absurd h3 h.2⟩
          · rw [if_neg (fun h => h3 ((hres _).1 h))]
            simp only [true_iff]
            exact ⟨⟨h1, h2⟩, h3⟩
        · rw [if_pos (by simpa using h2)]
          exact ⟨fun h => Bool.noConfusion h, fun h => absurd h.1.2 h2⟩
    · have hany : ((c0 :: t).any fun c => !isAlphanumericOrUnderscore c.toNat) = true := by
        rw [List.any_eq_true]
        by_contra hcon
        apply hall
        intro c hc
        by_contra hne
        exact hcon ⟨c, hc, by simpa using hne⟩
      have hns : ¬ IdentShape (c0 :: t) := by
        rintro ⟨_, _, _, hw⟩
        exact hall fun c hc => (isAlphanumericOrUnderscore_iff c).2 (hw c hc)
      have hf : IsValidDBName u (c0 :: t) = false := by
        simp only [IsValidDBName, hany]
        split_ifs <;> rfl
      simp [hf, hns]

/-! ## Lemmas: `formatBytes` -/

theorem roundHalfEven_spec (a b : Nat) (hb : 0 < b) :
    2 * a ≤ (2 * roundHalfEven a b + 1) * b ∧ 2 * roundHalfEven a b * b ≤ 2 * a + b ∧
      ((2 * a = (2 * roundHalfEven a b + 1) * b ∨ 2 * roundHalfEven a b * b = 2 * a + b) →
        roundHalfEven a b % 2 = 0) := by
  have hdm : b * (a / b) + a % b = a := Nat.div_add_mod a b
  have hr : a % b < b := Nat.mod_lt a hb
  generalize hq : a / b = q at hdm
  generalize hrr : a % b = r at hdm hr
  have hup : (2 * (q + 1) + 1) * b = 2 * (b * q) + 3 * b := by ring
  have hup2 : 2 * (q + 1) * b = 2 * (b * q) + 2 * b := by ring
  have hdn : (2 * q + 1) * b = 2 * (b * q) + b := by ring
  have hdn2 : 2 * q * b = 2 * (b * q) := by ring
  generalize hX : b * q = X at hdm hup hup2 hdn hdn2
  simp only [roundHalfEven, hq, hrr]
  split_ifs with hc
  · rw [hup, hup2]
    refine ⟨by omega, by omega, fun _ => ?_⟩
    omega
  · rw [hdn, hdn2]
    refine ⟨by omega, by omega, fun _ => ?_⟩
    omega

theorem fmtF2_rounded (num den : Nat) (hden : 0 < den) :
    IsRoundedHundredth num den (roundHalfEven (100 * num) den) := by
  have h := roundHalfEven_spec (100 * num) den hden
  have e : 2 * (100 * num) = 200 * num := by ring
  rw [e] at h
  exact ⟨⟨h.1, h.2.1⟩, h.2.2⟩

theorem float64OfInt_exact (n : Nat) (h : n < 2 ^ 53) : float64OfInt n = n := by
  have hs : float64Shift n n = 0 := by
    cases n with
    | zero => rfl
    | succ m => rw [float64Shift, if_pos h]
  have hz : ¬ (2 * 0 > 1 ∨ 2 * 0 = 1 ∧ n % 2 = 1) := by omega
  simp only [float64OfInt, hs, roundHalfEven, pow_zero, Nat.div_one, Nat.mod_one, if_neg hz,
    Nat.mul_one]

/-- The bound on the recursion of `float64Shift` is never what stops it. -/
theorem float64Shift_fuel_succ :
    ∀ fuel n : Nat, n ≤ fuel → float64Shift (fuel + 1) n = float64Shift fuel n := by
  intro fuel
  induction fuel with
  | zero =>
    intro n hn
    have h0 : n = 0 := by omega
    subst h0
    simp [float64Shift]
  | succ f ih =>
    intro n hn
    have e1 : float64Shift (f + 1 + 1) n
        = if n < 2 ^ 53 then 0 else float64Shift (f + 1) (n / 2) + 1 := rfl
    have e2 : float64Shift (f + 1) n
        = if n < 2 ^ 53 then 0 else float64Shift f (n / 2) + 1 := rfl
    rw [e1, e2]
    by_cases hlt : n < 2 ^ 53
    · rw [if_pos hlt, if_pos hlt]
    · rw [if_neg hlt, if_neg hlt, ih (n / 2) (by omega)]

/-- From `2^53` on, `float64Shift` is the number `e ≥ 1` of binary digits that
`n` has beyond 53. -/
theorem float64Shift_spec :
    ∀ fuel n : Nat, n ≤ fuel → 2 ^ 53 ≤ n →
      1 ≤ float64Shift fuel n ∧ 2 ^ (52 + float64Shift fuel n) ≤ n ∧
        n < 2 ^ (53 + float64Shift fuel n) := by
  intro fuel
  induction fuel with
  | zero =>
    intro n hn hlo
    have : 0 < 2 ^ 53 := Nat.pos_pow_of_pos 53 (by decide)
    omega
  | succ f ih =>
    intro n hn hlo
    have e1 : float64Shift (f + 1) n
        = if n < 2 ^ 53 then 0 else float64Shift f (n / 2) + 1 := rfl
    rw [e1, if_neg (by omega)]
    by_cases hsmall : n / 2 < 2 ^ 53
    · have hz : float64Shift f (n / 2) = 0 := by
        cases f with
        | zero => rfl
        | succ g =>
          have e2 : float64Shift (g + 1) (n / 2)
              = if n / 2 < 2 ^ 53 then 0 else float64Shift g (n / 2 / 2) + 1 := rfl
          rw [e2, if_pos hsmall]
      rw [hz]
      refine ⟨by omega, ?_, ?_⟩
      · exact hlo
      · have : (2 : Nat) ^ (53 + (0 + 1)) = 2 * 2 ^ 53 := by norm_num
        rw [this]
        omega
    · have hpos : 0 < 2 ^ 53 := Nat.pos_pow_of_pos 53 (by decide)
      obtain ⟨h1, h2, h3⟩ := ih (n / 2) (by omega) (by omega)
      generalize float64Shift f (n / 2) = s at h1 h2 h3
      have p1 : (2 : Nat) ^ (52 + (s + 1)) = 2 * 2 ^ (52 + s) := by
        rw [← Nat.add_assoc, pow_succ]
        ring
      have p2 : (2 : Nat) ^ (53 + (s + 1)) = 2 * 2 ^ (53 + s) := by
        rw [← Nat.add_assoc, pow_succ]
        ring
      rw [p1, p2]
      refine ⟨by omega, by omega, by omega⟩

/-- From `2^53` on, `float64OfInt n` is `m * 2^e` for the mantissa `m` between
`2^52` and `2^53` nearest to `n / 2^e`, ties going to the even mantissa, where
`e` is the number of binary digits that `n` has beyond 53. -/
theorem float64OfInt_spec (n : Nat) (hlo : 2 ^ 53 ≤ n) :
    ∃ e m, 1 ≤ e ∧ 2 ^ (52 + e) ≤ n ∧ n < 2 ^ (53 + e) ∧ float64OfInt n = m * 2 ^ e ∧
      2 ^ 52 ≤ m ∧ m ≤ 2 ^ 53 ∧
      2 * n ≤ (2 * m + 1) * 2 ^ e ∧ 2 * m * 2 ^ e ≤ 2 * n + 2 ^ e ∧
      ((2 * n = (2 * m + 1) * 2 ^ e ∨ 2 * m * 2 ^ e = 2 * n + 2 ^ e) → m % 2 = 0) := by
  obtain ⟨h1, h2, h3⟩ := float64Shift_spec n n (le_refl n) hlo
  have hb : 0 < 2 ^ float64Shift n n := Nat.pos_pow_of_pos _ (by decide)
  obtain ⟨r1, r2, r3⟩ := roundHalfEven_spec n (2 ^ float64Shift n n) hb
  refine ⟨float64Shift n n, roundHalfEven n (2 ^ float64Shift n n), h1, h2, h3, rfl, ?_, ?_,
    r1, r2, r3⟩
  · have hq : 2 ^ 52 ≤ n / 2 ^ float64Shift n n := by
      rw [Nat.le_div_iff_mul_le hb, ← pow_add]
      exact h2
    simp only [roundHalfEven]
    split_ifs <;> omega
  · have hq : n / 2 ^ float64Shift n n < 2 ^ 53 := by
      rw [Nat.div_lt_iff_lt_mul hb, ← pow_add]
      exact h3
    simp only [roundHalfEven]
    split_ifs <;> omega

/-- The conversion to float64 on the integers next to `2^53` and on the
largest `int64`: odd integers above `2^53` are rounded to the even mantissa. -/
theorem float64OfInt_examples :
    float64OfInt (2 ^ 53) = 2 ^ 53 ∧ float64OfInt (2 ^ 53 + 1) = 2 ^ 53 ∧
      float64OfInt (2 ^ 53 + 2) = 2 ^ 53 + 2 ∧ float64OfInt (2 ^ 53 + 3) = 2 ^ 53 + 4 ∧
      float64OfInt (2 ^ 63 - 1) = 2 ^ 63 := by
  decide

theorem formatBytesLoop_eq (j : Nat) :
    ∀ fuel n div exp : Nat, n ≤ fuel → 1024 ^ j ≤ n → n < 1024 ^ (j + 1) →
      formatBytesLoop fuel n div exp = (div * 1024 ^ j, exp + j) := by
  induction j with
  | zero =>
    intro fuel n div exp hf hlo hhi
    cases fuel with
    | zero => simp at hlo; omega
    | succ f =>
      have : ¬ n ≥ unit := by simp only [unit]; omega
      simp [formatBytesLoop, this]
  | succ j ih =>
    intro fuel n div exp hf hlo hhi
    have h1 : 1024 ≤ n := by
      have : 1024 ^ 1 ≤ 1024 ^ (j + 1) := Nat.pow_le_pow_right (by decide) (by omega)
      omega
    cases fuel with
    | zero => omega
    | succ f =>
      have hge : n ≥ unit := by simp only [unit]; omega
      have hlo2 : 1024 ^ j ≤ n / 1024 := by
        rw [Nat.le_div_iff_mul_le (by decide)]
        rw [pow_succ] at hlo
        exact hlo
      have hhi2 : n / 1024 < 1024 ^ (j + 1) := by
        rw [Nat.div_lt_iff_lt_mul (by decide)]
        rw [pow_succ] at hhi
        exact hhi
      have hf2 : n / 1024 ≤ f := by omega
      rw [formatBytesLoop, if_pos hge]
      simp only [unit]
      rw [ih f (n / 1024) (div * 1024) (exp + 1) hf2 hlo2 hhi2]
      rw [pow_succ]
      congr 1
      · ring
      · omega

theorem formatBytesLoop_succ (fuel n div exp : Nat) :
    formatBytesLoop (fuel + 1) n div exp =
      if n ≥ unit then formatBytesLoop fuel (n / unit) (div * unit) (exp + 1)
      else (div, exp) := rfl

/-- The bound on the iterations of the loop of `formatBytes` is never what
stops it: one more iteration allowed changes nothing. -/
theorem formatBytesLoop_fuel_succ :
    ∀ fuel n div exp : Nat, n ≤ fuel →
      formatBytesLoop (fuel + 1) n div exp = formatBytesLoop fuel n div exp := by
  intro fuel
  induction fuel with
  | zero =>
    intro n div exp hn
    have h0 : n = 0 := by omega
    subst h0
    simp [formatBytesLoop, unit]
  | succ f ih =>
    intro n div exp hn
    rw [formatBytesLoop_succ (f + 1) n div exp, formatBytesLoop_succ f n div exp]
    by_cases hge : n ≥ unit
    · rw [if_pos hge, if_pos hge]
      apply ih
      simp only [unit] at hge ⊢
      omega
    · rw [if_neg hge, if_neg hge]

/-- Every bound from the loop variable on gives the same result of the loop
of `formatBytes`. -/
theorem formatBytesLoop_fuel (k : Nat) :
    ∀ fuel n div exp : Nat, n ≤ fuel →
      formatBytesLoop (fuel + k) n div exp = formatBytesLoop fuel n div exp := by
  induction k with
  | zero =>
    intro fuel n div exp _
    rfl
  | succ k ih =>
    intro fuel n div exp hn
    rw [← Nat.add_assoc, formatBytesLoop_fuel_succ (fuel + k) n div exp (by omega)]
    exact ih fuel n div exp hn

/-- For a 64-bit byte count the divisor computed by the loop of `formatBytes`
is at most `2^60`: the product `div *= unit` does not overflow `int64`. -/
theorem formatBytesLoop_div_le (b : Nat) (hlo : 1024 ≤ b) (hhi : b < 2 ^ 63) :
    (formatBytesLoop (b / 1024) (b / 1024) 1024 0).1 ≤ 2 ^ 60 := by
  have hpos : 1 ≤ b / 1024 := by omega
  have hlt : b / 1024 < 2 ^ 53 := by omega
  have hk : ∃ j, j ≤ 5 ∧ 1024 ^ j ≤ b / 1024 ∧ b / 1024 < 1024 ^ (j + 1) := by
    norm_num at hlt
    by_cases h1 : b / 1024 < 1024 ^ 1
    · exact ⟨0, by decide, by norm_num; omega, h1⟩
    · by_cases h2 : b / 1024 < 1024 ^ 2
      · exact ⟨1, by decide, by omega, h2⟩
      · by_cases h3 : b / 1024 < 1024 ^ 3
        · exact ⟨2, by decide, by omega, h3⟩
        · by_cases h4 : b / 1024 < 1024 ^ 4
          · exact ⟨3, by decide, by omega, h4⟩
          · by_cases h5 : b / 1024 < 1024 ^ 5
            · exact ⟨4, by decide, by omega, h5⟩
            · exact ⟨5, by decide, by omega, by norm_num; omega⟩
  obtain ⟨j, hj, h1, h2⟩ := hk
  rw [formatBytesLoop_eq j (b / 1024) (b / 1024) 1024 0 (le_refl _) h1 h2]
  have hpow : 1024 ^ j ≤ 1024 ^ 5 := Nat.pow_le_pow_right (by decide) hj
  norm_num at hpow ⊢
  omega

theorem formatBytes_scaled (n k : Nat) (hk1 : 1 ≤ k) (hlo : 1024 ^ k ≤ n)
    (hhi : n < 1024 ^ (k + 1)) :
    formatBytes n =
      (units.get? (k - 1)).map fun u =>
        twoDecimals (roundHalfEven (100 * float64OfInt n) (1024 ^ k)) ++ ' ' :: u := by
  obtain ⟨j, rfl⟩ : ∃ j, k = j + 1 := ⟨k - 1, by omega⟩
  have h1 : 1024 ≤ n := by
    have : 1024 ^ 1 ≤ 1024 ^ (j + 1) := Nat.pow_le_pow_right (by decide) (by omega)
    omega
  have hlo2 : 1024 ^ j ≤ n / 1024 := by
    rw [Nat.le_div_iff_mul_le (by decide)]
    rw [pow_succ] at hlo
    exact hlo
  have hhi2 : n / 1024 < 1024 ^ (j + 1) := by
    rw [Nat.div_lt_iff_lt_mul (by decide)]
    rw [pow_succ] at hhi
    exact hhi
  have hloop := formatBytesLoop_eq j (n / 1024) (n / 1024) 1024 0 (le_refl _) hlo2 hhi2
  have hnot : ¬ ((n : Int) < (unit : Nat)) := by
    simp only [unit]
    omega
  have hp : 1024 * 1024 ^ j = 1024 ^ (j + 1) := by rw [pow_succ]; ring
  rw [hp, Nat.zero_add] at hloop
  rw [formatBytes, if_neg hnot]
  simp only [Int.toNat_ofNat, unit, hloop, Nat.add_sub_cancel]
  cases units.get? j with
  | none => rfl
  | some u => simp [Sprintf, fmtF2]

theorem formatBytes_small (n : Nat) (h : n < 1024) :
    formatBytes n = some (itoa n ++ " B".toList) := by
  have hlt : (n : Int) < (unit : Nat) := by
    simp only [unit]
    omega
  have hnn : ¬ ((n : Int) < 0) := by omega
  rw [formatBytes, if_pos hlt]
  simp [Sprintf, fmtD, hnn]

/-! ## Theorems: C2, C3 -/

/-- C2 (failing input): for the byte count `2^60` (one exbibyte), a
non-negative 64-bit value, the loop of `formatBytes` ends with `exp = 5`, the
table `units` has five entries (indices 0 to 4), and the index expression
`units[exp]` is out of range: `formatBytes` fails instead of returning a
string.  It fails so for every 64-bit byte count from `2^60` on, while below
`2^60` it returns a string that ends in one of the units. -/
theorem formatBytes_exbibyte :
    ((0 : Int) ≤ 1152921504606846976 ∧ (1152921504606846976 : Int) ≤ 2 ^ 63 - 1 ∧
      formatBytesLoop (1152921504606846976 / unit) (1152921504606846976 / unit) unit 0
        = (1152921504606846976, 5) ∧
      units.length = 5 ∧ formatBytes 1152921504606846976 = none) ∧
    (∀ n : Nat, 2 ^ 60 ≤ n → n ≤ 2 ^ 63 - 1 → formatBytes n = none) ∧
    (∀ n : Nat, n < 2 ^ 60 →
      ∃ s u, formatBytes n = some s ∧ u ∈ "B".toList :: units ∧ u <:+ s) := by
  refine ⟨by decide, ?_, ?_⟩
  · intro n hlo hhi
    have h := formatBytes_scaled n 6 (by decide) (by norm_num at hlo ⊢; exact hlo)
      (by norm_num at hhi ⊢; omega)
    rw [h]
    rfl
  · intro n hn
    by_cases h0 : n < 1024
    · refine ⟨_, "B".toList, formatBytes_small n h0, List.mem_cons_self _ _, ?_⟩
      exact ⟨itoa n ++ [' '], by simp⟩
    · have hk : ∃ k, 1 ≤ k ∧ k ≤ 5 ∧ 1024 ^ k ≤ n ∧ n < 1024 ^ (k + 1) := by
        norm_num at hn
        by_cases h1 : n < 1024 ^ 2
        · exact ⟨1, by decide, by decide, by norm_num; omega, h1⟩
        · by_cases h2 : n < 1024 ^ 3
          · exact ⟨2, by decide, by decide, by omega, h2⟩
          · by_cases h3 : n < 1024 ^ 4
            · exact ⟨3, by decide, by decide, by omega, h3⟩
            · by_cases h4 : n < 1024 ^ 5
              · exact ⟨4, by decide, by decide, by omega, h4⟩
              · exact ⟨5, by decide, by decide, by omega, by norm_num; exact hn⟩
      obtain ⟨k, hk1, hk5, hlo, hhi⟩ := hk
      have hsc := formatBytes_scaled n k hk1 hlo hhi
      have hlt : k - 1 < units.length := by
        have : units.length = 5 := rfl
        omega
      have hu : units.get? (k - 1) = some (units.get ⟨k - 1, hlt⟩) := List.get?_eq_get hlt
      rw [hu] at hsc
      refine ⟨_, units.get ⟨k - 1, hlt⟩, hsc, List.mem_cons_of_mem _ (List.get_mem _ _ _), ?_⟩
      exact ⟨twoDecimals (roundHalfEven (100 * float64OfInt n) (1024 ^ k)) ++ [' '], by simp⟩

/-- C3 (as stated, refuted): for `n = 9147936743096321`, which lies between
`1024^5` and `1024^6`, the only number of hundredths within half a hundredth
of `n / 1024^5` is 813 (the quotient exceeds 8.125), so `n / 1024^5` rounded to
two decimals is `8.13`; `formatBytes` returns `8.12 PB`, because the
conversion `float64(n)` already rounds `n` down to `65 * 2^47`. -/
theorem formatBytes_double_rounding :
    1024 ^ 5 ≤ 9147936743096321 ∧ 9147936743096321 < 1024 ^ 6 ∧
      (∀ h, IsNearestHundredth 9147936743096321 (1024 ^ 5) h → h = 813) ∧
      twoDecimals 813 = "8.13".toList ∧
      float64OfInt 9147936743096321 = 65 * 2 ^ 47 ∧
      formatBytes 9147936743096321 = some "8.12 PB".toList := by
  refine ⟨by decide, by decide, ?_, by decide, by decide, by decide⟩
  intro h hh
  simp only [IsNearestHundredth] at hh
  norm_num at hh
  omega

/-- C3 (amended): `formatBytes` uses base 1024 with two decimals.  For
`0 ≤ n < 1024` the result is the decimal of `n` followed by ` B`.  For
`1024^k ≤ n < 1024^(k+1)` with `1 ≤ k ≤ 5` the result is `float64(n) / 1024^k`
rounded to two decimals, ties to even, followed by a space and the `k`-th unit
of KB, MB, GB, TB, PB; the conversion `float64(n)` is `n` itself for
`n < 2^53`.  In particular `formatBytes(0) = "0 B"`,
`formatBytes(1024) = "1.00 KB"`, `formatBytes(1536) = "1.50 KB"` and
`formatBytes(1073741824) = "1.00 GB"`. -/
theorem formatBytes_base1024 :
    (∀ n : Nat, n < 1024 → formatBytes n = some (itoa n ++ " B".toList)) ∧
    (∀ n k : Nat, 1 ≤ k → k ≤ 5 → 1024 ^ k ≤ n → n < 1024 ^ (k + 1) →
      ∃ h u, units.get? (k - 1) = some u ∧
        IsRoundedHundredth (float64OfInt n) (1024 ^ k) h ∧
        formatBytes n = some (twoDecimals h ++ ' ' :: u)) ∧
    (∀ n : Nat, n < 2 ^ 53 → float64OfInt n = n) ∧
    formatBytes 0 = some "0 B".toList ∧
    formatBytes 1024 = some "1.00 KB".toList ∧
    formatBytes 1536 = some "1.50 KB".toList ∧
    formatBytes 1073741824 = some "1.00 GB".toList := by
  refine ⟨formatBytes_small, ?_, float64OfInt_exact, by decide, by decide, by decide,
    by decide⟩
  intro n k hk1 hk5 hlo hhi
  have hsc := formatBytes_scaled n k hk1 hlo hhi
  have hu : ∃ u, units.get? (k - 1) = some u := by
    have hlt : k - 1 < units.length := by
      have : units.length = 5 := rfl
      omega
    exact ⟨units.get ⟨k - 1, hlt⟩, List.get?_eq_get hlt⟩
  obtain ⟨u, hu⟩ := hu
  refine ⟨roundHalfEven (100 * float64OfInt n) (1024 ^ k), u, hu, ?_, ?_⟩
  · exact fmtF2_rounded _ _ (Nat.pos_pow_of_pos k (by decide))
  · rw [hsc, hu]
    rfl

/-- Witness for C3: the amended statement applied to `n = 1536`, `k = 1`. -/
theorem formatBytes_base1024_witness :
    ∃ h u, units.get? (1 - 1) = some u ∧
      IsRoundedHundredth (float64OfInt 1536) (1024 ^ 1) h ∧
      formatBytes (1536 : Nat) = some (twoDecimals h ++ ' ' :: u) :=
  formatBytes_base1024.2.1 1536 1 (by decide) (by decide) (by decide) (by decide)

/-! ## Theorems: C4, C5 -/

/-- C4 (as stated, refuted): the content with the two lines
`addons_path = /x` and `addons_path = /a,/b` contains the line
`addons_path = /a,/b`; rewriting it with `/c,/d` replaces the first line only,
and the content produced has two lines whose trimmed text starts with
`addons_path`. -/
theorem updateOdooConf_two_addons_lines :
    "addons_path = /a,/b".toList ∈ Split "addons_path = /x\naddons_path = /a,/b".toList '\n' ∧
    (updateOdooConf (fileOS "addons_path = /x\naddons_path = /a,/b".toList) "odoo.conf".toList
        "/c,/d".toList).written
      = some ("odoo.conf".toList, "addons_path = /c,/d\naddons_path = /a,/b".toList) ∧
    (Split "addons_path = /c,/d\naddons_path = /a,/b".toList '\n').filter IsAddonsPathLine
      = ["addons_path = /c,/d".toList, "addons_path = /a,/b".toList] := by
  decide

/-- C4 (amended): for every server config file content that contains a line
`addons_path = /a,/b`, the content produced by `updateOdooConf` with new paths
`/c,/d` has, as its lines whose trimmed text starts with `addons_path`, the line
`addons_path = /c,/d` followed by those of the original content after its first
one; so when `addons_path = /a,/b` is the only such line of the original, the
content produced has exactly one such line, equal to `addons_path = /c,/d`. -/
theorem updateOdooConf_replaces_first (os : OS) (path content : GoString)
    (hread : os.ReadFile path = Except.ok content)
    (hline : "addons_path = /a,/b".toList ∈ Split content '\n') :
    ∃ out, (updateOdooConf os path "/c,/d".toList).written = some (path, out) ∧
      (Split out '\n').filter IsAddonsPathLine =
        "addons_path = /c,/d".toList :: ((Split content '\n').filter IsAddonsPathLine).tail ∧
      ((Split content '\n').filter IsAddonsPathLine = ["addons_path = /a,/b".toList] →
        (Split out '\n').filter IsAddonsPathLine = ["addons_path = /c,/d".toList]) := by
  have hm : IsAddonsPathLine "addons_path = /a,/b".toList = true := by decide
  have hnew : IsAddonsPathLine (addonsPathLine "/c,/d".toList) = true := by decide
  have hnl : '\n' ∉ addonsPathLine "/c,/d".toList := by decide
  obtain ⟨pre, l, post, hL, hpre, hl⟩ := exists_first_addons_line _ ⟨_, hline, hm⟩
  have hlines := updateOdooConfLines_first "/c,/d".toList pre l post hpre hl
  rw [← hL] at hlines
  have hsplit : Split (Join (pre ++ addonsPathLine "/c,/d".toList :: post) ['\n']) '\n'
      = pre ++ addonsPathLine "/c,/d".toList :: post := by
    apply Split_Join
    · simp
    · intro x hx
      rcases List.mem_append.1 hx with h1 | h1
      · exact not_mem_of_mem_Split '\n' content x (by rw [hL]; exact List.mem_append_left _ h1)
      · rcases List.mem_cons.1 h1 with h2 | h2
        · rw [h2]
          exact hnl
        · exact not_mem_of_mem_Split '\n' content x
            (by rw [hL]; exact List.mem_append_right _ (List.mem_cons_of_mem _ h2))
  have hfpre : pre.filter IsAddonsPathLine = [] := by
    rw [List.filter_eq_nil_iff]
    intro x hx
    simp [hpre x hx]
  have hout : (pre ++ addonsPathLine "/c,/d".toList :: post).filter IsAddonsPathLine
      = addonsPathLine "/c,/d".toList :: post.filter IsAddonsPathLine := by
    rw [List.filter_append, hfpre, List.filter_cons_of_pos hnew]
    rfl
  have hin : (Split content '\n').filter IsAddonsPathLine
      = l :: post.filter IsAddonsPathLine := by
    rw [hL, List.filter_append, hfpre, List.filter_cons_of_pos hl]
    rfl
  refine ⟨Join (pre ++ addonsPathLine "/c,/d".toList :: post) ['\n'], ?_, ?_, ?_⟩
  · simp only [updateOdooConf, hread, hlines]
    rfl
  · rw [hsplit, hout, hin]
    rfl
  · intro h1
    rw [hin] at h1
    rw [hsplit, hout]
    have : post.filter IsAddonsPathLine = [] := (List.cons.inj h1).2
    rw [this]
    rfl

/-- Witness for C4: the amended statement applied to the content made of the
lines `[options]` and `addons_path = /a,/b`. -/
theorem updateOdooConf_replaces_first_witness :
    ∃ out, (updateOdooConf (fileOS "[options]\naddons_path = /a,/b".toList) "odoo.conf".toList
        "/c,/d".toList).written = some ("odoo.conf".toList, out) ∧
      (Split out '\n').filter IsAddonsPathLine =
        "addons_path = /c,/d".toList ::
          ((Split "[options]\naddons_path = /a,/b".toList '\n').filter IsAddonsPathLine).tail ∧
      ((Split "[options]\naddons_path = /a,/b".toList '\n').filter IsAddonsPathLine
          = ["addons_path = /a,/b".toList] →
        (Split out '\n').filter IsAddonsPathLine = ["addons_path = /c,/d".toList]) :=
  updateOdooConf_replaces_first (fileOS "[options]\naddons_path = /a,/b".toList)
    "odoo.conf".toList "[options]\naddons_path = /a,/b".toList rfl (by decide)

/-- C5: when `updateOdooConf` reads the content, whose lines (split on newline)
are `L`, it writes the lines `updateOdooConfLines L p` joined by newlines, and
these are: `L` with only its first line whose trimmed text has the prefix
`addons_path` replaced by `addons_path = p` (same count, every other line
verbatim at its place) when such a line exists, and `L` followed by the single
line `addons_path = p` when no line matches.  When `p` holds no newline, the
lines of the written content are exactly these lines. -/
theorem updateOdooConf_frame (os : OS) (path content p : GoString)
    (hread : os.ReadFile path = Except.ok content) :
    (updateOdooConf os path p).written
      = some (path, Join (updateOdooConfLines (Split content '\n') p) "\n".toList) ∧
    ((∃ l ∈ Split content '\n', IsAddonsPathLine l = true) →
      ∃ i, ∃ hi : i < (Split content '\n').length,
        IsAddonsPathLine ((Split content '\n').get ⟨i, hi⟩) = true ∧
        (∀ j, ∀ hj : j < (Split content '\n').length, j < i →
          IsAddonsPathLine ((Split content '\n').get ⟨j, hj⟩) = false) ∧
        updateOdooConfLines (Split content '\n') p
          = (Split content '\n').set i (addonsPathLine p) ∧
        (updateOdooConfLines (Split content '\n') p).length = (Split content '\n').length ∧
        (updateOdooConfLines (Split content '\n') p).get? i = some (addonsPathLine p) ∧
        ∀ j, j ≠ i →
          (updateOdooConfLines (Split content '\n') p).get? j = (Split content '\n').get? j) ∧
    ((∀ l ∈ Split content '\n', IsAddonsPathLine l = false) →
      updateOdooConfLines (Split content '\n') p = Split content '\n' ++ [addonsPathLine p]) ∧
    ('\n' ∉ p →
      Split (Join (updateOdooConfLines (Split content '\n') p) "\n".toList) '\n'
        = updateOdooConfLines (Split content '\n') p) := by
  refine ⟨?_, ?_, ?_, ?_⟩
  · simp only [updateOdooConf, hread]
  · exact updateOdooConfLines_frame p _
  · intro hno
    exact updateOdooConfLines_none p _ hno
  · intro hp
    have hnew : '\n' ∉ addonsPathLine p := by
      intro hmem
      rcases List.mem_append.1 hmem with h1 | h1
      · revert h1
        decide
      · exact hp h1
    have hmemL : ∀ x ∈ Split content '\n', '\n' ∉ x := not_mem_of_mem_Split '\n' content
    apply Split_Join
    · by_cases hex : ∃ l ∈ Split content '\n', IsAddonsPathLine l = true
      · obtain ⟨pre, l, post, hL, hpre, hl⟩ := exists_first_addons_line _ hex
        have hlines := updateOdooConfLines_first p pre l post hpre hl
        rw [← hL] at hlines
        rw [hlines]
        simp
      · have hno : ∀ l ∈ Split content '\n', IsAddonsPathLine l = false := by
          intro l hl
          by_contra hc
          exact hex ⟨l, hl, by simpa using hc⟩
        rw [updateOdooConfLines_none p _ hno]
        simp
    · intro x hx
      by_cases hex : ∃ l ∈ Split content '\n', IsAddonsPathLine l = true
      · obtain ⟨pre, l, post, hL, hpre, hl⟩ := exists_first_addons_line _ hex
        have hlines := updateOdooConfLines_first p pre l post hpre hl
        rw [← hL] at hlines
        rw [hlines] at hx
        rcases List.mem_append.1 hx with h1 | h1
        · exact hmemL x (by rw [hL]; exact List.mem_append_left _ h1)
        · rcases List.mem_cons.1 h1 with h2 | h2
          · rw [h2]
            exact hnew
          · exact hmemL x (by rw [hL]; exact List.mem_append_right _ (List.mem_cons_of_mem _ h2))
      · have hno : ∀ l ∈ Split content '\n', IsAddonsPathLine l = false := by
          intro l hl
          by_contra hc
          exact hex ⟨l, hl, by simpa using hc⟩
        rw [updateOdooConfLines_none p _ hno] at hx
        rcases List.mem_append.1 hx with h1 | h1
        · exact hmemL x h1
        · rw [List.mem_singleton.1 h1]
          exact hnew

/-- Witness for C5: the statement applied to the content made of the lines
`[options]` and `addons_path = /a,/b` and the new paths `/c,/d`. -/
theorem updateOdooConf_frame_witness :
    (updateOdooConf (fileOS "[options]\naddons_path = /a,/b".toList) "odoo.conf".toList
        "/c,/d".toList).written
      = some ("odoo.conf".toList, "[options]\naddons_path = /c,/d".toList) :=
  (updateOdooConf_frame (fileOS "[options]\naddons_path = /a,/b".toList) "odoo.conf".toList
    "[options]\naddons_path = /a,/b".toList "/c,/d".toList rfl).1.trans (by decide)

/-! ## Theorems: C6, C7 -/

/-- C6: when `updatePyrightConfig` reads the file and parses it to a map, the
slice it stores under `extraPaths` is the sequence of the comma-separated
pieces of the addons string, each trimmed of surrounding white space, without
the pieces that are empty after trimming, in their input order; no stored entry
is empty or starts or ends with white space; every other key keeps its value,
and the map so updated is what is marshalled and written. -/
theorem updatePyrightConfig_extraPaths {α : Type} (os : OS) (json : JSONPkg α)
    (path s content : GoString) (m : GoMap α)
    (hread : os.ReadFile path = Except.ok content)
    (hparse : json.Unmarshal content = Except.ok (some m)) :
    cleanPaths s = trimmedPieces s ∧
    (∀ p ∈ trimmedPieces s, p ≠ [] ∧ (∀ c, p.head? = some c → IsSpace c = false) ∧
      ∀ c, p.getLast? = some c → IsSpace c = false) ∧
    ∃ config : GoMap α,
      config "extraPaths".toList = some (GoValue.stringSlice (trimmedPieces s)) ∧
      (∀ k, k ≠ "extraPaths".toList → config k = m k) ∧
      updatePyrightConfig os json path s =
        match json.MarshalIndent config [] "    ".toList with
        | Except.error err =>
          { written := none
            result :=
              some (some (Errorf "failed to marshal pyrightconfig.json: %w".toList
                [FmtArg.err err])) }
        | Except.ok newContent =>
          { written := some (path, newContent)
            result := some (os.WriteFile path newContent) } := by
  have hclean : cleanPaths s = trimmedPieces s := by
    rw [cleanPaths, cleanPathsLoop_eq, List.nil_append]
    rfl
  refine ⟨hclean, ?_, ?_⟩
  · intro p hp
    simp only [trimmedPieces, List.mem_filter, List.mem_map, decide_eq_true_eq] at hp
    obtain ⟨⟨q, _, hq⟩, hne⟩ := hp
    subst hq
    exact ⟨hne, TrimSpace_head_not_space q, TrimSpace_last_not_space q⟩
  · refine ⟨m.assign "extraPaths".toList (GoValue.stringSlice (trimmedPieces s)), ?_, ?_, ?_⟩
    · simp [GoMap.assign]
    · intro k hk
      simp only [GoMap.assign, if_neg hk]
    · simp only [updatePyrightConfig, hread, hparse, hclean]

/-- Witness for C6: the statement applied to an addons string with blanks and
an empty piece. -/
theorem updatePyrightConfig_extraPaths_witness :
    cleanPaths " /a , ,/b".toList = ["/a".toList, "/b".toList] :=
  (updatePyrightConfig_extraPaths (fileOS []) emptyJSON "pyrightconfig.json".toList
    " /a , ,/b".toList [] (fun _ => none) rfl rfl).1.trans (by decide)

/-- C7: when creating the directory `d` succeeds, `GetBackupFilePath(d, n, f, false)`
is `d/n.f` and `GetBackupFilePath(d, n, f, true)` is `d/n_no_fs.f`, for instance
`/tmp/b/mydb.zip` and `/tmp/b/mydb_no_fs.zip`; when creating the directory fails the
result is the empty string. -/
theorem GetBackupFilePath_spec (os : OS) (d n f : GoString) :
    (os.MkdirAll d = none →
      GetBackupFilePath os d n f false = d ++ "/".toList ++ n ++ ".".toList ++ f ∧
      GetBackupFilePath os d n f true = d ++ "/".toList ++ n ++ "_no_fs.".toList ++ f) ∧
    (os.MkdirAll d ≠ none → ∀ b, GetBackupFilePath os d n f b = []) ∧
    (os.MkdirAll "/tmp/b".toList = none →
      GetBackupFilePath os "/tmp/b".toList "mydb".toList "zip".toList false
        = "/tmp/b/mydb.zip".toList ∧
      GetBackupFilePath os "/tmp/b".toList "mydb".toList "zip".toList true
        = "/tmp/b/mydb_no_fs.zip".toList) := by
  refine ⟨?_, ?_, ?_⟩
  · intro h
    simp [GetBackupFilePath, h, Sprintf]
  · intro h b
    cases hm : os.MkdirAll d with
    | none => exact absurd hm h
    | some e => simp [GetBackupFilePath, hm]
  · intro h
    simp only [GetBackupFilePath, h]
    exact ⟨rfl, rfl⟩

/-- Witness for C7: the statement applied to an operating system whose
directory creation succeeds. -/
theorem GetBackupFilePath_spec_witness :
    GetBackupFilePath (fileOS []) "/tmp/b".toList "mydb".toList "zip".toList false
        = "/tmp/b/mydb.zip".toList ∧
    GetBackupFilePath (fileOS []) "/tmp/b".toList "mydb".toList "zip".toList true
        = "/tmp/b/mydb_no_fs.zip".toList :=
  (GetBackupFilePath_spec (fileOS []) [] [] []).2.2 rfl

/-! ## Theorems: C8, C9, C10 -/

/-- C8 (as stated, refuted): the name `my-db` fails the identifier rules, yet
`DropDatabase`, on a server where every call succeeds, opens a connection,
issues the terminating statement and the statement `DROP DATABASE IF EXISTS`
for it, and returns nil. -/
theorem DropDatabase_unvalidated :
    (∀ u : Char → Char, IsValidDBName u "my-db".toList = false) ∧
    (DropDatabase okDriver [] "my-db".toList (some DefaultPGConfig)).2 = none ∧
    Event.sqlOpen
        "host=localhost port=5432 user=postgres password= dbname=postgres sslmode=disable".toList
      ∈ (DropDatabase okDriver [] "my-db".toList (some DefaultPGConfig)).1 ∧
    stmtsOf (DropDatabase okDriver [] "my-db".toList (some DefaultPGConfig)).1
      = [terminateStmt "my-db".toList, dropStmt "my-db".toList] ∧
    (dropStmt "my-db".toList).query
      = "DROP DATABASE IF EXISTS ".toList ++ [dquote] ++ "my-db".toList ++ [dquote] := by
  refine ⟨fun u => rfl, by decide, by decide, by decide, by decide⟩

/-- C8 (amended): each of `CreateDatabase`, `CreateDatabaseFromTemplate` and
`RenameDatabase` validates its destination database name with `IsValidDBName`:
for every name that fails the rules the operation returns an invalid-name error
and leaves the trace as it is, so it neither opens a connection nor issues any
SQL statement.  `DropDatabase` makes no such validation: given a configuration
it opens a connection for every name. -/
theorem invalid_destination_name_rejected (u : Char → Char) (d : Driver) (tr : List Event)
    (cfg : Option PGConfig) (name other : GoString) (h : IsValidDBName u name = false) :
    CreateDatabase u d tr name cfg
      = (tr, some (GoError.errorf ("invalid database name: ".toList ++ name))) ∧
    CreateDatabaseFromTemplate u d tr name other cfg
      = (tr, some (GoError.errorf ("invalid database name: ".toList ++ name))) ∧
    RenameDatabase u d tr other name cfg
      = (tr, some (GoError.errorf ("invalid new database name: ".toList ++ name))) ∧
    ∀ c : PGConfig, ∃ evs, (DropDatabase d tr name (some c)).1
      = tr ++ Event.sqlOpen (connString c "postgres".toList) :: evs := by
  refine ⟨?_, ?_, ?_, DropDatabase_opens d tr name⟩
  · simp [CreateDatabase, h, Errorf, firstErr, Sprintf]
  · simp [CreateDatabaseFromTemplate, h, Errorf, firstErr, Sprintf]
  · simp [RenameDatabase, h, Errorf, firstErr, Sprintf]

/-- Witness for C8: the amended statement applied to the name `my-db`. -/
theorem invalid_destination_name_rejected_witness :
    CreateDatabase id okDriver [] "my-db".toList (some DefaultPGConfig)
      = ([], some (GoError.errorf "invalid database name: my-db".toList)) :=
  (invalid_destination_name_rejected id okDriver [] (some DefaultPGConfig) "my-db".toList []
    rfl).1

/-- C9: in every run of `DropDatabase(name)`, `RenameDatabase(old, new)` and
`CopyDatabase(source, target)` the statements issued are either none, or the
query terminating the backend connections of the affected database (`name`,
`old`, `source`) followed by the DDL statement (`DROP DATABASE`,
`ALTER DATABASE ... RENAME TO`, `CREATE DATABASE ... WITH TEMPLATE`); they are
the latter whenever the connection succeeds (for a rename or a copy, of a valid
new name).  So the termination is attempted before the DDL statement, and no DDL
statement is issued without it. -/
theorem terminate_before_ddl (u : Char → Char) (d : Driver) (tr : List Event)
    (cfg : Option PGConfig) (name oldName newName source target : GoString) :
    (∃ evs, (DropDatabase d tr name cfg).1 = tr ++ evs ∧
      (stmtsOf evs = [] ∨ stmtsOf evs = [terminateStmt name, dropStmt name]) ∧
      ((Connect d tr "postgres".toList cfg).2 = Except.ok () →
        stmtsOf evs = [terminateStmt name, dropStmt name])) ∧
    (∃ evs, (RenameDatabase u d tr oldName newName cfg).1 = tr ++ evs ∧
      (stmtsOf evs = [] ∨ stmtsOf evs = [terminateStmt oldName, renameStmt oldName newName]) ∧
      (IsValidDBName u newName = true →
        (Connect d tr "postgres".toList cfg).2 = Except.ok () →
        stmtsOf evs = [terminateStmt oldName, renameStmt oldName newName])) ∧
    (∃ evs, (CopyDatabase u d tr source target cfg).1 = tr ++ evs ∧
      (stmtsOf evs = [] ∨ stmtsOf evs = [terminateStmt source, templateStmt target source]) ∧
      (IsValidDBName u target = true →
        (Connect d tr "postgres".toList cfg).2 = Except.ok () →
        stmtsOf evs = [terminateStmt source, templateStmt target source])) :=
  ⟨DropDatabase_stmts d tr name cfg, RenameDatabase_stmts u d tr oldName newName cfg,
    CreateDatabaseFromTemplate_stmts u d tr target source cfg⟩

/-- Witness for C9: on a server where every call succeeds, the copy of `olddb`
to the valid name `newdb` has a successful connection, and issues the
terminating query for `olddb` and then the DDL statement. -/
theorem terminate_before_ddl_witness :
    stmtsOf (CopyDatabase id okDriver [] "olddb".toList "newdb".toList
        (some DefaultPGConfig)).1
      = [terminateStmt "olddb".toList, templateStmt "newdb".toList "olddb".toList] := by
  obtain ⟨evs, h1, _, h3⟩ :=
    (terminate_before_ddl id okDriver [] (some DefaultPGConfig) "olddb".toList "olddb".toList
      "newdb".toList "olddb".toList "newdb".toList).2.2
  rw [h1, List.nil_append]
  exact h3 (by decide) rfl

/-- C10: when `DropDatabase` connects successfully and the query terminating
the connections fails with `e`, it logs a warning, still issues the statement
`DROP DATABASE IF EXISTS`, and its result is determined by that statement only:
nil when the drop succeeds, the wrapped error of the drop when it fails. -/
theorem DropDatabase_proceeds (d : Driver) (tr tr1 : List Event) (name : GoString)
    (cfg : Option PGConfig) (e : GoError)
    (hC : Connect d tr "postgres".toList cfg = (tr1, Except.ok ()))
    (hT : d.Exec tr1 (terminateStmt name) = some e) :
    (∃ evs, (DropDatabase d tr name cfg).1
      = tr1 ++ [Event.exec (terminateStmt name),
          Event.logWarn "Failed to terminate connections, continuing anyway".toList e,
          Event.exec (dropStmt name)] ++ evs) ∧
    (d.Exec (tr1 ++ [Event.exec (terminateStmt name),
        Event.logWarn "Failed to terminate connections, continuing anyway".toList e])
        (dropStmt name) = none →
      (DropDatabase d tr name cfg).2 = none) ∧
    (∀ err, d.Exec (tr1 ++ [Event.exec (terminateStmt name),
        Event.logWarn "Failed to terminate connections, continuing anyway".toList e])
        (dropStmt name) = some err →
      (DropDatabase d tr name cfg).2
        = some (GoError.wrap ("failed to drop database: ".toList ++ err.Error) err)) := by
  have hA : afterTerminate d tr1 name "Failed to terminate connections, continuing anyway".toList
      = tr1 ++ [Event.exec (terminateStmt name),
          Event.logWarn "Failed to terminate connections, continuing anyway".toList e] := by
    simp only [afterTerminate, hT]
  rw [DropDatabase_connect_ok d tr tr1 name cfg hC, hA]
  refine ⟨?_, ?_, ?_⟩
  · cases d.Exec (tr1 ++ [Event.exec (terminateStmt name),
        Event.logWarn "Failed to terminate connections, continuing anyway".toList e])
        (dropStmt name) with
    | none => exact ⟨_, by simp only [List.append_assoc, List.cons_append, List.nil_append]; rfl⟩
    | some err =>
      exact ⟨_, by simp only [List.append_assoc, List.cons_append, List.nil_append]; rfl⟩
  · intro h
    rw [h]
  · intro err h
    rw [h]

/-- Witness for C10: a server on which only the terminating query fails; the
drop of `mydb` still succeeds. -/
theorem DropDatabase_proceeds_witness :
    (DropDatabase noTerminateDriver [] "mydb".toList (some DefaultPGConfig)).2 = none :=
  (DropDatabase_proceeds noTerminateDriver []
    (Connect noTerminateDriver [] "postgres".toList (some DefaultPGConfig)).1 "mydb".toList
    (some DefaultPGConfig) (GoError.external "permission denied".toList) rfl rfl).2.1 rfl

/-! ## Lemmas and theorem: C20 -/

/-- Trimming on the right keeps a prefix that ends in a character which is not
dropped. -/
theorem prefix_rdropWhile_append (q : Char → Bool) (A : List Char) (hA : A ≠ [])
    (hlast : q (A.getLast hA) = false) :
    ∀ B : List Char, A <+: List.rdropWhile q (A ++ B) := by
  intro B
  induction B using List.reverseRecOn with
  | nil =>
    rw [List.append_nil]
    have : List.rdropWhile q A = A := by
      rw [List.rdropWhile_eq_self_iff]
      intro h
      simp [hlast]
    rw [this]
  | append_singleton B x ih =>
    rw [← List.append_assoc]
    by_cases hx : q x = true
    · rw [List.rdropWhile_concat_pos _ _ _ hx]
      exact ih
    · rw [List.rdropWhile_concat_neg _ _ _ hx]
      exact ⟨B ++ [x], by simp⟩

/-- The line `addons_path = p` is, for every `p`, a line whose trimmed text
starts with `addons_path`. -/
theorem IsAddonsPathLine_addonsPathLine (p : GoString) :
    IsAddonsPathLine (addonsPathLine p) = true := by
  have hsplit : addonsPathLine p = "addons_path =".toList ++ (' ' :: p) := by
    simp [addonsPathLine]
  have hdrop : (addonsPathLine p).dropWhile IsSpace = addonsPathLine p := by
    rw [hsplit]
    rfl
  have hlast : IsSpace ("addons_path =".toList.getLast (by decide)) = false := by decide
  have hpre := prefix_rdropWhile_append IsSpace "addons_path =".toList (by decide) hlast
    (' ' :: p)
  have hpre2 : "addons_path".toList <+: "addons_path =".toList := ⟨[' ', '='], by decide⟩
  have htrim : TrimSpace (addonsPathLine p)
      = List.rdropWhile IsSpace ("addons_path =".toList ++ (' ' :: p)) := by
    rw [TrimSpace, hdrop, hsplit]
  rw [IsAddonsPathLine, HasPrefix, htrim, List.isPrefixOf_iff_prefix]
  exact hpre2.trans hpre

/-- Updating the lines twice with the same paths gives the lines of one
update. -/
theorem updateOdooConfLines_idem (L : List GoString) (p : GoString) :
    updateOdooConfLines (updateOdooConfLines L p) p = updateOdooConfLines L p := by
  have hnew := IsAddonsPathLine_addonsPathLine p
  by_cases hex : ∃ l ∈ L, IsAddonsPathLine l = true
  · obtain ⟨pre, l, post, hL, hpre, _⟩ := exists_first_addons_line L hex
    subst hL
    rw [updateOdooConfLines_first p pre l post hpre (by assumption)]
    exact updateOdooConfLines_first p pre (addonsPathLine p) post hpre hnew
  · have hno : ∀ l ∈ L, IsAddonsPathLine l = false := by
      intro l hl
      by_contra hc
      exact hex ⟨l, hl, by simpa using hc⟩
    rw [updateOdooConfLines_none p L hno]
    have h := updateOdooConfLines_first p L (addonsPathLine p) [] hno hnew
    exact h

/-- C20: `updateOdooConf` is idempotent on the file content: for every content
`c` and every new path string `p` that contains no newline, when a run on `c`
writes `c1`, a run with the same `p` on a file that reads as `c1` writes `c1`
again. -/
theorem updateOdooConf_idempotent (os1 os2 : OS) (path c c1 p : GoString)
    (hp : '\n' ∉ p) (hread1 : os1.ReadFile path = Except.ok c)
    (hw : (updateOdooConf os1 path p).written = some (path, c1))
    (hread2 : os2.ReadFile path = Except.ok c1) :
    (updateOdooConf os2 path p).written = some (path, c1) := by
  have hc1 : c1 = Join (updateOdooConfLines (Split c '\n') p) "\n".toList := by
    simp only [updateOdooConf, hread1] at hw
    have := (Prod.mk.inj (Option.some.inj hw)).2
    exact this.symm
  have hnew : '\n' ∉ addonsPathLine p := by
    intro hmem
    rcases List.mem_append.1 hmem with h1 | h1
    · revert h1
      decide
    · exact hp h1
  have hmemL : ∀ x ∈ Split c '\n', '\n' ∉ x := not_mem_of_mem_Split '\n' c
  have hsplit : Split c1 '\n' = updateOdooConfLines (Split c '\n') p := by
    rw [hc1]
    apply Split_Join
    · by_cases hex : ∃ l ∈ Split c '\n', IsAddonsPathLine l = true
      · obtain ⟨pre, l, post, hL, hpre, hl⟩ := exists_first_addons_line _ hex
        have hlines := updateOdooConfLines_first p pre l post hpre hl
        rw [← hL] at hlines
        rw [hlines]
        simp
      · have hno : ∀ l ∈ Split c '\n', IsAddonsPathLine l = false := by
          intro l hl
          by_contra hcon
          exact hex ⟨l, hl, by simpa using hcon⟩
        rw [updateOdooConfLines_none p _ hno]
        simp
    · intro x hx
      by_cases hex : ∃ l ∈ Split c '\n', IsAddonsPathLine l = true
      · obtain ⟨pre, l, post, hL, hpre, hl⟩ := exists_first_addons_line _ hex
        have hlines := updateOdooConfLines_first p pre l post hpre hl
        rw [← hL] at hlines
        rw [hlines] at hx
        rcases List.mem_append.1 hx with h1 | h1
        · exact hmemL x (by rw [hL]; exact List.mem_append_left _ h1)
        · rcases List.mem_cons.1 h1 with h2 | h2
          · rw [h2]
            exact hnew
          · exact hmemL x (by rw [hL]; exact List.mem_append_right _ (List.mem_cons_of_mem _ h2))
      · have hno : ∀ l ∈ Split c '\n', IsAddonsPathLine l = false := by
          intro l hl
          by_contra hcon
          exact hex ⟨l, hl, by simpa using hcon⟩
        rw [updateOdooConfLines_none p _ hno] at hx
        rcases List.mem_append.1 hx with h1 | h1
        · exact hmemL x h1
        · rw [List.mem_singleton.1 h1]
          exact hnew
  simp only [updateOdooConf, hread2, hsplit, updateOdooConfLines_idem]
  rw [hc1]

/-- Witness for C20: the content made of the lines `[options]` and
`addons_path = /a,/b`, rewritten twice with `/c,/d`. -/
theorem updateOdooConf_idempotent_witness :
    (updateOdooConf (fileOS "[options]\naddons_path = /c,/d".toList) "odoo.conf".toList
        "/c,/d".toList).written
      = some ("odoo.conf".toList, "[options]\naddons_path = /c,/d".toList) :=
  updateOdooConf_idempotent (fileOS "[options]\naddons_path = /a,/b".toList)
    (fileOS "[options]\naddons_path = /c,/d".toList) "odoo.conf".toList
    "[options]\naddons_path = /a,/b".toList "[options]\naddons_path = /c,/d".toList
    "/c,/d".toList (by decide) rfl (by decide) rfl

/-! ## Lemmas: lifecycle commands -/

theorem execCalls_append (a b : List CmdEvent) : execCalls (a ++ b) = execCalls a ++ execCalls b := by
  induction a with
  | nil => rfl
  | cons e t ih => cases e <;> simp [execCalls, ih]

theorem mkdirCalls_append (a b : List CmdEvent) :
    mkdirCalls (a ++ b) = mkdirCalls a ++ mkdirCalls b := by
  induction a with
  | nil => rfl
  | cons e t ih => cases e <;> simp [mkdirCalls, ih]

/-- The invocation of the external binary by `initdb`, with a database name. -/
theorem NewInitDBCmd_execCalls (env : CmdEnv) (f : InitDBFlags) (h : f.dbName ≠ []) :
    execCalls (NewInitDBCmd.Run env f).events
      = [(effectiveBin env f.odooBin,
          NewInitDBCmd.cmdArgs (effectiveConfig env f.configPath) f)] := by
  simp only [NewInitDBCmd.Run, if_neg h, effectiveBin, effectiveConfig]
  rcases env.CombinedOutput _ _ with ⟨out, _ | err⟩ <;> simp [execCalls]

theorem NewInitDBCmd_cmdArgs_eq (configPath : GoString) (f : InitDBFlags) :
    NewInitDBCmd.cmdArgs configPath f
      = ["db".toList, "-c".toList, configPath, "init".toList, f.dbName] ++ initdbFlagArgs f := by
  simp only [NewInitDBCmd.cmdArgs, initdbFlagArgs, optFlag, optValue, flagValue, flagChanged]
  rcases f.withDemo with _ | _ | _ <;> rcases f.force with _ | _ | _ <;>
    by_cases h1 : f.lang = [] <;> by_cases h2 : f.username = [] <;>
    by_cases h3 : f.password = [] <;> by_cases h4 : f.country = [] <;>
    simp [h1, h2, h3, h4]

theorem NewRestoredbCmd_cmdArgs_eq (configPath newName backupFile : GoString)
    (f : RestoredbFlags) :
    NewRestoredbCmd.cmdArgs configPath newName backupFile f
      = ["db".toList, "-c".toList, configPath, "load".toList, newName, backupFile]
        ++ forceNeutralizeArgs f.force f.neutralize := by
  simp only [NewRestoredbCmd.cmdArgs, forceNeutralizeArgs, optFlag, flagValue, flagChanged]
  rcases f.force with _ | _ | _ <;> rcases f.neutralize with _ | _ | _ <;> simp

theorem NewCopydbCmd_cmdArgs_eq (configPath : GoString) (f : CopydbFlags) :
    NewCopydbCmd.cmdArgs configPath f
      = ["db".toList, "-c".toList, configPath, "duplicate".toList, f.dbName, f.newName]
        ++ forceNeutralizeArgs f.force f.neutralize := by
  simp only [NewCopydbCmd.cmdArgs, forceNeutralizeArgs, optFlag, flagValue, flagChanged]
  rcases f.force with _ | _ | _ <;> rcases f.neutralize with _ | _ | _ <;> simp

theorem NewRenamedbCmd_cmdArgs_eq (configPath : GoString) (f : RenamedbFlags) :
    NewRenamedbCmd.cmdArgs configPath f
      = ["db".toList, "-c".toList, configPath, "rename".toList, f.dbName, f.newName]
        ++ optFlag f.force.isSome "--force".toList := by
  simp only [NewRenamedbCmd.cmdArgs, optFlag, flagChanged]
  rcases f.force with _ | _ <;> simp

theorem NewBackupdbCmd_cmdArgs_eq (configPath dumpFile : GoString) (f : BackupdbFlags) :
    NewBackupdbCmd.cmdArgs configPath dumpFile f
      = ["db".toList, "-c".toList, configPath, "dump".toList, f.dbName, dumpFile]
        ++ optFlag f.noFilestore "--no-filestore".toList := by
  simp only [NewBackupdbCmd.cmdArgs, optFlag]
  rcases f.noFilestore with _ | _ <;> simp

/-- The invocation of the external binary by `backupdb`, with a database name. -/
theorem NewBackupdbCmd_execCalls (env : CmdEnv) (f : BackupdbFlags) (h : f.dbName ≠ []) :
    execCalls (NewBackupdbCmd.Run env f).events
      = [(effectiveBin env f.odooBin,
          NewBackupdbCmd.cmdArgs (effectiveConfig env f.configPath)
            (GetBackupFilePath env.os
              (if f.dumpPath = [] then env.AppConfig.DB.DumpPath else f.dumpPath) f.dbName
              (if f.backupFormat = [] then env.AppConfig.DB.DumpFormat else f.backupFormat)
              f.noFilestore) f)] := by
  simp only [NewBackupdbCmd.Run, if_neg h, effectiveBin, effectiveConfig]
  rcases env.Run _ _ with _ | err <;> simp [execCalls]

/-- The invocation of the external binary by `restoredb`. -/
theorem NewRestoredbCmd_execCalls (env : CmdEnv) (f : RestoredbFlags) :
    execCalls (NewRestoredbCmd.Run env f).events
      = [(effectiveBin env f.odooBin,
          NewRestoredbCmd.cmdArgs (effectiveConfig env f.configPath)
            (if f.newName = [] then f.dbName else f.newName)
            (GetBackupFilePath env.os
              (if f.backupDir = [] then env.AppConfig.DB.DumpPath else f.backupDir) f.dbName
              env.AppConfig.DB.DumpFormat false) f)] := by
  simp only [NewRestoredbCmd.Run, effectiveBin, effectiveConfig]
  rcases env.Run _ _ with _ | err <;> simp [execCalls]

/-- The invocation of the external binary by `copydb`, with both names. -/
theorem NewCopydbCmd_execCalls (env : CmdEnv) (f : CopydbFlags) (h : f.dbName ≠ [])
    (h2 : f.newName ≠ []) :
    execCalls (NewCopydbCmd.Run env f).events
      = [(effectiveBin env f.odooBin,
          NewCopydbCmd.cmdArgs (effectiveConfig env f.configPath) f)] := by
  simp only [NewCopydbCmd.Run, if_neg h, if_neg h2, effectiveBin, effectiveConfig]
  rcases env.Run _ _ with _ | err <;> simp [execCalls]

/-- The invocation of the external binary by `renamedb`, with both names. -/
theorem NewRenamedbCmd_execCalls (env : CmdEnv) (f : RenamedbFlags) (h : f.dbName ≠ [])
    (h2 : f.newName ≠ []) :
    execCalls (NewRenamedbCmd.Run env f).events
      = [(effectiveBin env f.odooBin,
          NewRenamedbCmd.cmdArgs (effectiveConfig env f.configPath) f)] := by
  simp only [NewRenamedbCmd.Run, if_neg h, if_neg h2, effectiveBin, effectiveConfig]
  rcases env.Run _ _ with _ | err <;> simp [execCalls]

/-- The invocation of the external binary by `dropdb`, with a database name. -/
theorem NewDropdbCmd_execCalls (env : CmdEnv) (f : DropdbFlags) (h : f.dbName ≠ []) :
    execCalls (NewDropdbCmd.Run env f).events
      = [(effectiveBin env f.odooBin,
          NewDropdbCmd.cmdArgs (effectiveConfig env f.configPath) f)] := by
  simp only [NewDropdbCmd.Run, if_neg h, effectiveBin, effectiveConfig]
  rcases env.CombinedOutput _ _ with ⟨out, _ | err⟩ <;> simp [execCalls]

theorem mem_optFlag (b : Bool) (name x : GoString) : x ∈ optFlag b name ↔ b = true ∧ x = name := by
  cases b <;> simp [optFlag]

theorem mem_optValue (name v x : GoString) : x ∈ optValue name v ↔ v ≠ [] ∧ x = name ++ v := by
  by_cases h : v = [] <;> simp [optValue, h]

theorem force_mem_forceNeutralizeArgs (force neutralize : Option Bool) :
    ("--force".toList ∈ forceNeutralizeArgs force neutralize ↔ force = some true) ∧
    ("--neutralize".toList ∈ forceNeutralizeArgs force neutralize ↔ neutralize = some true) := by
  rcases force with _ | _ | _ <;> rcases neutralize with _ | _ | _ <;>
    simp [forceNeutralizeArgs, optFlag]

theorem flags_mem_initdbFlagArgs (f : InitDBFlags) :
    ("--with-demo".toList ∈ initdbFlagArgs f ↔ f.withDemo = some true) ∧
    ("--force".toList ∈ initdbFlagArgs f ↔ f.force = some true) := by
  rcases hw : f.withDemo with _ | _ | _ <;> rcases hf : f.force with _ | _ | _ <;>
    simp [initdbFlagArgs, mem_optFlag, mem_optValue, optFlag, hw, hf]

theorem IsLifecycleFlag_initdbFlagArgs (f : InitDBFlags) :
    ∀ x ∈ initdbFlagArgs f, IsLifecycleFlag x := by
  intro x hx
  simp only [initdbFlagArgs, List.mem_append, mem_optFlag, mem_optValue] at hx
  rcases hx with ((((⟨_, h⟩ | ⟨_, h⟩) | ⟨_, h⟩) | ⟨_, h⟩) | ⟨_, h⟩) | ⟨_, h⟩
  · exact Or.inl h
  · exact Or.inr (Or.inl h)
  · exact Or.inr (Or.inr (Or.inr (Or.inr (Or.inl ⟨_, h.symm⟩))))
  · exact Or.inr (Or.inr (Or.inr (Or.inr (Or.inr (Or.inl ⟨_, h.symm⟩)))))
  · exact Or.inr (Or.inr (Or.inr (Or.inr (Or.inr (Or.inr (Or.inl ⟨_, h.symm⟩))))))
  · exact Or.inr (Or.inr (Or.inr (Or.inr (Or.inr (Or.inr (Or.inr ⟨_, h.symm⟩))))))

theorem IsLifecycleFlag_forceNeutralizeArgs (force neutralize : Option Bool) :
    ∀ x ∈ forceNeutralizeArgs force neutralize, IsLifecycleFlag x := by
  intro x hx
  simp only [forceNeutralizeArgs, List.mem_append, mem_optFlag] at hx
  rcases hx with ⟨_, h⟩ | ⟨_, h⟩
  · exact Or.inr (Or.inl h)
  · exact Or.inr (Or.inr (Or.inl h))

theorem mem_argv_iff (x cfg verb : GoString) (positionals flags : List GoString)
    (h1 : x ≠ "db".toList) (h2 : x ≠ "-c".toList) (h3 : x ≠ verb) :
    x ∈ ["db".toList, "-c".toList, cfg, verb] ++ positionals ++ flags
      ↔ x ∈ cfg :: positionals ∨ x ∈ flags := by
  simp only [List.mem_append, List.mem_cons, List.not_mem_nil, or_false]
  constructor
  · rintro (((h | h | h | h) | h) | h)
    · exact absurd h h1
    · exact absurd h h2
    · exact Or.inl (Or.inl h)
    · exact absurd h h3
    · exact Or.inl (Or.inr h)
    · exact Or.inr h
  · rintro ((h | h) | h)
    · exact Or.inl (Or.inl (Or.inr (Or.inr (Or.inl h))))
    · exact Or.inl (Or.inr h)
    · exact Or.inr h

/-! ## Theorems: C12, C13, C14, C19 -/

/-- C12 (failing input): `initdb`, `backupdb`, `copydb`, `renamedb` and `dropdb`
end with the fatal message and exit code 1, without creating a directory or
invoking the external binary, when the database name is empty.  `restoredb` has
no such test: with no flag at all, under the default settings, it creates the
directory `/workspace/dbs`, invokes the external binary with the empty database
name and the backup file `/workspace/dbs/.zip`, and exits with code 0; it
invokes the external binary in every run. -/
theorem missing_database_name :
    (∀ (env : CmdEnv) (f : InitDBFlags), f.dbName = [] →
      (NewInitDBCmd.Run env f).exitCode = 1 ∧ execCalls (NewInitDBCmd.Run env f).events = [] ∧
        mkdirCalls (NewInitDBCmd.Run env f).events = []) ∧
    (∀ (env : CmdEnv) (f : BackupdbFlags), f.dbName = [] →
      (NewBackupdbCmd.Run env f).exitCode = 1 ∧
        execCalls (NewBackupdbCmd.Run env f).events = [] ∧
        mkdirCalls (NewBackupdbCmd.Run env f).events = []) ∧
    (∀ (env : CmdEnv) (f : CopydbFlags), f.dbName = [] →
      (NewCopydbCmd.Run env f).exitCode = 1 ∧ execCalls (NewCopydbCmd.Run env f).events = [] ∧
        mkdirCalls (NewCopydbCmd.Run env f).events = []) ∧
    (∀ (env : CmdEnv) (f : RenamedbFlags), f.dbName = [] →
      (NewRenamedbCmd.Run env f).exitCode = 1 ∧
        execCalls (NewRenamedbCmd.Run env f).events = [] ∧
        mkdirCalls (NewRenamedbCmd.Run env f).events = []) ∧
    (∀ (env : CmdEnv) (f : DropdbFlags), f.dbName = [] →
      (NewDropdbCmd.Run env f).exitCode = 1 ∧ execCalls (NewDropdbCmd.Run env f).events = [] ∧
        mkdirCalls (NewDropdbCmd.Run env f).events = []) ∧
    (∀ (env : CmdEnv) (f : RestoredbFlags), execCalls (NewRestoredbCmd.Run env f).events ≠ []) ∧
    execCalls (NewRestoredbCmd.Run okEnv
        { odooBin := [], configPath := [], dbName := [], newName := [], backupDir := [],
          force := none, neutralize := none }).events
      = [("/workspace/odoo/odoo-bin".toList,
          ["db".toList, "-c".toList, "/workspace/odoo.conf".toList, "load".toList, [],
            "/workspace/dbs/.zip".toList])] ∧
    mkdirCalls (NewRestoredbCmd.Run okEnv
        { odooBin := [], configPath := [], dbName := [], newName := [], backupDir := [],
          force := none, neutralize := none }).events
      = ["/workspace/dbs".toList] ∧
    (NewRestoredbCmd.Run okEnv
        { odooBin := [], configPath := [], dbName := [], newName := [], backupDir := [],
          force := none, neutralize := none }).exitCode = 0 := by
  refine ⟨?_, ?_, ?_, ?_, ?_, ?_, by decide, by decide, by decide⟩
  · intro env f h
    simp [NewInitDBCmd.Run, h, execCalls, mkdirCalls]
  · intro env f h
    simp [NewBackupdbCmd.Run, h, execCalls, mkdirCalls]
  · intro env f h
    simp [NewCopydbCmd.Run, h, execCalls, mkdirCalls]
  · intro env f h
    simp [NewRenamedbCmd.Run, h, execCalls, mkdirCalls]
  · intro env f h
    simp [NewDropdbCmd.Run, h, execCalls, mkdirCalls]
  · intro env f
    rw [NewRestoredbCmd_execCalls]
    simp

/-- C13 refuted as stated: `copydb` with `--database=--force` and
`--new-db=b`, the flag `--force` not being passed: the argument vector passed
to the external binary contains `--force`, as the name of the database. -/
theorem copydb_database_named_force :
    execCalls (NewCopydbCmd.Run okEnv
        { odooBin := [], configPath := [], dbName := "--force".toList, newName := "b".toList,
          force := none, neutralize := none }).events
      = [("/workspace/odoo/odoo-bin".toList,
          ["db".toList, "-c".toList, "/workspace/odoo.conf".toList, "duplicate".toList,
            "--force".toList, "b".toList])] ∧
    "--force".toList ∈
      ["db".toList, "-c".toList, "/workspace/odoo.conf".toList, "duplicate".toList,
        "--force".toList, "b".toList] := by
  refine ⟨by decide, by decide⟩

/-- C13, amended: in `copydb`, `restoredb` and `initdb` the argument vector
passed to the external binary is the positional part followed by flags, and
each default-true flag (`--force`, `--neutralize`, `--with-demo`) is among
these flags if and only if the operator passed the flag and its parsed value is
true; so a flag that the operator does not pass is not forwarded, and the
vector as a whole contains the text of the flag if and only if the flag was
passed with the value true or the config path or one of the positional
arguments is that text. -/
theorem default_true_flags_forwarded (env : CmdEnv) (fc : CopydbFlags) (fr : RestoredbFlags)
    (fi : InitDBFlags) :
    (fc.dbName ≠ [] → fc.newName ≠ [] →
      ∃ flags, execCalls (NewCopydbCmd.Run env fc).events
          = [(effectiveBin env fc.odooBin,
              ["db".toList, "-c".toList, effectiveConfig env fc.configPath, "duplicate".toList,
                fc.dbName, fc.newName] ++ flags)] ∧
        ("--force".toList ∈ flags ↔ fc.force = some true) ∧
        ("--neutralize".toList ∈ flags ↔ fc.neutralize = some true)) ∧
    (∃ flags, execCalls (NewRestoredbCmd.Run env fr).events
        = [(effectiveBin env fr.odooBin,
            ["db".toList, "-c".toList, effectiveConfig env fr.configPath, "load".toList,
              (if fr.newName = [] then fr.dbName else fr.newName),
              GetBackupFilePath env.os
                (if fr.backupDir = [] then env.AppConfig.DB.DumpPath else fr.backupDir)
                fr.dbName env.AppConfig.DB.DumpFormat false] ++ flags)] ∧
      ("--force".toList ∈ flags ↔ fr.force = some true) ∧
      ("--neutralize".toList ∈ flags ↔ fr.neutralize = some true)) ∧
    (fi.dbName ≠ [] →
      ∃ flags, execCalls (NewInitDBCmd.Run env fi).events
          = [(effectiveBin env fi.odooBin,
              ["db".toList, "-c".toList, effectiveConfig env fi.configPath, "init".toList,
                fi.dbName] ++ flags)] ∧
        ("--with-demo".toList ∈ flags ↔ fi.withDemo = some true) ∧
        ("--force".toList ∈ flags ↔ fi.force = some true)) ∧
    (fc.dbName ≠ [] → fc.newName ≠ [] →
      ∀ bin vector, execCalls (NewCopydbCmd.Run env fc).events = [(bin, vector)] →
        ("--force".toList ∈ vector ↔
          fc.force = some true ∨
            "--force".toList ∈ [effectiveConfig env fc.configPath, fc.dbName, fc.newName]) ∧
        ("--neutralize".toList ∈ vector ↔
          fc.neutralize = some true ∨
            "--neutralize".toList
              ∈ [effectiveConfig env fc.configPath, fc.dbName, fc.newName])) ∧
    (∀ bin vector, execCalls (NewRestoredbCmd.Run env fr).events = [(bin, vector)] →
      ("--force".toList ∈ vector ↔
        fr.force = some true ∨
          "--force".toList ∈ [effectiveConfig env fr.configPath,
            (if fr.newName = [] then fr.dbName else fr.newName),
            GetBackupFilePath env.os
              (if fr.backupDir = [] then env.AppConfig.DB.DumpPath else fr.backupDir)
              fr.dbName env.AppConfig.DB.DumpFormat false]) ∧
      ("--neutralize".toList ∈ vector ↔
        fr.neutralize = some true ∨
          "--neutralize".toList ∈ [effectiveConfig env fr.configPath,
            (if fr.newName = [] then fr.dbName else fr.newName),
            GetBackupFilePath env.os
              (if fr.backupDir = [] then env.AppConfig.DB.DumpPath else fr.backupDir)
              fr.dbName env.AppConfig.DB.DumpFormat false])) ∧
    (fi.dbName ≠ [] →
      ∀ bin vector, execCalls (NewInitDBCmd.Run env fi).events = [(bin, vector)] →
        ("--with-demo".toList ∈ vector ↔
          fi.withDemo = some true ∨
            "--with-demo".toList ∈ [effectiveConfig env fi.configPath, fi.dbName]) ∧
        ("--force".toList ∈ vector ↔
          fi.force = some true ∨
            "--force".toList ∈ [effectiveConfig env fi.configPath, fi.dbName])) := by
  refine ⟨?_, ?_, ?_, ?_, ?_, ?_⟩
  · intro h1 h2
    refine ⟨forceNeutralizeArgs fc.force fc.neutralize, ?_,
      (force_mem_forceNeutralizeArgs _ _).1, (force_mem_forceNeutralizeArgs _ _).2⟩
    rw [NewCopydbCmd_execCalls env fc h1 h2, NewCopydbCmd_cmdArgs_eq]
  · refine ⟨forceNeutralizeArgs fr.force fr.neutralize, ?_,
      (force_mem_forceNeutralizeArgs _ _).1, (force_mem_forceNeutralizeArgs _ _).2⟩
    rw [NewRestoredbCmd_execCalls env fr, NewRestoredbCmd_cmdArgs_eq]
  · intro h1
    refine ⟨initdbFlagArgs fi, ?_, (flags_mem_initdbFlagArgs fi).1,
      (flags_mem_initdbFlagArgs fi).2⟩
    rw [NewInitDBCmd_execCalls env fi h1, NewInitDBCmd_cmdArgs_eq]
  · intro h1 h2 bin vector hv
    rw [NewCopydbCmd_execCalls env fc h1 h2, NewCopydbCmd_cmdArgs_eq] at hv
    simp only [List.cons.injEq, Prod.mk.injEq, and_true] at hv
    obtain ⟨-, rfl⟩ := hv
    constructor
    · change _ ∈ ["db".toList, "-c".toList, _, _] ++ [_, _] ++ _ ↔ _
      rw [mem_argv_iff "--force".toList _ "duplicate".toList [fc.dbName, fc.newName] _
        (by decide) (by decide) (by decide), (force_mem_forceNeutralizeArgs _ _).1]
      exact Or.comm
    · change _ ∈ ["db".toList, "-c".toList, _, _] ++ [_, _] ++ _ ↔ _
      rw [mem_argv_iff "--neutralize".toList _ "duplicate".toList [fc.dbName, fc.newName] _
        (by decide) (by decide) (by decide), (force_mem_forceNeutralizeArgs _ _).2]
      exact Or.comm
  · intro bin vector hv
    rw [NewRestoredbCmd_execCalls env fr, NewRestoredbCmd_cmdArgs_eq] at hv
    simp only [List.cons.injEq, Prod.mk.injEq, and_true] at hv
    obtain ⟨-, rfl⟩ := hv
    constructor
    · change _ ∈ ["db".toList, "-c".toList, _, _] ++ [_, _] ++ _ ↔ _
      rw [mem_argv_iff "--force".toList _ "load".toList [_, _] _
        (by decide) (by decide) (by decide), (force_mem_forceNeutralizeArgs _ _).1]
      exact Or.comm
    · change _ ∈ ["db".toList, "-c".toList, _, _] ++ [_, _] ++ _ ↔ _
      rw [mem_argv_iff "--neutralize".toList _ "load".toList [_, _] _
        (by decide) (by decide) (by decide), (force_mem_forceNeutralizeArgs _ _).2]
      exact Or.comm
  · intro h1 bin vector hv
    rw [NewInitDBCmd_execCalls env fi h1, NewInitDBCmd_cmdArgs_eq] at hv
    simp only [List.cons.injEq, Prod.mk.injEq, and_true] at hv
    obtain ⟨-, rfl⟩ := hv
    constructor
    · change _ ∈ ["db".toList, "-c".toList, _, _] ++ [_] ++ _ ↔ _
      rw [mem_argv_iff "--with-demo".toList _ "init".toList [fi.dbName] _
        (by decide) (by decide) (by decide), (flags_mem_initdbFlagArgs fi).1]
      exact Or.comm
    · change _ ∈ ["db".toList, "-c".toList, _, _] ++ [_] ++ _ ↔ _
      rw [mem_argv_iff "--force".toList _ "init".toList [fi.dbName] _
        (by decide) (by decide) (by decide), (flags_mem_initdbFlagArgs fi).2]
      exact Or.comm

/-- Witness for C13: `copydb` of `a` to `b` with `--force` passed and
`--neutralize=false`. -/
theorem default_true_flags_forwarded_witness :
    ∃ flags, execCalls (NewCopydbCmd.Run okEnv
          { odooBin := [], configPath := [], dbName := "a".toList, newName := "b".toList,
            force := some true, neutralize := some false }).events
        = [("/workspace/odoo/odoo-bin".toList,
            ["db".toList, "-c".toList, "/workspace/odoo.conf".toList, "duplicate".toList,
              "a".toList, "b".toList] ++ flags)] ∧
      ("--force".toList ∈ flags ↔ some true = some true) ∧
      ("--neutralize".toList ∈ flags ↔ some false = some true) :=
  (default_true_flags_forwarded okEnv
    { odooBin := [], configPath := [], dbName := "a".toList, newName := "b".toList,
      force := some true, neutralize := some false }
    { odooBin := [], configPath := [], dbName := [], newName := [], backupDir := [],
      force := none, neutralize := none }
    { odooBin := [], configPath := [], dbName := [], withDemo := none, force := none,
      lang := [], username := [], password := [], country := [] }).1
    (by decide) (by decide)

/-- C14: for every lifecycle command and every flag setting that passes its
validation, the argument vector given to the external binary is `db`, `-c`, the
config path, the verb (`init`, `dump`, `load`, `duplicate`, `rename`, `drop`),
the positional arguments of the verb, and then only operation-specific flags
(`--with-demo`, `--force`, `--neutralize`, `--no-filestore`, `--language=`,
`--username=`, `--password=`, `--country=`). -/
theorem lifecycle_argument_vectors (env : CmdEnv) (fi : InitDBFlags) (fb : BackupdbFlags)
    (fr : RestoredbFlags) (fc : CopydbFlags) (fn : RenamedbFlags) (fd : DropdbFlags) :
    (fi.dbName ≠ [] →
      ∃ flags, execCalls (NewInitDBCmd.Run env fi).events
          = [(effectiveBin env fi.odooBin,
              ["db".toList, "-c".toList, effectiveConfig env fi.configPath, "init".toList]
                ++ [fi.dbName] ++ flags)] ∧
        ∀ x ∈ flags, IsLifecycleFlag x) ∧
    (fb.dbName ≠ [] →
      ∃ flags, execCalls (NewBackupdbCmd.Run env fb).events
          = [(effectiveBin env fb.odooBin,
              ["db".toList, "-c".toList, effectiveConfig env fb.configPath, "dump".toList]
                ++ [fb.dbName,
                  GetBackupFilePath env.os
                    (if fb.dumpPath = [] then env.AppConfig.DB.DumpPath else fb.dumpPath)
                    fb.dbName
                    (if fb.backupFormat = [] then env.AppConfig.DB.DumpFormat
                      else fb.backupFormat)
                    fb.noFilestore]
                ++ flags)] ∧
        ∀ x ∈ flags, IsLifecycleFlag x) ∧
    (∃ flags, execCalls (NewRestoredbCmd.Run env fr).events
        = [(effectiveBin env fr.odooBin,
            ["db".toList, "-c".toList, effectiveConfig env fr.configPath, "load".toList]
              ++ [(if fr.newName = [] then fr.dbName else fr.newName),
                GetBackupFilePath env.os
                  (if fr.backupDir = [] then env.AppConfig.DB.DumpPath else fr.backupDir)
                  fr.dbName env.AppConfig.DB.DumpFormat false]
              ++ flags)] ∧
      ∀ x ∈ flags, IsLifecycleFlag x) ∧
    (fc.dbName ≠ [] → fc.newName ≠ [] →
      ∃ flags, execCalls (NewCopydbCmd.Run env fc).events
          = [(effectiveBin env fc.odooBin,
              ["db".toList, "-c".toList, effectiveConfig env fc.configPath, "duplicate".toList]
                ++ [fc.dbName, fc.newName] ++ flags)] ∧
        ∀ x ∈ flags, IsLifecycleFlag x) ∧
    (fn.dbName ≠ [] → fn.newName ≠ [] →
      ∃ flags, execCalls (NewRenamedbCmd.Run env fn).events
          = [(effectiveBin env fn.odooBin,
              ["db".toList, "-c".toList, effectiveConfig env fn.configPath, "rename".toList]
                ++ [fn.dbName, fn.newName] ++ flags)] ∧
        ∀ x ∈ flags, IsLifecycleFlag x) ∧
    (fd.dbName ≠ [] →
      execCalls (NewDropdbCmd.Run env fd).events
        = [(effectiveBin env fd.odooBin,
            ["db".toList, "-c".toList, effectiveConfig env fd.configPath, "drop".toList]
              ++ [fd.dbName])]) := by
  refine ⟨?_, ?_, ?_, ?_, ?_, ?_⟩
  · intro h
    refine ⟨initdbFlagArgs fi, ?_, IsLifecycleFlag_initdbFlagArgs fi⟩
    rw [NewInitDBCmd_execCalls env fi h, NewInitDBCmd_cmdArgs_eq]
    rfl
  · intro h
    refine ⟨optFlag fb.noFilestore "--no-filestore".toList, ?_, ?_⟩
    · rw [NewBackupdbCmd_execCalls env fb h, NewBackupdbCmd_cmdArgs_eq]
      rfl
    · intro x hx
      rw [mem_optFlag] at hx
      exact Or.inr (Or.inr (Or.inr (Or.inl hx.2)))
  · refine ⟨forceNeutralizeArgs fr.force fr.neutralize, ?_,
      IsLifecycleFlag_forceNeutralizeArgs _ _⟩
    rw [NewRestoredbCmd_execCalls env fr, NewRestoredbCmd_cmdArgs_eq]
    rfl
  · intro h h2
    refine ⟨forceNeutralizeArgs fc.force fc.neutralize, ?_,
      IsLifecycleFlag_forceNeutralizeArgs _ _⟩
    rw [NewCopydbCmd_execCalls env fc h h2, NewCopydbCmd_cmdArgs_eq]
    rfl
  · intro h h2
    refine ⟨optFlag fn.force.isSome "--force".toList, ?_, ?_⟩
    · rw [NewRenamedbCmd_execCalls env fn h h2, NewRenamedbCmd_cmdArgs_eq]
      rfl
    · intro x hx
      rw [mem_optFlag] at hx
      exact Or.inr (Or.inl hx.2)
  · intro h
    rw [NewDropdbCmd_execCalls env fd h]
    rfl

/-- Witness for C14: `initdb` of `a` with `--force` and a language, under the
default settings. -/
theorem lifecycle_argument_vectors_witness :
    ∃ flags, execCalls (NewInitDBCmd.Run okEnv
          { odooBin := [], configPath := [], dbName := "a".toList, withDemo := none,
            force := some true, lang := "fr_FR".toList, username := [], password := [],
            country := [] }).events
        = [("/workspace/odoo/odoo-bin".toList,
            ["db".toList, "-c".toList, "/workspace/odoo.conf".toList, "init".toList]
              ++ ["a".toList] ++ flags)] ∧
      ∀ x ∈ flags, IsLifecycleFlag x :=
  (lifecycle_argument_vectors okEnv
    { odooBin := [], configPath := [], dbName := "a".toList, withDemo := none,
      force := some true, lang := "fr_FR".toList, username := [], password := [],
      country := [] }
    { odooBin := [], configPath := [], dbName := [], dumpPath := [], backupFormat := [],
      noFilestore := false }
    { odooBin := [], configPath := [], dbName := [], newName := [], backupDir := [],
      force := none, neutralize := none }
    { odooBin := [], configPath := [], dbName := [], newName := [], force := none,
      neutralize := none }
    { odooBin := [], configPath := [], dbName := [], newName := [], force := none }
    { odooBin := [], configPath := [], dbName := [] }).1 (by decide)

/-- C19 refuted as stated: `renamedb` with `--database=a` and
`--new-db=--force`, the flag `--force` not being passed: the argument vector
passed to the external binary contains `--force`, as the new name. -/
theorem renamedb_new_name_force :
    execCalls (NewRenamedbCmd.Run okEnv
        { odooBin := [], configPath := [], dbName := "a".toList, newName := "--force".toList,
          force := none }).events
      = [("/workspace/odoo/odoo-bin".toList,
          ["db".toList, "-c".toList, "/workspace/odoo.conf".toList, "rename".toList,
            "a".toList, "--force".toList])] ∧
    "--force".toList ∈
      ["db".toList, "-c".toList, "/workspace/odoo.conf".toList, "rename".toList,
        "a".toList, "--force".toList] := by
  refine ⟨by decide, by decide⟩

/-- C19, amended: in `renamedb`, with both names given, the argument vector
passed to the external binary is `db`, `-c`, the config path, `rename`, the
two names, followed by `--force` if and only if the operator passed the flag
`--force`, whatever its value (so `--force=false` forwards `--force` too); the
vector as a whole contains `--force` if and only if the flag was passed or the
config path or one of the two names is that text. -/
theorem renamedb_force_forwarded (env : CmdEnv) (f : RenamedbFlags) (h : f.dbName ≠ [])
    (h2 : f.newName ≠ []) :
    (f.force = none →
      execCalls (NewRenamedbCmd.Run env f).events
        = [(effectiveBin env f.odooBin,
            ["db".toList, "-c".toList, effectiveConfig env f.configPath, "rename".toList,
              f.dbName, f.newName])]) ∧
    (∀ v, f.force = some v →
      execCalls (NewRenamedbCmd.Run env f).events
        = [(effectiveBin env f.odooBin,
            ["db".toList, "-c".toList, effectiveConfig env f.configPath, "rename".toList,
              f.dbName, f.newName, "--force".toList])]) ∧
    ∃ flags, execCalls (NewRenamedbCmd.Run env f).events
        = [(effectiveBin env f.odooBin,
            ["db".toList, "-c".toList, effectiveConfig env f.configPath, "rename".toList,
              f.dbName, f.newName] ++ flags)] ∧
      ("--force".toList ∈ flags ↔ f.force ≠ none) ∧
      ∀ bin vector, execCalls (NewRenamedbCmd.Run env f).events = [(bin, vector)] →
        ("--force".toList ∈ vector ↔
          f.force ≠ none ∨
            "--force".toList ∈ [effectiveConfig env f.configPath, f.dbName, f.newName]) := by
  rw [NewRenamedbCmd_execCalls env f h h2, NewRenamedbCmd_cmdArgs_eq]
  refine ⟨?_, ?_, ?_⟩
  · intro hn
    simp [hn, optFlag]
  · intro v hv
    simp [hv, optFlag]
  · have hflag : "--force".toList ∈ optFlag f.force.isSome "--force".toList ↔ f.force ≠ none := by
      rw [mem_optFlag]
      cases f.force <;> simp
    refine ⟨optFlag f.force.isSome "--force".toList, rfl, hflag, ?_⟩
    intro bin vector hv
    simp only [List.cons.injEq, Prod.mk.injEq, and_true] at hv
    obtain ⟨-, rfl⟩ := hv
    change _ ∈ ["db".toList, "-c".toList, _, _] ++ [_, _] ++ _ ↔ _
    rw [mem_argv_iff "--force".toList _ "rename".toList [f.dbName, f.newName] _
      (by decide) (by decide) (by decide), hflag]
    exact Or.comm

/-- Witness for C19: `renamedb` of `a` to `b` with `--force=false`. -/
theorem renamedb_force_forwarded_witness :
    execCalls (NewRenamedbCmd.Run okEnv
        { odooBin := [], configPath := [], dbName := "a".toList, newName := "b".toList,
          force := some false }).events
      = [("/workspace/odoo/odoo-bin".toList,
          ["db".toList, "-c".toList, "/workspace/odoo.conf".toList, "rename".toList,
            "a".toList, "b".toList, "--force".toList])] :=
  (renamedb_force_forwarded okEnv
    { odooBin := [], configPath := [], dbName := "a".toList, newName := "b".toList,
      force := some false } (by decide) (by decide)).2.1 false rfl

/-! ## Lemmas: server supervisor -/

theorem completionReads_append (a b : List SupEvent) :
    completionReads (a ++ b) = completionReads a + completionReads b := by
  induction a with
  | nil => simp [completionReads]
  | cons e rest ih => cases e <;> simp [completionReads, ih]; omega

theorem killCalls_append (a b : List SupEvent) :
    killCalls (a ++ b) = killCalls a + killCalls b := by
  induction a with
  | nil => simp [killCalls]
  | cons e rest ih => cases e <;> simp [killCalls, ih]; omega

theorem waitCalls_append (a b : List SupEvent) :
    waitCalls (a ++ b) = waitCalls a + waitCalls b := by
  induction a with
  | nil => simp [waitCalls]
  | cons e rest ih => cases e <;> simp [waitCalls, ih]; omega

theorem contextKills_append (a b : List SupEvent) :
    contextKills (a ++ b) = contextKills a + contextKills b := by
  induction a with
  | nil => simp [contextKills]
  | cons e rest ih => cases e <;> simp [contextKills, ih]; omega

/-- In the runs in which `cmd.Wait()` returns, the supervisor that may block
is the supervisor of `startOdooServer`. -/
theorem startOdooServerBlocking_served (cfg : Odoo) (env : SupervisorEnv) :
    cfg.startOdooServerBlocking env true
      = ((cfg.startOdooServer env).1, Outcome.returned (cfg.startOdooServer env).2) := by
  simp only [Odoo.startOdooServerBlocking, Odoo.startOdooServer, Odoo.handleShutdownBlocking,
    Odoo.handleShutdown]
  rcases env.Start with _ | e
  · rcases env.first with sig | err
    · rcases env.second with err | _
      · rfl
      · rcases env.Kill with _ | e <;> rfl
    · rfl
  · rfl

theorem completionReads_handleCompletion (cfg : Odoo) (env : SupervisorEnv)
    (err : Option GoError) : completionReads (cfg.handleCompletion env err).1 = 0 := by
  cases err with
  | none => simp [Odoo.handleCompletion, completionReads]
  | some e =>
    simp only [Odoo.handleCompletion]
    cases env.exitStatus e <;> simp [completionReads]

theorem completionReads_logShutdownResult (cfg : Odoo) (err : Option GoError) :
    completionReads (cfg.logShutdownResult err).1 = 0 := by
  cases err <;> simp [Odoo.logShutdownResult, completionReads]

theorem waitCalls_handleCompletion (cfg : Odoo) (env : SupervisorEnv)
    (err : Option GoError) : waitCalls (cfg.handleCompletion env err).1 = 0 := by
  cases err with
  | none => simp [Odoo.handleCompletion, waitCalls]
  | some e =>
    simp only [Odoo.handleCompletion]
    cases env.exitStatus e <;> simp [waitCalls]

theorem waitCalls_handleShutdown (cfg : Odoo) (env : SupervisorEnv) (sig : GoString)
    (process : Option Nat) : waitCalls (cfg.handleShutdown env sig process).1 = 0 := by
  simp only [Odoo.handleShutdown]
  cases env.second with
  | completion err =>
    cases err <;> cases env.cancelKills <;> simp [Odoo.logShutdownResult, waitCalls]
  | timeout =>
    cases process <;> cases env.Kill <;> simp [waitCalls]

/-! ## Theorems: C15, C16, C17 -/

/-- C15, as the code behaves: the process of the command `start` exits with
code 0 on every run, because the error of `startOdooServer` is dropped by the
`Run` function; so it does when the child cannot be started and
`startOdooServer` returns `failed to start Odoo: ...`, when the child exits
with an error, and when the child cannot be killed. -/
theorem start_exit_code_always_zero :
    (∀ (app : Config) (env : SupervisorEnv), startExitCode app env = 0) ∧
    ((NewStartOdooCmd.Run defaultAppConfig startFailsEnv).2.1
        = some (GoError.wrap
            "failed to start Odoo: exec: no such file or directory".toList
            (GoError.external "exec: no such file or directory".toList)) ∧
      startExitCode defaultAppConfig startFailsEnv = 0) ∧
    (∀ (app : Config) (env : SupervisorEnv) (e : GoError), env.Start = none →
      env.first = FirstSelect.completion (some e) →
      (NewStartOdooCmd.Run app env).2.1
          = some (Errorf "Odoo execution failed: %w".toList [FmtArg.err e]) ∧
        startExitCode app env = 0) ∧
    ((NewStartOdooCmd.Run defaultAppConfig killFailsEnv).2.1 ≠ none ∧
      startExitCode defaultAppConfig killFailsEnv = 0) := by
  refine ⟨fun app env => rfl, ⟨by decide, rfl⟩, ?_, ⟨by decide, rfl⟩⟩
  intro app env e hs hf
  refine ⟨?_, rfl⟩
  simp [NewStartOdooCmd.Run, Odoo.startOdooServer, hs, hf, Odoo.handleCompletion]

/-- C16 refuted as stated: on the path signal, timeout, kill failure, the
supervisor returns without reading any value from the completion channel. -/
theorem kill_failure_reads_nothing :
    killFailsEnv.Start = none ∧ KillFailurePath killFailsEnv ∧
      completionReads
        (Odoo.startOdooServer
          { odooBin := "/workspace/odoo/odoo-bin".toList,
            configPath := "/workspace/odoo.conf".toList } killFailsEnv).1 = 0 := by
  refine ⟨rfl, ⟨⟨"interrupt".toList, rfl⟩, rfl, by decide⟩, by decide⟩

/-- C16, amended: after the child has started, exactly one value is read from
the completion channel before `startOdooServer` returns on every control path
but the one of a failed kill (signal, timeout, kill failure), on which none is
read and the error of the kill is returned, wrapped. -/
theorem completion_reads_per_path (cfg : Odoo) (env : SupervisorEnv)
    (hstart : env.Start = none) :
    (¬ KillFailurePath env → completionReads (cfg.startOdooServer env).1 = 1) ∧
    (KillFailurePath env → completionReads (cfg.startOdooServer env).1 = 0) ∧
    (KillFailurePath env → ∀ e, env.Kill = some e →
      (cfg.startOdooServer env).2
        = some (Errorf "failed to kill process: %w".toList [FmtArg.err e])) := by
  refine ⟨?_, ?_, ?_⟩
  · intro hk
    simp only [Odoo.startOdooServer, hstart]
    rcases hf : env.first with sig | err
    · simp only [completionReads_append, Odoo.handleShutdown]
      rcases h2 : env.second with err |_
      · cases env.cancelKills <;>
          simp [completionReads_append, completionReads_logShutdownResult, completionReads]
      · rcases hkill : env.Kill with _ | e
        · simp [completionReads_append, completionReads]
        · exact absurd ⟨⟨sig, hf⟩, h2, by simp [hkill]⟩ hk
    · simp [completionReads_append, completionReads_handleCompletion, completionReads]
  · rintro ⟨⟨sig, hf⟩, h2, hkill⟩
    obtain ⟨e, he⟩ := Option.ne_none_iff_exists'.mp hkill
    simp [Odoo.startOdooServer, hstart, hf, Odoo.handleShutdown, h2, he,
      completionReads_append, completionReads]
  · rintro ⟨⟨sig, hf⟩, h2, -⟩ e he
    simp [Odoo.startOdooServer, hstart, hf, Odoo.handleShutdown, h2, he]

/-- Witness for C16: signal, timeout and a successful kill; one read. -/
theorem completion_reads_per_path_witness :
    killedEnv.Start = none ∧
      completionReads
        (Odoo.startOdooServer
          { odooBin := "/workspace/odoo/odoo-bin".toList,
            configPath := "/workspace/odoo.conf".toList } killedEnv).1 = 1 :=
  ⟨rfl,
    (completion_reads_per_path
      { odooBin := "/workspace/odoo/odoo-bin".toList,
        configPath := "/workspace/odoo.conf".toList } killedEnv rfl).1
      (by rintro ⟨-, -, h⟩; exact h rfl)⟩

/-- C17 refuted as stated: with a signal, an expired grace period and a kill
that fails, the supervisor returns `failed to kill process: ...` around the
error of the kill, which is not the final status of the child, whether
`cmd.Wait()` returns or not; and with a kill that succeeds and a `cmd.Wait()`
that does not return, the supervisor stays blocked on the completion
channel. -/
theorem kill_failure_returns_kill_error :
    killFailsEnv.first = FirstSelect.signal "interrupt".toList ∧
    killFailsEnv.second = SecondSelect.timeout ∧
    (Odoo.startOdooServer
        { odooBin := "/workspace/odoo/odoo-bin".toList,
          configPath := "/workspace/odoo.conf".toList } killFailsEnv).2
      = some (GoError.wrap "failed to kill process: os: process already finished".toList
          (GoError.external "os: process already finished".toList)) ∧
    (Odoo.startOdooServer
        { odooBin := "/workspace/odoo/odoo-bin".toList,
          configPath := "/workspace/odoo.conf".toList } killFailsEnv).2
      ≠ killFailsEnv.final ∧
    (∀ waitReturns : Bool,
      (Odoo.startOdooServerBlocking
          { odooBin := "/workspace/odoo/odoo-bin".toList,
            configPath := "/workspace/odoo.conf".toList } killFailsEnv waitReturns).2
        = Outcome.returned
            (some (GoError.wrap "failed to kill process: os: process already finished".toList
              (GoError.external "os: process already finished".toList)))) ∧
    killedEnv.first = FirstSelect.signal "interrupt".toList ∧
    killedEnv.second = SecondSelect.timeout ∧ killedEnv.Kill = none ∧
    (Odoo.startOdooServerBlocking
        { odooBin := "/workspace/odoo/odoo-bin".toList,
          configPath := "/workspace/odoo.conf".toList } killedEnv false).2
      = Outcome.blocked := by
  refine ⟨rfl, rfl, by decide, by decide, by decide, rfl, rfl, rfl, by decide⟩

/-- C17, amended: when a signal arrives and the grace period expires, the
child has already been killed once by `os/exec` on the cancelled context, and
the supervisor calls `cmd.Process.Kill()` itself, once; `cmd.Wait()` is called
once.  If the kill of the supervisor fails, the supervisor returns
`failed to kill process: ...` around the error of the kill and reads nothing
from the completion channel.  If it succeeds, the supervisor waits on the
completion channel without a timer: when `cmd.Wait()` returns it reads the
final status of the child, once, and returns it after the deferred calls; when
`cmd.Wait()` does not return it stays blocked. -/
theorem grace_period_expired (cfg : Odoo) (env : SupervisorEnv) (sig : GoString)
    (waitReturns : Bool)
    (hstart : env.Start = none) (hsig : env.first = FirstSelect.signal sig)
    (htimeout : env.second = SecondSelect.timeout) :
    (∀ e, env.Kill = some e →
      cfg.startOdooServerBlocking env waitReturns
        = (timeoutPrefix cfg env sig ++ [SupEvent.kill, SupEvent.signalStop, SupEvent.cancel],
            Outcome.returned
              (some (Errorf "failed to kill process: %w".toList [FmtArg.err e])))) ∧
    (env.Kill = none → waitReturns = true →
      cfg.startOdooServerBlocking env waitReturns
        = (timeoutPrefix cfg env sig ++ [SupEvent.kill, SupEvent.recvErrChan env.final,
              SupEvent.signalStop, SupEvent.cancel],
            Outcome.returned env.final)) ∧
    (env.Kill = none → waitReturns = false →
      cfg.startOdooServerBlocking env waitReturns
        = (timeoutPrefix cfg env sig ++ [SupEvent.kill], Outcome.blocked)) ∧
    ((cfg.startOdooServerBlocking env waitReturns).2 ≠ Outcome.blocked ↔
      (env.Kill ≠ none ∨ waitReturns = true)) ∧
    killCalls (cfg.startOdooServerBlocking env waitReturns).1 = 1 ∧
    contextKills (cfg.startOdooServerBlocking env waitReturns).1 = 1 ∧
    waitCalls (cfg.startOdooServerBlocking env waitReturns).1 = 1 ∧
    completionReads (cfg.startOdooServerBlocking env waitReturns).1
      = (if env.Kill = none ∧ waitReturns = true then 1 else 0) ∧
    contextKills (timeoutPrefix cfg env sig) = 1 ∧ killCalls (timeoutPrefix cfg env sig) = 0 := by
  rcases hkill : env.Kill with _ | e <;> cases waitReturns <;>
    simp [Odoo.startOdooServerBlocking, hstart, hsig, Odoo.handleShutdownBlocking, htimeout,
      hkill, timeoutPrefix, killCalls, contextKills, waitCalls, completionReads]

/-- Witness for C17: signal, timeout and a successful kill, after which
`cmd.Wait()` returns; the child ends with `signal: killed`, which is
returned. -/
theorem grace_period_expired_witness :
    killedEnv.Start = none ∧ killedEnv.first = FirstSelect.signal "interrupt".toList ∧
    killedEnv.second = SecondSelect.timeout ∧
    (Odoo.startOdooServerBlocking
        { odooBin := "/workspace/odoo/odoo-bin".toList,
          configPath := "/workspace/odoo.conf".toList } killedEnv true).2
      = Outcome.returned (some (GoError.external "signal: killed".toList)) :=
  ⟨rfl, rfl, rfl,
    congrArg Prod.snd
      ((grace_period_expired
        { odooBin := "/workspace/odoo/odoo-bin".toList,
          configPath := "/workspace/odoo.conf".toList } killedEnv "interrupt".toList true
        rfl rfl rfl).2.1 rfl rfl)⟩

/-! ## Lemmas: database parameters of the server configuration -/

theorem LoadOdooDBParams_loop_cons (text : GoString) (rest : List GoString)
    (dbConfig : DBConfig) :
    LoadOdooDBParams.loop (text :: rest) dbConfig =
      match keyValue text with
      | none => LoadOdooDBParams.loop rest dbConfig
      | some (key, value) =>
        if key = "db_host".toList then
          LoadOdooDBParams.loop rest { dbConfig with Host := value }
        else if key = "db_port".toList then
          match Atoi value with
          | Except.error err =>
            Except.error
              (Errorf "error convirtiendo db_port a entero: %w".toList [FmtArg.err err])
          | Except.ok port => LoadOdooDBParams.loop rest { dbConfig with Port := port }
        else if key = "db_user".toList then
          LoadOdooDBParams.loop rest { dbConfig with User := value }
        else if key = "db_password".toList then
          LoadOdooDBParams.loop rest { dbConfig with Password := value }
        else LoadOdooDBParams.loop rest dbConfig := by
  rw [LoadOdooDBParams.loop]
  simp only [keyValue]
  split_ifs with h
  · rfl
  · generalize SplitN2 (TrimSpace text) '=' = parts
    rcases parts with _ | ⟨a, _ | ⟨b, _ | ⟨c, l⟩⟩⟩ <;> rfl

theorem lastValueOr_nil (key dflt : GoString) : lastValueOr key [] dflt = dflt := by
  simp [lastValueOr]

theorem lastValueOr_cons (key dflt : GoString) (e : GoString × GoString)
    (es : List (GoString × GoString)) :
    lastValueOr key (e :: es) dflt = lastValueOr key es (if e.1 = key then e.2 else dflt) := by
  unfold lastValueOr
  by_cases h : e.1 = key
  · simp only [h, List.filter_cons, decide_True, if_true, List.getLast?_cons]
    cases (List.filter (fun e => decide (e.1 = key)) es).getLast? <;> rfl
  · simp [h, List.filter_cons]

theorem lastPortOr_nil (dflt : Int) : lastPortOr [] dflt = dflt := by
  simp [lastPortOr]

theorem lastPortOr_cons (dflt : Int) (e : GoString × GoString)
    (es : List (GoString × GoString)) :
    lastPortOr (e :: es) dflt =
      lastPortOr es (if e.1 = "db_port".toList then
        (match Atoi e.2 with
          | Except.ok port => port
          | Except.error _ => 0) else dflt) := by
  unfold lastPortOr
  by_cases h : e.1 = "db_port".toList
  · simp only [h, List.filter_cons, decide_True, if_true, List.getLast?_cons]
    cases (List.filter (fun e => decide (e.1 = "db_port".toList)) es).getLast? <;> rfl
  · simp only [h, List.filter_cons, decide_False, if_false]
    simp

theorem BadPort_nil : ¬ BadPort [] := by
  rintro ⟨v, hv, -⟩
  simp at hv

theorem BadPort_cons (e : GoString × GoString) (es : List (GoString × GoString)) :
    BadPort (e :: es) ↔
      (e.1 = "db_port".toList ∧ ∃ err, Atoi e.2 = Except.error err) ∨ BadPort es := by
  constructor
  · rintro ⟨v, hv, herr⟩
    rcases List.mem_cons.mp hv with h | h
    · left
      rw [← h]
      exact ⟨rfl, herr⟩
    · exact Or.inr ⟨v, h, herr⟩
  · rintro (⟨hk, herr⟩ | ⟨v, hv, herr⟩)
    · refine ⟨e.2, ?_, herr⟩
      rw [← hk]
      exact List.mem_cons_self _ _
    · exact ⟨v, List.mem_cons_of_mem _ hv, herr⟩

theorem host_ne_port : ¬ "db_host".toList = "db_port".toList := by decide

theorem host_ne_user : ¬ "db_host".toList = "db_user".toList := by decide

theorem host_ne_password : ¬ "db_host".toList = "db_password".toList := by decide

theorem port_ne_host : ¬ "db_port".toList = "db_host".toList := by decide

theorem port_ne_user : ¬ "db_port".toList = "db_user".toList := by decide

theorem port_ne_password : ¬ "db_port".toList = "db_password".toList := by decide

theorem user_ne_host : ¬ "db_user".toList = "db_host".toList := by decide

theorem user_ne_port : ¬ "db_user".toList = "db_port".toList := by decide

theorem user_ne_password : ¬ "db_user".toList = "db_password".toList := by decide

theorem password_ne_host : ¬ "db_password".toList = "db_host".toList := by decide

theorem password_ne_port : ¬ "db_password".toList = "db_port".toList := by decide

theorem password_ne_user : ¬ "db_password".toList = "db_user".toList := by decide

theorem LoadOdooDBParams_loop_error_iff (lines : List GoString) :
    ∀ dbConfig : DBConfig,
      (∃ err, LoadOdooDBParams.loop lines dbConfig = Except.error err) ↔
        BadPort (lines.filterMap keyValue) := by
  induction lines with
  | nil =>
    intro dbConfig
    simp [LoadOdooDBParams.loop, BadPort_nil]
  | cons text rest ih =>
    intro dbConfig
    rw [LoadOdooDBParams_loop_cons]
    rcases hkv : keyValue text with _ | ⟨key, value⟩
    · simp only [List.filterMap_cons, hkv]
      exact ih dbConfig
    · simp only [List.filterMap_cons, hkv, BadPort_cons]
      by_cases h1 : key = "db_host".toList
      · subst h1
        simp only [if_pos, host_ne_port, false_and, false_or]
        exact ih _
      · by_cases h2 : key = "db_port".toList
        · subst h2
          simp only [if_pos, if_neg port_ne_host, true_and]
          rcases hat : Atoi value with err | port
          · simp
          · simp only [false_or, exists_false, reduceCtorEq]
            exact ih _
        · by_cases h3 : key = "db_user".toList
          · subst h3
            simp only [if_pos, if_neg user_ne_host, if_neg user_ne_port, user_ne_port,
              false_and, false_or]
            exact ih _
          · by_cases h4 : key = "db_password".toList
            · subst h4
              simp only [if_pos, if_neg password_ne_host, if_neg password_ne_port,
                if_neg password_ne_user, password_ne_port, false_and, false_or]
              exact ih _
            · simp only [if_neg h1, if_neg h2, if_neg h3, if_neg h4, h2, false_and, false_or]
              exact ih _

theorem LoadOdooDBParams_loop_ok (lines : List GoString) :
    ∀ dbConfig r : DBConfig, LoadOdooDBParams.loop lines dbConfig = Except.ok r →
      r = { Host := lastValueOr "db_host".toList (lines.filterMap keyValue) dbConfig.Host
            Port := lastPortOr (lines.filterMap keyValue) dbConfig.Port
            User := lastValueOr "db_user".toList (lines.filterMap keyValue) dbConfig.User
            Password :=
              lastValueOr "db_password".toList (lines.filterMap keyValue)
                dbConfig.Password } := by
  induction lines with
  | nil =>
    intro dbConfig r h
    simp only [LoadOdooDBParams.loop, Except.ok.injEq] at h
    simp [lastValueOr_nil, lastPortOr_nil, ← h]
  | cons text rest ih =>
    intro dbConfig r h
    rw [LoadOdooDBParams_loop_cons] at h
    rcases hkv : keyValue text with _ | ⟨key, value⟩
    · simp only [hkv] at h
      simp only [List.filterMap_cons, hkv]
      exact ih dbConfig r h
    · simp only [hkv] at h
      simp only [List.filterMap_cons, hkv, lastValueOr_cons, lastPortOr_cons]
      by_cases h1 : key = "db_host".toList
      · subst h1
        simp only [if_pos] at h
        rw [ih _ r h]
        simp only [if_pos, if_neg host_ne_port, if_neg host_ne_user, if_neg host_ne_password]
      · by_cases h2 : key = "db_port".toList
        · subst h2
          simp only [if_pos, if_neg port_ne_host] at h
          rcases hat : Atoi value with err | port
          · simp [hat] at h
          · simp only [hat] at h
            rw [ih _ r h]
            simp only [if_pos, if_neg port_ne_host, if_neg port_ne_user,
              if_neg port_ne_password, hat]
        · by_cases h3 : key = "db_user".toList
          · subst h3
            simp only [if_pos, if_neg user_ne_host, if_neg user_ne_port] at h
            rw [ih _ r h]
            simp only [if_pos, if_neg user_ne_host, if_neg user_ne_port,
              if_neg user_ne_password]
          · by_cases h4 : key = "db_password".toList
            · subst h4
              simp only [if_pos, if_neg password_ne_host, if_neg password_ne_port,
                if_neg password_ne_user] at h
              rw [ih _ r h]
              simp only [if_pos, if_neg password_ne_host, if_neg password_ne_port,
                if_neg password_ne_user]
            · simp only [if_neg h1, if_neg h2, if_neg h3, if_neg h4] at h
              rw [ih _ r h]
              simp only [if_neg h1, if_neg h2, if_neg h3, if_neg h4]

/-! ## Theorems: C18 -/

/-- C18 refuted as stated: a readable configuration in which each of
`db_host`, `db_port`, `db_user`, `db_password` has a `key = value` line and the
one `db_port` value, `0`, is an integer; `LoadOdooDBParams` returns the error
for missing parameters. -/
theorem LoadOdooDBParams_port_zero_rejected :
    configEntries portZeroConf
      = [("db_host".toList, "localhost".toList), ("db_port".toList, "0".toList),
          ("db_user".toList, "odoo".toList), ("db_password".toList, "secret".toList)] ∧
    Atoi "0".toList = Except.ok 0 ∧
    LoadOdooDBParams (fileOS portZeroConf) "/workspace/odoo.conf".toList
      = Except.error missingParams := by
  refine ⟨by decide, rfl, rfl⟩

/-- C18, amended: for a readable file, `LoadOdooDBParams` returns an error if
and only if a line is too long for the scanner, or a `db_port` value is no
integer in the range of `int`, or the last value of `db_host`, `db_user` or
`db_password` is missing or empty, or the last `db_port` is missing or `0`;
otherwise it returns the last value of each of the four keys. -/
theorem LoadOdooDBParams_iff (os : OS) (path content : GoString)
    (hread : os.ReadFile path = Except.ok content) :
    (ParamsRejected content → ∃ err, LoadOdooDBParams os path = Except.error err) ∧
    (¬ ParamsRejected content →
      LoadOdooDBParams os path = Except.ok
        { Host := lastValue "db_host".toList (configEntries content)
          Port := lastPortOr (configEntries content) 0
          User := lastValue "db_user".toList (configEntries content)
          Password := lastValue "db_password".toList (configEntries content) }) := by
  have hiff := LoadOdooDBParams_loop_error_iff (scanLines content).1
    { Host := [], Port := 0, User := [], Password := [] }
  have hok := LoadOdooDBParams_loop_ok (scanLines content).1
    { Host := [], Port := 0, User := [], Password := [] }
  simp only [LoadOdooDBParams, hread]
  rcases hloop : LoadOdooDBParams.loop (scanLines content).1
      { Host := [], Port := 0, User := [], Password := [] } with err | r
  · have hbad : BadPort (configEntries content) := hiff.mp ⟨err, hloop⟩
    exact ⟨fun _ => ⟨err, rfl⟩, fun h => absurd (Or.inr (Or.inl hbad)) h⟩
  · have hr := hok r hloop
    have hgood : ¬ BadPort (configEntries content) := by
      intro hbad
      obtain ⟨err, herr⟩ := hiff.mpr hbad
      rw [hloop] at herr
      exact absurd herr (by simp)
    rcases hscan : (scanLines content).2 with _ | serr
    · simp only []
      have hcond : (r.Host = [] ∨ r.Port = 0 ∨ r.User = [] ∨ r.Password = []) ↔
          ParamsRejected content := by
        have hgood2 : ¬ BadPort (List.filterMap keyValue (scanLines content).1) := hgood
        unfold ParamsRejected
        rw [hr]
        simp only [hscan, ne_eq, not_true_eq_false, false_or, hgood2, lastValue, configEntries]
      by_cases hc : r.Host = [] ∨ r.Port = 0 ∨ r.User = [] ∨ r.Password = []
      · rw [if_pos hc]
        exact ⟨fun _ => ⟨_, rfl⟩, fun h => absurd (hcond.mp hc) h⟩
      · rw [if_neg hc]
        refine ⟨fun h => absurd (hcond.mpr h) hc, fun _ => ?_⟩
        rw [hr]
        rfl
    · simp only []
      refine ⟨fun _ => ⟨_, rfl⟩, fun h => absurd (Or.inl ?_) h⟩
      rw [hscan]
      simp

/-- Witness for C18: a configuration that gives the host and the port twice;
the last values are returned. -/
theorem LoadOdooDBParams_iff_witness :
    (fileOS sampleConf).ReadFile "/workspace/odoo.conf".toList = Except.ok sampleConf ∧
    ¬ ParamsRejected sampleConf ∧
    LoadOdooDBParams (fileOS sampleConf) "/workspace/odoo.conf".toList = Except.ok
      { Host := "localhost".toList, Port := 5433, User := "odoo".toList,
        Password := "secret".toList } := by
  have hrej : ¬ ParamsRejected sampleConf := by
    intro h
    have hres : LoadOdooDBParams (fileOS sampleConf) "/workspace/odoo.conf".toList
        = Except.ok
          { Host := "localhost".toList, Port := 5433, User := "odoo".toList,
            Password := "secret".toList } := rfl
    obtain ⟨err, herr⟩ :=
      (LoadOdooDBParams_iff (fileOS sampleConf) "/workspace/odoo.conf".toList sampleConf
        rfl).1 h
    rw [hres] at herr
    exact absurd herr (by simp)
  exact ⟨rfl, hrej, rfl⟩

/-! ## Lemmas: errors of the database operations -/

theorem Wraps_refl (e : GoError) : Wraps e e := by
  cases e <;> simp [Wraps, GoError.chain]

theorem FailsWith_self (e : GoError) : FailsWith (some e) e :=
  ⟨e, rfl, fun _ hx => hx⟩

theorem FailsWith_wrap (t : GoString) (e : GoError) : FailsWith (some (GoError.wrap t e)) e :=
  ⟨_, rfl, fun _ hx => List.mem_cons_of_mem _ hx⟩

theorem FailsWith_Errorf (format : GoString) (e : GoError) :
    FailsWith (some (Errorf format [FmtArg.err e])) e := by
  simp only [Errorf, firstErr]
  exact FailsWith_wrap _ e

theorem FailsWith_Wraps (r : Option GoError) (e : GoError) (h : FailsWith r e) :
    ∃ e2, r = some e2 ∧ Wraps e2 e := by
  obtain ⟨e2, hr, hw⟩ := h
  exact ⟨e2, hr, hw e (Wraps_refl e)⟩

theorem Connect_open_error (d : Driver) (tr : List Event) (dbname : GoString) (c : PGConfig)
    (e : GoError) (h : d.Open (connString c dbname) = some e) :
    FailsWith (errorOf (Connect d tr dbname (some c)).2) e := by
  simp only [Connect, h, errorOf]
  exact FailsWith_Errorf _ e

theorem Connect_ping_error (d : Driver) (tr : List Event) (dbname : GoString) (c : PGConfig)
    (e : GoError) (h : d.Open (connString c dbname) = none)
    (hp : d.Ping (tr ++ [Event.sqlOpen (connString c dbname)] ++ poolEvents c) = some e) :
    FailsWith (errorOf (Connect d tr dbname (some c)).2) e := by
  simp only [Connect, h, hp, errorOf]
  exact FailsWith_Errorf _ e

theorem Sprintf_create (name : GoString) :
    Sprintf "CREATE DATABASE %s ENCODING \x27UTF8\x27".toList
        [FmtArg.str (QuoteIdentifier name)]
      = "CREATE DATABASE ".toList ++ QuoteIdentifier name
          ++ " ENCODING \x27UTF8\x27".toList := by
  simp [Sprintf]

theorem DBExists_connect_error (d : Driver) (q : Queries) (tr tr1 : List Event)
    (name : GoString) (cfg : Option PGConfig) (e : GoError)
    (hC : Connect d tr "postgres".toList cfg = (tr1, Except.error e)) :
    FailsWith (errorOf (DBExists d q tr name cfg).2) e := by
  simp only [DBExists, hC, errorOf]
  exact FailsWith_Errorf _ e

theorem DBExists_query_error (d : Driver) (q : Queries) (tr tr1 : List Event)
    (name : GoString) (cfg : Option PGConfig) (e : GoError)
    (hC : Connect d tr "postgres".toList cfg = (tr1, Except.ok ()))
    (hq : q.QueryRowBool tr1 { query := existsQuery, args := [name] } = Except.error e) :
    (DBExists d q tr name cfg).2
      = Except.error (Errorf "failed to check database existence: %w".toList [FmtArg.err e]) := by
  simp only [DBExists, hC, hq]

theorem CreateDatabase_connect_error (u : Char → Char) (d : Driver) (tr tr1 : List Event)
    (name : GoString) (cfg : Option PGConfig) (e : GoError)
    (hv : IsValidDBName u name = true)
    (hC : Connect d tr "postgres".toList cfg = (tr1, Except.error e)) :
    FailsWith (CreateDatabase u d tr name cfg).2 e := by
  simp only [CreateDatabase, hv, hC]
  exact FailsWith_Errorf _ e

theorem CreateDatabase_exec_error (u : Char → Char) (d : Driver) (tr tr1 : List Event)
    (name : GoString) (cfg : Option PGConfig) (e : GoError)
    (hv : IsValidDBName u name = true)
    (hC : Connect d tr "postgres".toList cfg = (tr1, Except.ok ()))
    (hx : d.Exec tr1 (createStmt name) = some e) :
    FailsWith (CreateDatabase u d tr name cfg).2 e := by
  unfold createStmt at hx
  simp only [CreateDatabase, hv, hC, ExecContext, Sprintf_create, hx]
  exact FailsWith_Errorf _ e

theorem DropDatabase_exec_error (d : Driver) (tr tr1 : List Event) (name : GoString)
    (cfg : Option PGConfig) (e : GoError)
    (hC : Connect d tr "postgres".toList cfg = (tr1, Except.ok ()))
    (hx : d.Exec
      (afterTerminate d tr1 name "Failed to terminate connections, continuing anyway".toList)
      (dropStmt name) = some e) :
    FailsWith (DropDatabase d tr name cfg).2 e := by
  rw [DropDatabase_connect_ok d tr tr1 name cfg hC, hx]
  exact FailsWith_wrap _ e

theorem RenameDatabase_exec_error (u : Char → Char) (d : Driver) (tr tr1 : List Event)
    (oldName newName : GoString) (cfg : Option PGConfig) (e : GoError)
    (hv : IsValidDBName u newName = true)
    (hC : Connect d tr "postgres".toList cfg = (tr1, Except.ok ()))
    (hx : d.Exec (afterTerminate d tr1 oldName "Failed to terminate connections".toList)
      (renameStmt oldName newName) = some e) :
    FailsWith (RenameDatabase u d tr oldName newName cfg).2 e := by
  rw [RenameDatabase_connect_ok u d tr tr1 oldName newName cfg hv hC, hx]
  exact FailsWith_wrap _ e

theorem CreateDatabaseFromTemplate_exec_error (u : Char → Char) (d : Driver)
    (tr tr1 : List Event) (dbname template : GoString) (cfg : Option PGConfig) (e : GoError)
    (hv : IsValidDBName u dbname = true)
    (hC : Connect d tr "postgres".toList cfg = (tr1, Except.ok ()))
    (hx : d.Exec
      (afterTerminate d tr1 template "Failed to terminate template connections".toList)
      (templateStmt dbname template) = some e) :
    FailsWith (CreateDatabaseFromTemplate u d tr dbname template cfg).2 e := by
  rw [CreateDatabaseFromTemplate_connect_ok u d tr tr1 dbname template cfg hv hC, hx]
  exact FailsWith_wrap _ e

theorem scanNames_ok (names acc : List GoString) :
    scanNames (names.map Except.ok) acc = Except.ok (acc ++ names) := by
  induction names generalizing acc with
  | nil => simp [scanNames]
  | cons n rest ih => simp [scanNames, ih]

theorem scanNames_error (names acc : List GoString) (e : GoError)
    (rest : List (Except GoError GoString)) :
    scanNames (names.map Except.ok ++ Except.error e :: rest) acc = Except.error e := by
  induction names generalizing acc with
  | nil => simp [scanNames]
  | cons n more ih => simp [scanNames, ih]

theorem IsInitialized_exists_error (d : Driver) (q : Queries) (tr tr1 : List Event)
    (name : GoString) (cfg : Option PGConfig) (e : GoError)
    (hE : DBExists d q tr name cfg = (tr1, Except.error e)) :
    (IsInitialized d q tr name cfg).2 = Except.error e := by
  simp only [IsInitialized, hE]

theorem IsInitialized_connect_error (d : Driver) (q : Queries) (tr tr1 tr2 : List Event)
    (name : GoString) (cfg : Option PGConfig) (e : GoError)
    (hE : DBExists d q tr name cfg = (tr1, Except.ok true))
    (hC : Connect d tr1 name cfg = (tr2, Except.error e)) :
    FailsWith (errorOf (IsInitialized d q tr name cfg).2) e := by
  simp only [IsInitialized, hE, hC, errorOf]
  exact FailsWith_Errorf _ e

theorem IsInitialized_query_error (d : Driver) (q : Queries) (tr tr1 tr2 : List Event)
    (name : GoString) (cfg : Option PGConfig) (e : GoError)
    (hE : DBExists d q tr name cfg = (tr1, Except.ok true))
    (hC : Connect d tr1 name cfg = (tr2, Except.ok ()))
    (hq : q.QueryRowBool tr2 { query := tableQuery, args := [] } = Except.error e) :
    FailsWith (errorOf (IsInitialized d q tr name cfg).2) e := by
  simp only [IsInitialized, hE, hC, hq, errorOf]
  exact FailsWith_Errorf _ e

theorem IsInitialized_of_DBExists_fails (d : Driver) (q : Queries) (tr : List Event)
    (name : GoString) (cfg : Option PGConfig) (e : GoError)
    (h : FailsWith (errorOf (DBExists d q tr name cfg).2) e) :
    FailsWith (errorOf (IsInitialized d q tr name cfg).2) e := by
  rcases hE : DBExists d q tr name cfg with ⟨tr1, err | found⟩
  · rw [IsInitialized_exists_error d q tr tr1 name cfg err hE]
    rw [hE] at h
    exact h
  · rw [hE] at h
    obtain ⟨e2, h2, -⟩ := h
    simp [errorOf] at h2

theorem ListDatabases_connect_error (d : Driver) (q : Queries) (tr tr1 : List Event)
    (cfg : Option PGConfig) (e : GoError)
    (hC : Connect d tr "postgres".toList cfg = (tr1, Except.error e)) :
    FailsWith (ListDatabases d q tr cfg).2.2 e := by
  simp only [ListDatabases, hC]
  exact FailsWith_Errorf _ e

theorem ListDatabases_query_error (d : Driver) (q : Queries) (tr tr1 : List Event)
    (cfg : Option PGConfig) (e : GoError)
    (hC : Connect d tr "postgres".toList cfg = (tr1, Except.ok ()))
    (hq : q.Query tr1 { query := listQuery, args := [] } = Except.error e) :
    FailsWith (ListDatabases d q tr cfg).2.2 e := by
  simp only [ListDatabases, hC, hq]
  exact FailsWith_Errorf _ e

theorem ListDatabases_scan_error (d : Driver) (q : Queries) (tr tr1 : List Event)
    (cfg : Option PGConfig) (rows : Rows) (names : List GoString) (e : GoError)
    (rest : List (Except GoError GoString))
    (hC : Connect d tr "postgres".toList cfg = (tr1, Except.ok ()))
    (hq : q.Query tr1 { query := listQuery, args := [] } = Except.ok rows)
    (hs : rows.scans = names.map Except.ok ++ Except.error e :: rest) :
    FailsWith (ListDatabases d q tr cfg).2.2 e := by
  simp only [ListDatabases, hC, hq, hs, scanNames_error]
  exact FailsWith_Errorf _ e

theorem ListDatabases_rows_error (d : Driver) (q : Queries) (tr tr1 : List Event)
    (cfg : Option PGConfig) (rows : Rows) (names : List GoString) (e : GoError)
    (hC : Connect d tr "postgres".toList cfg = (tr1, Except.ok ()))
    (hq : q.Query tr1 { query := listQuery, args := [] } = Except.ok rows)
    (hs : rows.scans = names.map Except.ok) (he : rows.err = some e) :
    (ListDatabases d q tr cfg).2.2 = some e := by
  simp only [ListDatabases, hC, hq, hs, scanNames_ok, he]

theorem GetDatabaseSize_connect_error (d : Driver) (q : Queries) (tr tr1 : List Event)
    (name : GoString) (cfg : Option PGConfig) (e : GoError)
    (hC : Connect d tr "postgres".toList cfg = (tr1, Except.error e)) :
    (GetDatabaseSize d q tr name cfg).2 = some (Except.error e) := by
  simp only [GetDatabaseSize, hC]

theorem GetDatabaseSize_query_error (d : Driver) (q : Queries) (tr tr1 : List Event)
    (name : GoString) (cfg : Option PGConfig) (e : GoError)
    (hC : Connect d tr "postgres".toList cfg = (tr1, Except.ok ()))
    (hq : q.QueryRowInt64 tr1 { query := sizeQuery, args := [name] } = Except.error e) :
    (GetDatabaseSize d q tr name cfg).2 = some (Except.error e) := by
  simp only [GetDatabaseSize, hC, hq]

theorem GetInstalledModules_query_error (q : Queries) (tr : List Event) (e : GoError)
    (hq : q.Query tr { query := modulesQuery, args := [] } = Except.error e) :
    FailsWith (errorOf (GetInstalledModules q tr).2) e := by
  simp only [GetInstalledModules, hq, errorOf]
  exact FailsWith_Errorf _ e

theorem GetInstalledModules_scan_error (q : Queries) (tr : List Event) (rows : Rows)
    (names : List GoString) (e : GoError) (rest : List (Except GoError GoString))
    (hq : q.Query tr { query := modulesQuery, args := [] } = Except.ok rows)
    (hs : rows.scans = names.map Except.ok ++ Except.error e :: rest) :
    FailsWith (errorOf (GetInstalledModules q tr).2) e := by
  simp only [GetInstalledModules, hq, hs, scanNames_error, errorOf]
  exact FailsWith_Errorf _ e

theorem GetInstalledModules_rows_error (q : Queries) (tr : List Event) (rows : Rows)
    (names : List GoString) (e : GoError)
    (hq : q.Query tr { query := modulesQuery, args := [] } = Except.ok rows)
    (hs : rows.scans = names.map Except.ok) (he : rows.err = some e) :
    FailsWith (errorOf (GetInstalledModules q tr).2) e := by
  simp only [GetInstalledModules, hq, hs, scanNames_ok, he, errorOf]
  exact FailsWith_Errorf _ e

theorem SetConfigParameter_exec_error (d : Driver) (tr : List Event) (key value : GoString)
    (e : GoError) (hx : d.Exec tr { query := setParamQuery, args := [key, value] } = some e) :
    FailsWith (SetConfigParameter d tr key value).2 e := by
  simp only [SetConfigParameter, ExecContext, hx]
  exact FailsWith_Errorf _ e

theorem GetConfigParameter_query_error (q : Queries) (tr : List Event) (key : GoString)
    (e : GoError)
    (hq : q.QueryRowString tr { query := getParamQuery, args := [key] } = Except.error e)
    (hne : e ≠ ErrNoRows) :
    FailsWith (errorOf (GetConfigParameter q tr key).2) e := by
  simp only [GetConfigParameter, hq, if_neg hne, errorOf]
  exact FailsWith_Errorf _ e

theorem GetConfigParameter_no_rows (q : Queries) (tr : List Event) (key : GoString)
    (hq : q.QueryRowString tr { query := getParamQuery, args := [key] }
      = Except.error ErrNoRows) :
    (GetConfigParameter q tr key).2 = Except.ok [] := by
  simp only [GetConfigParameter, hq, if_true]

theorem ResetConfigParameters_loop_eq (d : Driver) (queries : List GoString) :
    ∀ tr, ResetConfigParameters.loop d queries tr = queries.foldl (afterResetQuery d) tr := by
  induction queries with
  | nil => intro tr; rfl
  | cons query rest ih =>
    intro tr
    simp only [ResetConfigParameters.loop, ExecContext, List.foldl_cons, afterResetQuery]
    cases d.Exec tr { query := query, args := [] } with
    | none => simp [ih]
    | some err => simp [ih]

/-! ## Theorems: C11 -/

/-- C11 refuted as stated: on a connection on which every statement fails,
`ResetConfigParameters` issues its four statements, logs a warning for each,
and returns nil; and `GetConfigParameter` returns the empty string and nil
when the scan of its query fails with `sql.ErrNoRows`. -/
theorem ResetConfigParameters_returns_nil_on_failure :
    (∀ (tr : List Event) (s : Stmt),
      failingDriver.Exec tr s = some (GoError.external "pq: permission denied".toList)) ∧
    (ResetConfigParameters failingDriver []).2 = none ∧
    stmtsOf (ResetConfigParameters failingDriver []).1
      = resetQueries.map (fun query => { query := query, args := [] }) ∧
    noRowsQueries.QueryRowString [] { query := getParamQuery, args := ["web.base.url".toList] }
      = Except.error ErrNoRows ∧
    (GetConfigParameter noRowsQueries [] "web.base.url".toList).2 = Except.ok [] := by
  refine ⟨fun _ _ => rfl, rfl, by decide, rfl, rfl⟩

/-- C11, amended: `Connect` returns an error that wraps the error of the
driver when the open or the ping fails; each of `DBExists`, `IsInitialized`,
`CreateDatabase`, `DropDatabase`, `RenameDatabase`,
`CreateDatabaseFromTemplate` and `ListDatabases` returns a non-nil error that
wraps the error of its failing connect, query, exec or scan step (the
termination of connections excepted, and the name being valid where the
operation validates it), `ListDatabases` returning the error of the iteration
itself; `GetDatabaseSize` returns the error of its connect or query step
itself; `GetInstalledModules` and `SetConfigParameter` wrap the error of their
failing step; `GetConfigParameter` wraps the error of its query unless it is
`sql.ErrNoRows`, for which it returns the empty string and nil; and
`ResetConfigParameters` returns nil whatever fails: it issues its four
statements in order, logs a warning with the error and the text of each
statement that fails, right after it, and none for a statement that succeeds,
and ends with the message of success. -/
theorem database_operations_errors (u : Char → Char) (d : Driver) (q : Queries)
    (tr : List Event) (name other key value : GoString) (cfg : Option PGConfig) :
    (∀ c e, cfg = some c → d.Open (connString c name) = some e →
      FailsWith (errorOf (Connect d tr name cfg).2) e) ∧
    (∀ c e, cfg = some c → d.Open (connString c name) = none →
      d.Ping (tr ++ [Event.sqlOpen (connString c name)] ++ poolEvents c) = some e →
      FailsWith (errorOf (Connect d tr name cfg).2) e) ∧
    (∀ tr1 e, Connect d tr "postgres".toList cfg = (tr1, Except.error e) →
      FailsWith (errorOf (DBExists d q tr name cfg).2) e ∧
      FailsWith (errorOf (IsInitialized d q tr name cfg).2) e ∧
      (IsValidDBName u name = true → FailsWith (CreateDatabase u d tr name cfg).2 e) ∧
      FailsWith (DropDatabase d tr name cfg).2 e ∧
      (IsValidDBName u other = true → FailsWith (RenameDatabase u d tr name other cfg).2 e) ∧
      (IsValidDBName u name = true →
        FailsWith (CreateDatabaseFromTemplate u d tr name other cfg).2 e) ∧
      FailsWith (ListDatabases d q tr cfg).2.2 e ∧
      (GetDatabaseSize d q tr name cfg).2 = some (Except.error e)) ∧
    (∀ tr1, Connect d tr "postgres".toList cfg = (tr1, Except.ok ()) →
      (∀ e, q.QueryRowBool tr1 { query := existsQuery, args := [name] } = Except.error e →
        FailsWith (errorOf (DBExists d q tr name cfg).2) e ∧
        FailsWith (errorOf (IsInitialized d q tr name cfg).2) e) ∧
      (∀ e, IsValidDBName u name = true → d.Exec tr1 (createStmt name) = some e →
        FailsWith (CreateDatabase u d tr name cfg).2 e) ∧
      (∀ e, d.Exec
          (afterTerminate d tr1 name "Failed to terminate connections, continuing anyway".toList)
          (dropStmt name) = some e →
        FailsWith (DropDatabase d tr name cfg).2 e) ∧
      (∀ e, IsValidDBName u other = true →
        d.Exec (afterTerminate d tr1 name "Failed to terminate connections".toList)
          (renameStmt name other) = some e →
        FailsWith (RenameDatabase u d tr name other cfg).2 e) ∧
      (∀ e, IsValidDBName u name = true →
        d.Exec (afterTerminate d tr1 other "Failed to terminate template connections".toList)
          (templateStmt name other) = some e →
        FailsWith (CreateDatabaseFromTemplate u d tr name other cfg).2 e) ∧
      (∀ e, q.Query tr1 { query := listQuery, args := [] } = Except.error e →
        FailsWith (ListDatabases d q tr cfg).2.2 e) ∧
      (∀ (rows : Rows) (names : List GoString) e rest, q.Query tr1 { query := listQuery, args := [] } = Except.ok rows →
        rows.scans = names.map Except.ok ++ Except.error e :: rest →
        FailsWith (ListDatabases d q tr cfg).2.2 e) ∧
      (∀ (rows : Rows) (names : List GoString) e, q.Query tr1 { query := listQuery, args := [] } = Except.ok rows →
        rows.scans = names.map Except.ok → rows.err = some e →
        (ListDatabases d q tr cfg).2.2 = some e) ∧
      (∀ e, q.QueryRowInt64 tr1 { query := sizeQuery, args := [name] } = Except.error e →
        (GetDatabaseSize d q tr name cfg).2 = some (Except.error e))) ∧
    (∀ tr1, DBExists d q tr name cfg = (tr1, Except.ok true) →
      (∀ tr2 e, Connect d tr1 name cfg = (tr2, Except.error e) →
        FailsWith (errorOf (IsInitialized d q tr name cfg).2) e) ∧
      (∀ tr2 e, Connect d tr1 name cfg = (tr2, Except.ok ()) →
        q.QueryRowBool tr2 { query := tableQuery, args := [] } = Except.error e →
        FailsWith (errorOf (IsInitialized d q tr name cfg).2) e)) ∧
    (∀ e, q.Query tr { query := modulesQuery, args := [] } = Except.error e →
      FailsWith (errorOf (GetInstalledModules q tr).2) e) ∧
    (∀ (rows : Rows) (names : List GoString) e rest, q.Query tr { query := modulesQuery, args := [] } = Except.ok rows →
      rows.scans = names.map Except.ok ++ Except.error e :: rest →
      FailsWith (errorOf (GetInstalledModules q tr).2) e) ∧
    (∀ (rows : Rows) (names : List GoString) e, q.Query tr { query := modulesQuery, args := [] } = Except.ok rows →
      rows.scans = names.map Except.ok → rows.err = some e →
      FailsWith (errorOf (GetInstalledModules q tr).2) e) ∧
    (∀ e, d.Exec tr { query := setParamQuery, args := [key, value] } = some e →
      FailsWith (SetConfigParameter d tr key value).2 e) ∧
    (∀ e, q.QueryRowString tr { query := getParamQuery, args := [key] } = Except.error e →
      e ≠ ErrNoRows → FailsWith (errorOf (GetConfigParameter q tr key).2) e) ∧
    (q.QueryRowString tr { query := getParamQuery, args := [key] } = Except.error ErrNoRows →
      (GetConfigParameter q tr key).2 = Except.ok []) ∧
    (ResetConfigParameters d tr).2 = none ∧
    (ResetConfigParameters d tr).1
      = resetQueries.foldl (afterResetQuery d) tr
        ++ [Event.logInfo "Database neutralized successfully".toList []] ∧
    (∀ pre query err, d.Exec pre { query := query, args := [] } = some err →
      afterResetQuery d pre query
        = pre ++ [Event.exec { query := query, args := [] },
            Event.logWarnWith "Failed to execute neutralization query".toList err
              [("query".toList, query)]]) ∧
    (∀ pre query, d.Exec pre { query := query, args := [] } = none →
      afterResetQuery d pre query = pre ++ [Event.exec { query := query, args := [] }]) ∧
    stmtsOf (ResetConfigParameters d []).1
      = resetQueries.map (fun query => { query := query, args := [] }) := by
  refine ⟨?_, ?_, ?_, ?_, ?_, ?_, ?_, ?_, ?_, ?_, ?_, rfl, ?_, ?_, ?_, ?_⟩
  · intro c e hc ho
    subst hc
    exact Connect_open_error d tr name c e ho
  · intro c e hc ho hp
    subst hc
    exact Connect_ping_error d tr name c e ho hp
  · intro tr1 e hC
    have hE := DBExists_connect_error d q tr tr1 name cfg e hC
    refine ⟨hE, IsInitialized_of_DBExists_fails d q tr name cfg e hE, ?_, ?_, ?_, ?_, ?_, ?_⟩
    · exact fun hv => CreateDatabase_connect_error u d tr tr1 name cfg e hv hC
    · rw [DropDatabase_connect_error d tr tr1 name cfg e hC]
      exact FailsWith_wrap _ e
    · intro hv
      rw [RenameDatabase_connect_error u d tr tr1 name other cfg e hv hC]
      exact FailsWith_wrap _ e
    · intro hv
      rw [CreateDatabaseFromTemplate_connect_error u d tr tr1 name other cfg e hv hC]
      exact FailsWith_wrap _ e
    · exact ListDatabases_connect_error d q tr tr1 cfg e hC
    · exact GetDatabaseSize_connect_error d q tr tr1 name cfg e hC
  · intro tr1 hC
    refine ⟨?_, ?_, ?_, ?_, ?_, ?_, ?_, ?_, ?_⟩
    · intro e hq
      have hE : FailsWith (errorOf (DBExists d q tr name cfg).2) e := by
        rw [DBExists_query_error d q tr tr1 name cfg e hC hq]
        exact FailsWith_Errorf _ e
      exact ⟨hE, IsInitialized_of_DBExists_fails d q tr name cfg e hE⟩
    · exact fun e hv hx => CreateDatabase_exec_error u d tr tr1 name cfg e hv hC hx
    · exact fun e hx => DropDatabase_exec_error d tr tr1 name cfg e hC hx
    · exact fun e hv hx => RenameDatabase_exec_error u d tr tr1 name other cfg e hv hC hx
    · exact fun e hv hx =>
        CreateDatabaseFromTemplate_exec_error u d tr tr1 name other cfg e hv hC hx
    · exact fun e hq => ListDatabases_query_error d q tr tr1 cfg e hC hq
    · exact fun rows names e rest hq hs =>
        ListDatabases_scan_error d q tr tr1 cfg rows names e rest hC hq hs
    · exact fun rows names e hq hs he =>
        ListDatabases_rows_error d q tr tr1 cfg rows names e hC hq hs he
    · exact fun e hq => GetDatabaseSize_query_error d q tr tr1 name cfg e hC hq
  · intro tr1 hE
    exact ⟨fun tr2 e hC => IsInitialized_connect_error d q tr tr1 tr2 name cfg e hE hC,
      fun tr2 e hC hq => IsInitialized_query_error d q tr tr1 tr2 name cfg e hE hC hq⟩
  · exact fun e hq => GetInstalledModules_query_error q tr e hq
  · exact fun rows names e rest hq hs =>
      GetInstalledModules_scan_error q tr rows names e rest hq hs
  · exact fun rows names e hq hs he => GetInstalledModules_rows_error q tr rows names e hq hs he
  · exact fun e hx => SetConfigParameter_exec_error d tr key value e hx
  · exact fun e hq hne => GetConfigParameter_query_error q tr key e hq hne
  · exact fun hq => GetConfigParameter_no_rows q tr key hq
  · simp only [ResetConfigParameters, ResetConfigParameters_loop_eq]
  · intro pre query err hx
    simp [afterResetQuery, hx]
  · intro pre query hx
    simp [afterResetQuery, hx]
  · have hstep : ∀ (pre : List Event) (query : GoString),
        stmtsOf (afterResetQuery d pre query)
          = stmtsOf pre ++ [{ query := query, args := [] }] := by
      intro pre query
      simp only [afterResetQuery]
      cases d.Exec pre { query := query, args := [] } <;>
        simp [stmtsOf_append, stmtsOf]
    simp only [ResetConfigParameters, ResetConfigParameters_loop_eq, resetQueries,
      List.foldl_cons, List.foldl_nil, stmtsOf_append, hstep, List.map_cons, List.map_nil]
    simp [stmtsOf]

/-! ## Lemmas and theorem: C22 -/

theorem toNat_lt_of_toLower (c : Char) (h : c.toLower.toNat < RuneSelf) : c.toNat < RuneSelf := by
  by_cases hc : 65 ≤ c.toNat ∧ c.toNat ≤ 90
  · simp only [RuneSelf]
    omega
  · have hl : c.toLower = c := by
      simp only [Char.toLower, ge_iff_le]
      rw [if_neg hc]
    rw [hl] at h
    exact h

theorem reserved_any_iff (x : GoString) :
    (reserved.any fun r => x == r) = true ↔ IsReservedName x := by
  simp [reserved, IsReservedName]

theorem ascii_of_reserved_lower (s : GoString) (h : IsReservedName (s.map Char.toLower)) :
    ∀ c ∈ s, c.toNat < RuneSelf := by
  intro c hc
  apply toNat_lt_of_toLower
  have hm : c.toLower ∈ s.map Char.toLower := List.mem_map_of_mem _ hc
  have h0 : ∀ x ∈ "template0".toList, x.toNat < RuneSelf := by decide
  have h1 : ∀ x ∈ "template1".toList, x.toNat < RuneSelf := by decide
  have h2 : ∀ x ∈ "postgres".toList, x.toNat < RuneSelf := by decide
  rcases h with h | h | h
  · rw [h] at hm
    exact h0 _ hm
  · rw [h] at hm
    exact h1 _ hm
  · rw [h] at hm
    exact h2 _ hm

theorem IsValidDBName_reserved (u : Char → Char) (s : GoString)
    (h : IsReservedName (s.map Char.toLower)) : IsValidDBName u s = false := by
  have hlow := ToLower_ascii u s (ascii_of_reserved_lower s h)
  have hany := (reserved_any_iff _).2 h
  cases s with
  | nil => simp [IsValidDBName, len]
  | cons c0 t =>
    simp only [IsValidDBName, hlow, hany]
    split_ifs <;> rfl

theorem IsValidDBName_of_shape (u : Char → Char) (s : GoString) (hs : IdentShape s)
    (h : ¬ IsReservedName (s.map Char.toLower)) : IsValidDBName u s = true := by
  obtain ⟨h1, h63, ⟨c, hc, hfirst⟩, hword⟩ := hs
  have hall : ∀ x ∈ s, isAlphanumericOrUnderscore x.toNat = true :=
    fun x hx => (isAlphanumericOrUnderscore_iff x).2 (hword x hx)
  have hascii : ∀ x ∈ s, x.toNat < RuneSelf :=
    fun x hx => isAlphanumericOrUnderscore_lt _ (hall x hx)
  have hlen := len_eq_length_of_ascii s hascii
  have hlow := ToLower_ascii u s hascii
  have hany : (s.any fun x => !isAlphanumericOrUnderscore x.toNat) = false := by
    rw [List.any_eq_false]
    intro x hx
    simp [hall x hx]
  have hres : ¬ (reserved.any fun r => s.map Char.toLower == r) = true :=
    fun hr => h ((reserved_any_iff _).1 hr)
  cases s with
  | nil => simp at hc
  | cons c0 t =>
    simp only [List.head?_cons, Option.some.injEq] at hc
    subst hc
    have hc0 : isAlphaOrUnderscore c0.toNat = true := (isAlphaOrUnderscore_iff c0).2 hfirst
    have hlen2 : ¬ (len (c0 :: t) = 0 ∨ len (c0 :: t) > 63) := by
      rw [hlen]
      omega
    simp only [IsValidDBName, hlow, hany, isAlphaOrUnderscore_leadByte, hc0]
    rw [if_neg hlen2]
    simp only [Bool.not_true, Bool.false_eq_true, if_false]
    rw [if_neg hres]

/-- C22: the reserved-name check of `IsValidDBName` is case-insensitive: a
string whose ASCII lower-casing is `template0`, `template1` or `postgres` is
rejected, `Postgres` and `TEMPLATE1` among them, and every other string that
satisfies the rules on length and characters is accepted. -/
theorem reserved_check_case_insensitive (u : Char → Char) (s : GoString) :
    (IsReservedName (s.map Char.toLower) → IsValidDBName u s = false) ∧
    (IdentShape s → ¬ IsReservedName (s.map Char.toLower) → IsValidDBName u s = true) ∧
    IsValidDBName u "Postgres".toList = false ∧
    IsValidDBName u "TEMPLATE1".toList = false := by
  refine ⟨IsValidDBName_reserved u s, IsValidDBName_of_shape u s, ?_, ?_⟩
  · exact IsValidDBName_reserved u _ (Or.inr (Or.inr (by decide)))
  · exact IsValidDBName_reserved u _ (Or.inr (Or.inl (by decide)))

/-- Witness for C22: the name `Template0` is rejected and the name `my_db1`
is accepted, whatever the Unicode case table. -/
theorem reserved_check_case_insensitive_witness :
    IsValidDBName id "Template0".toList = false ∧ IsValidDBName id "my_db1".toList = true :=
  ⟨(reserved_check_case_insensitive id "Template0".toList).1 (Or.inl (by decide)),
    (reserved_check_case_insensitive id "my_db1".toList).2.1
      ⟨by decide, by decide, ⟨'m', rfl, Or.inl (by decide)⟩,
        fun c hc => (isAlphanumericOrUnderscore_iff c).1
          ((by decide : ∀ x ∈ "my_db1".toList, isAlphanumericOrUnderscore x.toNat = true) c hc)⟩
      (by unfold IsReservedName; decide)⟩

/-! ## Lemmas and theorems: C21 -/

theorem GetBackupFilePath_created (os : OS) (d n f : GoString) (b : Bool)
    (h : os.MkdirAll d = none) :
    GetBackupFilePath os d n f b
      = d ++ ('/' :: (n ++ (if b then "_no_fs.".toList else ".".toList) ++ f)) := by
  cases b <;> simp [GetBackupFilePath, h, Sprintf]

theorem GetBackupFilePath_not_created (os : OS) (d n f : GoString) (b : Bool)
    (h : os.MkdirAll d ≠ none) : GetBackupFilePath os d n f b = [] := by
  cases hm : os.MkdirAll d with
  | none => exact absurd hm h
  | some e => simp [GetBackupFilePath, hm]

/-- C21 refuted as stated: where the dump directory cannot be created,
`backupdb --no-filestore` and `restoredb` of the database `a` both pass the
empty string as the file path to the external binary, so the two paths are
equal. -/
theorem backup_restore_paths_equal_without_directory :
    noMkdirEnv.os.MkdirAll "/workspace/dbs".toList ≠ none ∧
    execCalls (NewBackupdbCmd.Run noMkdirEnv
        { odooBin := [], configPath := [], dbName := "a".toList, dumpPath := [],
          backupFormat := [], noFilestore := true }).events
      = [("/workspace/odoo/odoo-bin".toList,
          ["db".toList, "-c".toList, "/workspace/odoo.conf".toList, "dump".toList, "a".toList,
            [], "--no-filestore".toList])] ∧
    execCalls (NewRestoredbCmd.Run noMkdirEnv
        { odooBin := [], configPath := [], dbName := "a".toList, newName := [],
          backupDir := [], force := none, neutralize := none }).events
      = [("/workspace/odoo/odoo-bin".toList,
          ["db".toList, "-c".toList, "/workspace/odoo.conf".toList, "load".toList, "a".toList,
            []])] := by
  refine ⟨by decide, by decide, by decide⟩

/-- C21, amended: for a non-empty database name, the same dump directory and
the configured format, `backupdb` and `restoredb` each invoke the external
binary once, with a dump file path and a backup file path; the two paths are
equal when `backupdb` runs without `--no-filestore` and without a format other
than the configured one; when the directory can be created they differ with
`--no-filestore` or with a format other than the configured one; when the
directory cannot be created both are the empty string. -/
theorem backup_restore_paths (env : CmdEnv) (fb : BackupdbFlags) (fr : RestoredbFlags)
    (hn : fb.dbName ≠ []) (hname : fr.dbName = fb.dbName) (hdir : fr.backupDir = fb.dumpPath) :
    ∃ dumpFile backupFile,
      execCalls (NewBackupdbCmd.Run env fb).events
        = [(effectiveBin env fb.odooBin,
            ["db".toList, "-c".toList, effectiveConfig env fb.configPath, "dump".toList,
              fb.dbName, dumpFile] ++ optFlag fb.noFilestore "--no-filestore".toList)] ∧
      execCalls (NewRestoredbCmd.Run env fr).events
        = [(effectiveBin env fr.odooBin,
            ["db".toList, "-c".toList, effectiveConfig env fr.configPath, "load".toList,
              (if fr.newName = [] then fr.dbName else fr.newName), backupFile]
              ++ forceNeutralizeArgs fr.force fr.neutralize)] ∧
      (fb.noFilestore = false →
        (fb.backupFormat = [] ∨ fb.backupFormat = env.AppConfig.DB.DumpFormat) →
        backupFile = dumpFile) ∧
      (env.os.MkdirAll (if fb.dumpPath = [] then env.AppConfig.DB.DumpPath else fb.dumpPath)
          = none →
        (fb.noFilestore = true ∨
          (fb.backupFormat ≠ [] ∧ fb.backupFormat ≠ env.AppConfig.DB.DumpFormat)) →
        backupFile ≠ dumpFile) ∧
      (env.os.MkdirAll (if fb.dumpPath = [] then env.AppConfig.DB.DumpPath else fb.dumpPath)
          ≠ none →
        backupFile = [] ∧ dumpFile = []) := by
  refine ⟨GetBackupFilePath env.os
      (if fb.dumpPath = [] then env.AppConfig.DB.DumpPath else fb.dumpPath) fb.dbName
      (if fb.backupFormat = [] then env.AppConfig.DB.DumpFormat else fb.backupFormat)
      fb.noFilestore,
    GetBackupFilePath env.os
      (if fr.backupDir = [] then env.AppConfig.DB.DumpPath else fr.backupDir) fr.dbName
      env.AppConfig.DB.DumpFormat false, ?_, ?_, ?_, ?_, ?_⟩
  · rw [NewBackupdbCmd_execCalls env fb hn, NewBackupdbCmd_cmdArgs_eq]
  · rw [NewRestoredbCmd_execCalls env fr, NewRestoredbCmd_cmdArgs_eq]
  · intro hnf hfmt
    rw [hname, hdir, hnf]
    rcases hfmt with h | h
    · rw [if_pos h]
    · by_cases he : fb.backupFormat = []
      · rw [if_pos he]
      · rw [if_neg he, h]
  · intro hmk hcase
    rw [hname, hdir, GetBackupFilePath_created _ _ _ _ _ hmk,
      GetBackupFilePath_created _ _ _ _ _ hmk]
    intro heq
    have h2 := List.cons.inj (List.append_cancel_left heq)
    have h3 := h2.2
    rw [List.append_assoc, List.append_assoc] at h3
    have h4 := List.append_cancel_left h3
    rcases hcase with hnf | ⟨hne, hdiff⟩
    · rw [hnf] at h4
      simp at h4
    · rw [if_neg hne] at h4
      rcases hb : fb.noFilestore with _ | _
      · rw [hb] at h4
        simp only [Bool.false_eq_true, if_false] at h4
        exact hdiff (List.append_cancel_left h4).symm
      · rw [hb] at h4
        simp at h4
  · intro hmk
    rw [hdir]
    exact ⟨GetBackupFilePath_not_created _ _ _ _ _ hmk,
      GetBackupFilePath_not_created _ _ _ _ _ hmk⟩

/-- Witness for C21: `backupdb` and `restoredb` of the database `a` under the
default settings, with directories that can be created; both pass the same
path. -/
theorem backup_restore_paths_witness :
    ∃ path,
      execCalls (NewBackupdbCmd.Run okEnv
          { odooBin := [], configPath := [], dbName := "a".toList, dumpPath := [],
            backupFormat := [], noFilestore := false }).events
        = [("/workspace/odoo/odoo-bin".toList,
            ["db".toList, "-c".toList, "/workspace/odoo.conf".toList, "dump".toList,
              "a".toList, path])] ∧
      execCalls (NewRestoredbCmd.Run okEnv
          { odooBin := [], configPath := [], dbName := "a".toList, newName := [],
            backupDir := [], force := none, neutralize := none }).events
        = [("/workspace/odoo/odoo-bin".toList,
            ["db".toList, "-c".toList, "/workspace/odoo.conf".toList, "load".toList,
              "a".toList, path])] := by
  obtain ⟨dumpFile, backupFile, h1, h2, h3, -, -⟩ :=
    backup_restore_paths okEnv
      { odooBin := [], configPath := [], dbName := "a".toList, dumpPath := [],
        backupFormat := [], noFilestore := false }
      { odooBin := [], configPath := [], dbName := "a".toList, newName := [],
        backupDir := [], force := none, neutralize := none }
      (by decide) rfl rfl
  have heq : backupFile = dumpFile := h3 rfl (Or.inl rfl)
  rw [heq] at h2
  exact ⟨dumpFile, h1, h2⟩

end Ocli
